import Mathlib

/-!
Wardrobe inventory server: the data-access layer.

A shallow embedding of `src/server.js`: the three tables of the embedded
relational store, the record codec (`JSON.stringify` / `JSON.parse` of the
multi-valued columns), the parameter binder of the prepared statements and the
resource handlers, followed by the properties proved about them.

Conventions of the embedding.

* A JavaScript value that can arrive in a JSON request body is a `JVal`;
  a variable that may be `undefined` is an `Option JVal` (`none` is `undefined`).
* Numbers are integers (`Int`); strings are sequences of Unicode scalar values.
* A handler is a function from the store (and the clock reading used for
  `CURRENT_TIMESTAMP`) to the new store and the response.
-/

namespace Wardrobe

/-! ## JavaScript values -/

/-- A value of a parsed JSON document. An object is the list of its own
properties in enumeration order. -/
inductive JVal where
  | null : JVal
  | bool (b : Bool) : JVal
  | num (n : Int) : JVal
  | str (s : String) : JVal
  | arr (xs : List JVal) : JVal
  | obj (kvs : List (String × JVal)) : JVal

/-- The body of a request as `express.json()` delivers it: an object, given by
its properties (an array body has none of the properties the handlers read). -/
abbrev Body := List (String × JVal)

/-- Property read `o.k` on the properties of an object: `none` is `undefined`. -/
def getField (k : String) : List (String × JVal) → Option JVal
  | [] => none
  | (k', v) :: rest => if k' = k then some v else getField k rest

/-- JavaScript truthiness (`!x` is its negation): `undefined`, `null`, `false`,
`0` and the empty string are falsy, every array and object is truthy. -/
def truthy : Option JVal → Bool
  | none => false
  | some .null => false
  | some (.bool b) => b
  | some (.num n) => n != 0
  | some (.str s) => s != ""
  | some (.arr _) => true
  | some (.obj _) => true

/-- The expression `x || d`. -/
def orElse (x : Option JVal) (d : JVal) : JVal :=
  if truthy x then x.getD d else d

/-! ## Record codec: `JSON.stringify` -/

/-- Lower-case hexadecimal digit of a number below sixteen. -/
def hexDigit (n : Nat) : Char :=
  if n < 10 then Char.ofNat (48 + n) else Char.ofNat (87 + n)

/-- The escape of one character inside a JSON string literal, as
`JSON.stringify` writes it: the quote, the backslash and the control characters
are escaped, everything else is copied. -/
def escapeChar (c : Char) : List Char :=
  if c.toNat = 34 then [Char.ofNat 92, Char.ofNat 34]
  else if c.toNat = 92 then [Char.ofNat 92, Char.ofNat 92]
  else if c.toNat = 8 then [Char.ofNat 92, 'b']
  else if c.toNat = 12 then [Char.ofNat 92, 'f']
  else if c.toNat = 10 then [Char.ofNat 92, 'n']
  else if c.toNat = 13 then [Char.ofNat 92, 'r']
  else if c.toNat = 9 then [Char.ofNat 92, 't']
  else if c.toNat < 32 then
    [Char.ofNat 92, 'u', '0', '0', hexDigit (c.toNat / 16), hexDigit (c.toNat % 16)]
  else [c]

/-- Escapes of all characters of a string. -/
def escapeChars : List Char → List Char
  | [] => []
  | c :: cs => escapeChar c ++ escapeChars cs

/-- A JSON string literal. -/
def quote (s : String) : List Char :=
  Char.ofNat 34 :: (escapeChars s.data ++ [Char.ofNat 34])

/-- Decimal digit character. -/
def digitChar (d : Nat) : Char := Char.ofNat (48 + d)

/-- Decimal digits of `n` in front of `acc`; `fuel` bounds the number of digits. -/
def natDigits : Nat → Nat → List Char → List Char
  | 0, _, acc => acc
  | fuel + 1, n, acc =>
    if n < 10 then digitChar n :: acc
    else natDigits fuel (n / 10) (digitChar (n % 10) :: acc)

/-- Decimal rendering of a natural number. -/
def renderNat (n : Nat) : List Char := natDigits (n + 1) n []

/-- Decimal rendering of an integer. -/
def renderInt : Int → List Char
  | .ofNat n => renderNat n
  | .negSucc n => '-' :: renderNat (n + 1)

mutual
/-- The text `JSON.stringify` produces for a value (no indentation). -/
def stringify : JVal → List Char
  | .null => ['n', 'u', 'l', 'l']
  | .bool true => ['t', 'r', 'u', 'e']
  | .bool false => ['f', 'a', 'l', 's', 'e']
  | .num n => renderInt n
  | .str s => quote s
  | .arr [] => ['[', ']']
  | .arr (x :: xs) => '[' :: stringifyElems (x :: xs)
  | .obj [] => [Char.ofNat 123, Char.ofNat 125]
  | .obj (kv :: kvs) => Char.ofNat 123 :: stringifyMembers (kv :: kvs)
/-- Elements of a non-empty array, up to and including the closing bracket. -/
def stringifyElems : List JVal → List Char
  | [] => [']']
  | x :: xs =>
    stringify x ++ (match xs with
      | [] => [']']
      | _ :: _ => ',' :: stringifyElems xs)
/-- Members of a non-empty object, up to and including the closing brace. -/
def stringifyMembers : List (String × JVal) → List Char
  | [] => [Char.ofNat 125]
  | (k, v) :: kvs =>
    quote k ++ ':' :: (stringify v ++ (match kvs with
      | [] => [Char.ofNat 125]
      | _ :: _ => ',' :: stringifyMembers kvs))
end

/-- The call `JSON.stringify(x)`: `undefined` for `undefined`, else the text. -/
def JSON_stringify : Option JVal → Option JVal
  | none => none
  | some v => some (.str (String.mk (stringify v)))

/-! ## Record codec: `JSON.parse` -/

/-- Decimal digit test. -/
def isDigit (c : Char) : Bool := decide (48 ≤ c.toNat) && decide (c.toNat ≤ 57)

/-- Longest run of digits at the front of the input, read as a number on top
of `acc`, and the input after it. -/
def parseDigits : List Char → Nat → Nat × List Char
  | [], acc => (acc, [])
  | c :: cs, acc =>
    if isDigit c then parseDigits cs (acc * 10 + (c.toNat - 48)) else (acc, c :: cs)

/-- Whether every character of the digit run at the front is a zero; returns the
input after the run. -/
def skipZeros : List Char → Option (List Char)
  | [] => some []
  | c :: cs =>
    if c.toNat = 48 then skipZeros cs
    else if isDigit c then none
    else some (c :: cs)

/-- The integer part of a JSON number: `0`, or a digit run without leading zero. -/
def parseNat : List Char → Option (Nat × List Char)
  | [] => none
  | c :: cs =>
    if c.toNat = 48 then
      match cs with
      | [] => some (0, [])
      | d :: ds => if isDigit d then none else some (0, d :: ds)
    else if isDigit c then some (parseDigits (c :: cs) 0)
    else none

/-- What may follow the integer part. A fraction of zeros is read; a number that
is not an integer, or one with an exponent, has no value in this model. -/
def parseFraction : List Char → Option (List Char)
  | [] => some []
  | c :: cs =>
    if c.toNat = 46 then
      match cs with
      | [] => none
      | d :: ds => if isDigit d then skipZeros (d :: ds) else none
    else if c.toNat = 101 ∨ c.toNat = 69 then none
    else some (c :: cs)

/-- A JSON number. -/
def parseNumber : List Char → Option (Int × List Char)
  | [] => none
  | c :: cs =>
    if c.toNat = 45 then
      match parseNat cs with
      | none => none
      | some (n, rest) =>
        match parseFraction rest with
        | none => none
        | some rest' => some (-(n : Int), rest')
    else
      match parseNat (c :: cs) with
      | none => none
      | some (n, rest) =>
        match parseFraction rest with
        | none => none
        | some rest' => some ((n : Int), rest')

/-- Value of a hexadecimal digit. -/
def hexVal (c : Char) : Option Nat :=
  if isDigit c then some (c.toNat - 48)
  else if 97 ≤ c.toNat ∧ c.toNat ≤ 102 then some (c.toNat - 87)
  else if 65 ≤ c.toNat ∧ c.toNat ≤ 70 then some (c.toNat - 55)
  else none

/-- The character a one-letter escape stands for. -/
def unescape (e : Char) : Option Char :=
  if e.toNat = 34 then some (Char.ofNat 34)
  else if e.toNat = 92 then some (Char.ofNat 92)
  else if e.toNat = 47 then some '/'
  else if e = 'b' then some (Char.ofNat 8)
  else if e = 'f' then some (Char.ofNat 12)
  else if e = 'n' then some (Char.ofNat 10)
  else if e = 'r' then some (Char.ofNat 13)
  else if e = 't' then some (Char.ofNat 9)
  else none

/-- The code point of a four-digit escape; a surrogate has no value here. -/
def unicodeEscape (h1 h2 h3 h4 : Char) : Option Char :=
  match hexVal h1, hexVal h2, hexVal h3, hexVal h4 with
  | some a, some b, some c, some d =>
    let v := ((a * 16 + b) * 16 + c) * 16 + d
    if v < 55296 ∨ 57343 < v then some (Char.ofNat v) else none
  | _, _, _, _ => none

/-- The characters of a string literal after its opening quote, and the input
after its closing quote. A raw control character is an error. -/
def parseChars : List Char → Option (List Char × List Char)
  | [] => none
  | c :: cs =>
    if c.toNat = 34 then some ([], cs)
    else if c.toNat = 92 then
      match cs with
      | [] => none
      | e :: cs1 =>
        if e = 'u' then
          match cs1 with
          | h1 :: h2 :: h3 :: h4 :: cs2 =>
            match unicodeEscape h1 h2 h3 h4 with
            | none => none
            | some ch =>
              match parseChars cs2 with
              | none => none
              | some (s, rest) => some (ch :: s, rest)
          | _ => none
        else
          match unescape e with
          | none => none
          | some ch =>
            match parseChars cs1 with
            | none => none
            | some (s, rest) => some (ch :: s, rest)
    else if c.toNat < 32 then none
    else
      match parseChars cs with
      | none => none
      | some (s, rest) => some (c :: s, rest)

/-- The input after a keyword, when the input starts with it. -/
def expect : List Char → List Char → Option (List Char)
  | [], cs => some cs
  | _ :: _, [] => none
  | k :: ks, c :: cs => if c = k then expect ks cs else none

mutual
/-- A JSON value at the front of the input and the input after it. The grammar
is the one `JSON.stringify` writes: no insignificant white space. `fuel` bounds
the nesting and the number of elements; `JSON_parse` supplies enough. -/
def parseValue : Nat → List Char → Option (JVal × List Char)
  | 0, _ => none
  | _ + 1, [] => none
  | fuel + 1, c :: cs =>
    if c.toNat = 34 then
      match parseChars cs with
      | none => none
      | some (s, rest) => some (.str (String.mk s), rest)
    else if c.toNat = 91 then
      match cs with
      | [] => none
      | d :: ds =>
        if d.toNat = 93 then some (.arr [], ds)
        else
          match parseElems fuel (d :: ds) with
          | none => none
          | some (vs, rest) => some (.arr vs, rest)
    else if c.toNat = 123 then
      match cs with
      | [] => none
      | d :: ds =>
        if d.toNat = 125 then some (.obj [], ds)
        else
          match parseMembers fuel (d :: ds) with
          | none => none
          | some (kvs, rest) => some (.obj kvs, rest)
    else if c = 'n' then
      match expect ['u', 'l', 'l'] cs with
      | none => none
      | some rest => some (.null, rest)
    else if c = 't' then
      match expect ['r', 'u', 'e'] cs with
      | none => none
      | some rest => some (.bool true, rest)
    else if c = 'f' then
      match expect ['a', 'l', 's', 'e'] cs with
      | none => none
      | some rest => some (.bool false, rest)
    else
      match parseNumber (c :: cs) with
      | none => none
      | some (n, rest) => some (.num n, rest)
/-- The elements of a non-empty array and its closing bracket. -/
def parseElems : Nat → List Char → Option (List JVal × List Char)
  | 0, _ => none
  | fuel + 1, cs =>
    match parseValue fuel cs with
    | none => none
    | some (v, rest) =>
      match rest with
      | [] => none
      | d :: ds =>
        if d.toNat = 93 then some ([v], ds)
        else if d.toNat = 44 then
          match parseElems fuel ds with
          | none => none
          | some (vs, rest1) => some (v :: vs, rest1)
        else none
/-- The members of a non-empty object and its closing brace. -/
def parseMembers : Nat → List Char → Option (List (String × JVal) × List Char)
  | 0, _ => none
  | _ + 1, [] => none
  | fuel + 1, c :: cs =>
    if c.toNat = 34 then
      match parseChars cs with
      | none => none
      | some (k, rest) =>
        match rest with
        | [] => none
        | e :: es =>
          if e.toNat = 58 then
            match parseValue fuel es with
            | none => none
            | some (v, rest1) =>
              match rest1 with
              | [] => none
              | d :: ds =>
                if d.toNat = 125 then some ([(String.mk k, v)], ds)
                else if d.toNat = 44 then
                  match parseMembers fuel ds with
                  | none => none
                  | some (kvs, rest2) => some ((String.mk k, v) :: kvs, rest2)
                else none
          else none
    else none
end

/-- The text form `ToString(x)` of a value read from a column (a JavaScript
`null`, number or string), which `JSON.parse` applies to its argument. -/
def jsToString : JVal → List Char
  | .str s => s.data
  | v => stringify v

/-- The call `JSON.parse(x)`; `none` when it throws a `SyntaxError`. -/
def JSON_parse (x : JVal) : Option JVal :=
  match parseValue ((jsToString x).length + 1) (jsToString x) with
  | some (v, []) => some v
  | _ => none

/-! ## The relational store -/

/-- A value held in a column, or bound to a statement parameter. -/
inductive SqlVal where
  | null : SqlVal
  | real (n : Int) : SqlVal
  | text (s : String) : SqlVal
  deriving DecidableEq

/-- The JavaScript value the driver returns for a column value. -/
def toJs : SqlVal → JVal
  | .null => .null
  | .real n => .num n
  | .text s => .str s

/-- Column affinity TEXT: a number is stored as its text, which for a bound
double of integral value ends in `.0`. -/
def textAffinity : SqlVal → SqlVal
  | .real n => .text (String.mk (renderInt n ++ ['.', '0']))
  | v => v

/-- The integer a text denotes, when it is an optional sign and a digit run. -/
def numericText (cs : List Char) : Option Int :=
  match cs with
  | [] => none
  | c :: rest =>
    if c.toNat = 45 then
      (match rest, parseDigits rest 0 with
        | _ :: _, (n, []) => some (-(n : Int))
        | _, _ => none)
    else if c.toNat = 43 then
      (match rest, parseDigits rest 0 with
        | _ :: _, (n, []) => some (n : Int)
        | _, _ => none)
    else
      (match parseDigits (c :: rest) 0 with
        | (n, []) => some (n : Int)
        | _ => none)

/-- Column affinity REAL or INTEGER: a text that denotes a number is stored as
that number, any other text is stored as it is. Only integer literals are
recognised, numbers being integers in this model. -/
def numericAffinity : SqlVal → SqlVal
  | .text s =>
    (match numericText s.data with
      | some n => .real n
      | none => .text s)
  | v => v

/-- A row of `wardrobe_items`. -/
structure ItemRow where
  id : Nat
  name : SqlVal
  category : SqlVal
  color : SqlVal
  brand : SqlVal
  price : SqlVal
  seasons : SqlVal
  purchase_date : SqlVal
  image : SqlVal
  notes : SqlVal
  platform : SqlVal
  created_at : String
  updated_at : String
  deriving DecidableEq

/-- A row of `outfit_records`. -/
structure OutfitRow where
  id : Nat
  date : SqlVal
  image : SqlVal
  season : SqlVal
  style : SqlVal
  scene : SqlVal
  items : SqlVal
  notes : SqlVal
  rating : SqlVal
  created_at : String
  updated_at : String
  deriving DecidableEq

/-- A row of `inspiration_list`. -/
structure InspirationRow where
  id : Nat
  title : SqlVal
  image : SqlVal
  description : SqlVal
  tags : SqlVal
  created_at : String
  updated_at : String
  deriving DecidableEq

/-- The database: the rows of the three tables in rowid order, and for each
table the largest rowid ever assigned (its `sqlite_sequence` entry). -/
structure Store where
  items : List ItemRow
  itemSeq : Nat
  outfits : List OutfitRow
  outfitSeq : Nat
  inspirations : List InspirationRow
  inspirationSeq : Nat
  deriving DecidableEq

/-- The database right after the `CREATE TABLE IF NOT EXISTS` statements ran
on a new file. -/
def Store.empty : Store :=
  { items := [], itemSeq := 0, outfits := [], outfitSeq := 0,
    inspirations := [], inspirationSeq := 0 }

/-- The rowid `INTEGER PRIMARY KEY AUTOINCREMENT` assigns: one more than the
largest rowid that ever existed in the table. -/
def nextId (seq : Nat) (ids : List Nat) : Nat := ids.foldl max seq + 1

/-! ## Binding parameters to a prepared statement -/

/-- One bound value: a number, a string or `null`; anything else is a
`TypeError` (`none`). -/
def bindValue : JVal → Option SqlVal
  | .null => some .null
  | .num n => some (.real n)
  | .str s => some (.text s)
  | .bool _ => none
  | .arr _ => none
  | .obj _ => none

/-- The elements of an array argument, each bound as one positional value. -/
def bindArray : List JVal → Option (List SqlVal)
  | [] => some []
  | x :: xs =>
    match bindValue x, bindArray xs with
    | some a, some rest => some (a :: rest)
    | _, _ => none

/-- The arguments of `stmt.run(...)` in order. `undefined` and `null` bind
NULL; an array argument binds each of its elements in turn (the driver treats
`run(a, b)` and `run([a], [b])` alike); a plain object carries named
parameters, of which these statements have none, so it binds nothing, and a
second one is a `TypeError`. The flag tells whether an object was seen. -/
def bindLoop : Bool → List (Option JVal) → Option (List SqlVal)
  | _, [] => some []
  | seen, none :: rest =>
    (match bindLoop seen rest with
      | some ps => some (SqlVal.null :: ps)
      | none => none)
  | seen, some (.arr xs) :: rest =>
    (match bindArray xs, bindLoop seen rest with
      | some a, some ps => some (a ++ ps)
      | _, _ => none)
  | seen, some (.obj _) :: rest =>
    if seen then none else bindLoop true rest
  | seen, some v :: rest =>
    (match bindValue v, bindLoop seen rest with
      | some a, some ps => some (a :: ps)
      | _, _ => none)

/-- Binding the arguments of a statement with `count` positional parameters:
too few or too many values is a `RangeError` (`none`). -/
def bind (count : Nat) (args : List (Option JVal)) : Option (List SqlVal) :=
  match bindLoop false args with
  | some ps => if ps.length = count then some ps else none
  | none => none

/-! ## Statements -/

/-- The statement `INSERT INTO wardrobe_items (name, category, color, brand,
price, seasons, purchase_date, image, notes, platform) VALUES (?, ..., ?)`.
`none` is a constraint failure (`name`, `category`, `color` and `seasons` are
NOT NULL), which leaves the database as it was. Returns `lastInsertRowid`. -/
def insertItem (now : String) (params : List SqlVal) (st : Store) : Option (Store × Nat) :=
  match params with
  | [name, category, color, brand, price, seasons, purchase_date, image, notes, platform] =>
    let row : ItemRow :=
      { id := nextId st.itemSeq (st.items.map (fun r => r.id)),
        name := textAffinity name, category := textAffinity category,
        color := textAffinity color, brand := textAffinity brand,
        price := numericAffinity price, seasons := textAffinity seasons,
        purchase_date := textAffinity purchase_date, image := textAffinity image,
        notes := textAffinity notes, platform := textAffinity platform,
        created_at := now, updated_at := now }
    if row.name = .null ∨ row.category = .null ∨ row.color = .null ∨ row.seasons = .null then
      none
    else some ({ st with items := st.items ++ [row], itemSeq := row.id }, row.id)
  | _ => none

/-- The statement `INSERT INTO outfit_records (date, image, season, style,
scene, items, notes, rating) VALUES (?, ..., ?)`; `date`, `season`, `style`
and `scene` are NOT NULL. -/
def insertOutfit (now : String) (params : List SqlVal) (st : Store) : Option (Store × Nat) :=
  match params with
  | [date, image, season, style, scene, items, notes, rating] =>
    let row : OutfitRow :=
      { id := nextId st.outfitSeq (st.outfits.map (fun r => r.id)),
        date := textAffinity date, image := textAffinity image,
        season := textAffinity season, style := textAffinity style,
        scene := textAffinity scene, items := textAffinity items,
        notes := textAffinity notes, rating := numericAffinity rating,
        created_at := now, updated_at := now }
    if row.date = .null ∨ row.season = .null ∨ row.style = .null ∨ row.scene = .null then
      none
    else some ({ st with outfits := st.outfits ++ [row], outfitSeq := row.id }, row.id)
  | _ => none

/-- The statement `INSERT INTO inspiration_list (title, image, description,
tags) VALUES (?, ?, ?, ?)`; `title` and `image` are NOT NULL. -/
def insertInspiration (now : String) (params : List SqlVal) (st : Store) :
    Option (Store × Nat) :=
  match params with
  | [title, image, description, tags] =>
    let row : InspirationRow :=
      { id := nextId st.inspirationSeq (st.inspirations.map (fun r => r.id)),
        title := textAffinity title, image := textAffinity image,
        description := textAffinity description, tags := textAffinity tags,
        created_at := now, updated_at := now }
    if row.title = .null ∨ row.image = .null then none
    else some ({ st with inspirations := st.inspirations ++ [row],
                         inspirationSeq := row.id }, row.id)
  | _ => none

/-- The query `SELECT * FROM wardrobe_items WHERE id = ?` read with `get`. The
identifier is the integer the path segment denotes. -/
def selectItem (id : Nat) (st : Store) : Option ItemRow :=
  st.items.find? (fun r => r.id == id)

/-- The query `SELECT * FROM outfit_records WHERE id = ?` read with `get`. -/
def selectOutfit (id : Nat) (st : Store) : Option OutfitRow :=
  st.outfits.find? (fun r => r.id == id)

/-- The query `SELECT * FROM inspiration_list WHERE id = ?` read with `get`. -/
def selectInspiration (id : Nat) (st : Store) : Option InspirationRow :=
  st.inspirations.find? (fun r => r.id == id)

/-- The statement `UPDATE wardrobe_items SET name = ?, ..., platform = ?,
updated_at = CURRENT_TIMESTAMP WHERE id = ?`, given the ten values bound before
the identifier. `none` is a NOT NULL failure, which changes nothing. -/
def updateItem (now : String) (params : List SqlVal) (id : Nat) (st : Store) : Option Store :=
  match params with
  | [name, category, color, brand, price, seasons, purchase_date, image, notes, platform] =>
    let set := fun (r : ItemRow) =>
      { r with
        name := textAffinity name, category := textAffinity category,
        color := textAffinity color, brand := textAffinity brand,
        price := numericAffinity price, seasons := textAffinity seasons,
        purchase_date := textAffinity purchase_date, image := textAffinity image,
        notes := textAffinity notes, platform := textAffinity platform,
        updated_at := now }
    if st.items.any (fun r => r.id == id) ∧
        (textAffinity name = .null ∨ textAffinity category = .null ∨
          textAffinity color = .null ∨ textAffinity seasons = .null) then
      none
    else some { st with items := st.items.map (fun r => if r.id == id then set r else r) }
  | _ => none

/-- The statement `UPDATE outfit_records SET date = ?, ..., rating = ?,
updated_at = CURRENT_TIMESTAMP WHERE id = ?`. -/
def updateOutfit (now : String) (params : List SqlVal) (id : Nat) (st : Store) : Option Store :=
  match params with
  | [date, image, season, style, scene, items, notes, rating] =>
    let set := fun (r : OutfitRow) =>
      { r with
        date := textAffinity date, image := textAffinity image,
        season := textAffinity season, style := textAffinity style,
        scene := textAffinity scene, items := textAffinity items,
        notes := textAffinity notes, rating := numericAffinity rating,
        updated_at := now }
    if st.outfits.any (fun r => r.id == id) ∧
        (textAffinity date = .null ∨ textAffinity season = .null ∨
          textAffinity style = .null ∨ textAffinity scene = .null) then
      none
    else some { st with outfits := st.outfits.map (fun r => if r.id == id then set r else r) }
  | _ => none

/-- The statement `UPDATE inspiration_list SET title = ?, image = ?,
description = ?, tags = ?, updated_at = CURRENT_TIMESTAMP WHERE id = ?`. -/
def updateInspiration (now : String) (params : List SqlVal) (id : Nat) (st : Store) :
    Option Store :=
  match params with
  | [title, image, description, tags] =>
    let set := fun (r : InspirationRow) =>
      { r with
        title := textAffinity title, image := textAffinity image,
        description := textAffinity description, tags := textAffinity tags,
        updated_at := now }
    if st.inspirations.any (fun r => r.id == id) ∧
        (textAffinity title = .null ∨ textAffinity image = .null) then
      none
    else some { st with
      inspirations := st.inspirations.map (fun r => if r.id == id then set r else r) }
  | _ => none

/-- The statement `DELETE FROM wardrobe_items WHERE id = ?`. -/
def deleteItemRow (id : Nat) (st : Store) : Store :=
  { st with items := st.items.filter (fun r => !(r.id == id)) }

/-- The statement `DELETE FROM outfit_records WHERE id = ?`. -/
def deleteOutfitRow (id : Nat) (st : Store) : Store :=
  { st with outfits := st.outfits.filter (fun r => !(r.id == id)) }

/-- The statement `DELETE FROM inspiration_list WHERE id = ?`. -/
def deleteInspirationRow (id : Nat) (st : Store) : Store :=
  { st with inspirations := st.inspirations.filter (fun r => !(r.id == id)) }

/-! ## Responses -/

/-- An item as the API returns it: the row with `seasons` decoded. -/
structure ItemRecord where
  id : Nat
  name : SqlVal
  category : SqlVal
  color : SqlVal
  brand : SqlVal
  price : SqlVal
  seasons : JVal
  purchase_date : SqlVal
  image : SqlVal
  notes : SqlVal
  platform : SqlVal
  created_at : String
  updated_at : String

/-- An inspiration as the API returns it: the row with `tags` decoded. -/
structure InspirationRecord where
  id : Nat
  title : SqlVal
  image : SqlVal
  description : SqlVal
  tags : JVal
  created_at : String
  updated_at : String

/-- The object `{...item, seasons: v}`. -/
def ItemRow.toRecord (r : ItemRow) (v : JVal) : ItemRecord :=
  { id := r.id, name := r.name, category := r.category, color := r.color,
    brand := r.brand, price := r.price, seasons := v,
    purchase_date := r.purchase_date, image := r.image, notes := r.notes,
    platform := r.platform, created_at := r.created_at, updated_at := r.updated_at }

/-- The object `{...item, tags: v}`. -/
def InspirationRow.toRecord (r : InspirationRow) (v : JVal) : InspirationRecord :=
  { id := r.id, title := r.title, image := r.image, description := r.description,
    tags := v, created_at := r.created_at, updated_at := r.updated_at }

/-- The `data` member of the answer of `GET /api/statistics`. A distribution
is a list of values with their row counts; `mostExpensive` is a name and a
price, absent when the table is empty. -/
structure ItemStatistics where
  total : Nat
  categoryDistribution : List (SqlVal × Nat)
  colorDistribution : List (SqlVal × Nat)
  mostExpensive : Option (SqlVal × SqlVal)
  monthAdded : Nat

/-- The `data` member of the answer of `GET /api/outfit-statistics`. An entry
of `trend` is a stored `date` and the number of records holding it. -/
structure OutfitStatistics where
  total : Nat
  inspirationTotal : Nat
  monthRecords : Nat
  styleDistribution : List (SqlVal × Nat)
  sceneDistribution : List (SqlVal × Nat)
  trend : List (SqlVal × Nat)

/-- The `data` member of the envelope. -/
inductive Payload where
  | none : Payload
  | statistics (s : ItemStatistics) : Payload
  | item (r : ItemRecord) : Payload
  | items (rs : List ItemRecord) : Payload
  | outfit (r : OutfitRow) : Payload
  | outfits (rs : List OutfitRow) : Payload
  | inspiration (r : InspirationRecord) : Payload
  | inspirations (rs : List InspirationRecord) : Payload
  | outfitStatistics (s : OutfitStatistics) : Payload

/-- The envelope every endpoint answers with, and the HTTP status. -/
structure Response where
  status : Nat
  success : Bool
  message : Option String
  data : Payload
  count : Option Nat

/-- A failure envelope. -/
def failure (status : Nat) (message : String) : Response :=
  { status := status, success := false, message := some message,
    data := .none, count := none }

/-- A success envelope carrying a message and a payload. -/
def success (status : Nat) (message : String) (data : Payload) : Response :=
  { status := status, success := true, message := some message,
    data := data, count := none }

/-! ## Item handlers -/

/-- Handler `app.get('/api/items/:id')`. -/
def getItem (id : Nat) (st : Store) : Response :=
  match selectItem id st with
  | none => failure 404 "衣物不存在"
  | some item =>
    match JSON_parse (toJs item.seasons) with
    | none => failure 500 "获取衣物详情失败"
    | some v =>
      { status := 200, success := true, message := none,
        data := .item (item.toRecord v), count := none }

/-- Handler `app.post('/api/items')`. A destructuring default replaces only a
property that is `undefined`. -/
def createItem (now : String) (body : Body) (st : Store) : Store × Response :=
  let name := getField "name" body
  let category := getField "category" body
  let color := getField "color" body
  let brand := (getField "brand" body).getD (.str "未知品牌")
  let price := (getField "price" body).getD (.num 0)
  let seasons := (getField "seasons" body).getD (.arr [.str "all-season"])
  let purchase_date := getField "purchase_date" body
  let image := getField "image" body
  let notes := (getField "notes" body).getD (.str "")
  let platform := (getField "platform" body).getD (.str "未记录")
  if !truthy name || !truthy category || !truthy color then
    (st, failure 400 "缺少必填字段: name, category, color")
  else
    match bind 10 [name, category, color, some brand, some price,
        JSON_stringify (some seasons), purchase_date, image, some notes, some platform] with
    | none => (st, failure 500 "添加衣物失败")
    | some params =>
      match insertItem now params st with
      | none => (st, failure 500 "添加衣物失败")
      | some (st1, rowid) =>
        match selectItem rowid st1 with
        | none => (st1, failure 500 "添加衣物失败")
        | some newItem =>
          match JSON_parse (toJs newItem.seasons) with
          | none => (st1, failure 500 "添加衣物失败")
          | some v => (st1, success 201 "添加成功" (.item (newItem.toRecord v)))

/-- Handler `app.put('/api/items/:id')`. -/
def replaceItem (now : String) (id : Nat) (body : Body) (st : Store) : Store × Response :=
  let name := getField "name" body
  let category := getField "category" body
  let color := getField "color" body
  let brand := getField "brand" body
  let price := getField "price" body
  let seasons := getField "seasons" body
  let purchase_date := getField "purchase_date" body
  let image := getField "image" body
  let notes := getField "notes" body
  let platform := getField "platform" body
  match selectItem id st with
  | none => (st, failure 404 "衣物不存在")
  | some _ =>
    match bind 10 [name, category, color, brand, price, JSON_stringify seasons,
        purchase_date, image, notes, platform] with
    | none => (st, failure 500 "更新衣物失败")
    | some params =>
      match updateItem now params id st with
      | none => (st, failure 500 "更新衣物失败")
      | some st1 =>
        match selectItem id st1 with
        | none => (st1, failure 500 "更新衣物失败")
        | some updatedItem =>
          match JSON_parse (toJs updatedItem.seasons) with
          | none => (st1, failure 500 "更新衣物失败")
          | some v => (st1, success 200 "更新成功" (.item (updatedItem.toRecord v)))

/-- Handler `app.delete('/api/items/:id')`. -/
def deleteItem (id : Nat) (st : Store) : Store × Response :=
  match selectItem id st with
  | none => (st, failure 404 "衣物不存在")
  | some _ => (deleteItemRow id st, success 200 "删除成功" .none)

/-- Property read `item.k` on an element of a batch: reading a property of
`null` throws (`none`); a string, number, boolean or array has none of the
properties read here. -/
def propOf (k : String) : JVal → Option (Option JVal)
  | .null => none
  | .obj kvs => some (getField k kvs)
  | _ => some none

/-- The arguments of `stmt.run` for one element of an item batch; `none` when
the element is `null`. -/
def itemBatchArgs (item : JVal) : Option (List (Option JVal)) :=
  match item with
  | .null => none
  | _ =>
    let get := fun k => (propOf k item).getD none
    some [get "name", get "category", get "color",
      some (orElse (get "brand") (.str "未知品牌")),
      some (orElse (get "price") (.num 0)),
      JSON_stringify (some (orElse (get "seasons") (.arr [.str "all-season"]))),
      (if truthy (get "purchaseDate") then get "purchaseDate" else get "purchase_date"),
      get "image",
      some (orElse (get "notes") (.str "")),
      some (orElse (get "platform") (.str "未记录"))]

/-- The body of the transaction `insertMany` of the item batch: one insert per
element, in order; `none` as soon as one throws. -/
def insertManyItems (now : String) : List JVal → Store → Option Store
  | [], st => some st
  | item :: rest, st =>
    match itemBatchArgs item with
    | none => none
    | some args =>
      match bind 10 args with
      | none => none
      | some params =>
        match insertItem now params st with
        | none => none
        | some (st1, _) => insertManyItems now rest st1

/-- Handler `app.post('/api/items/batch')`. The transaction commits when the
loop ends and rolls back when it throws. -/
def batchItems (now : String) (body : Body) (st : Store) : Store × Response :=
  match getField "items" body with
  | some (.arr (x :: xs)) =>
    (match insertManyItems now (x :: xs) st with
      | none => (st, failure 500 "批量导入失败")
      | some st1 =>
        (st1, success 200 ("成功导入 " ++ toString (x :: xs).length ++ " 条数据") .none))
  | _ => (st, failure 400 "无效的数据格式")

/-! ## Listing items -/

/-- ASCII lower case, the only case folding `LIKE` does. -/
def lowerAscii (c : Char) : Char :=
  if 65 ≤ c.toNat ∧ c.toNat ≤ 90 then Char.ofNat (c.toNat + 32) else c

/-- Whether `f` holds of the text or of one of its suffixes. -/
def anySuffix (f : List Char → Bool) : List Char → Bool
  | [] => f []
  | c :: cs => f (c :: cs) || anySuffix f cs

/-- The operator `text LIKE pattern` on characters: `%` matches any run of
characters, `_` any one character, a letter matches in either case. -/
def likeMatch : List Char → List Char → Bool
  | [], t => t.isEmpty
  | p :: ps, t =>
    if p.toNat = 37 then anySuffix (fun u => likeMatch ps u) t
    else
      match t with
      | [] => false
      | c :: cs =>
        (decide (p.toNat = 95) || decide (lowerAscii p = lowerAscii c)) && likeMatch ps cs

/-- The characters of a text up to its first U+0000. The function behind `LIKE`
takes both operands as NUL-terminated strings, so it reads a pattern and a text
that far and no further. -/
def upToNul (cs : List Char) : List Char :=
  cs.takeWhile (fun c => c.toNat != 0)

/-- The condition `column LIKE ?` with the parameter `%term%`; NULL matches
nothing. Pattern and text are read up to their first U+0000. The database
refuses a pattern of more than 50000 bytes; a term taken from the query string
of a request is shorter, the head of a request being limited to 16 KiB. -/
def likeContains (term : String) : SqlVal → Bool
  | .null => false
  | .real n =>
    likeMatch (upToNul ('%' :: (term.data ++ ['%']))) (upToNul (renderInt n ++ ['.', '0']))
  | .text s => likeMatch (upToNul ('%' :: (term.data ++ ['%']))) (upToNul s.data)

/-- Insertion of a row into a list ordered by `before`, behind the rows that
come strictly before it. -/
def insertBy {α : Type} (before : α → α → Bool) (x : α) : List α → List α
  | [] => [x]
  | y :: ys => if before y x then y :: insertBy before x ys else x :: y :: ys

/-- The clause `ORDER BY`: rows the order does not tell apart stay in rowid
order (SQL leaves their order open). -/
def orderBy {α : Type} (before : α → α → Bool) (rows : List α) : List α :=
  rows.foldr (insertBy before) []

/-- The query string of `GET /api/items`; a parameter counts when it is a
non-empty string. -/
structure ItemQuery where
  category : Option String
  color : Option String
  season : Option String
  search : Option String

/-- Truthiness of a query parameter. -/
def given : Option String → Bool
  | none => false
  | some s => s != ""

/-- The text of the query `GET /api/items` builds. -/
def itemsQueryText (q : ItemQuery) : String :=
  "SELECT * FROM wardrobe_items WHERE 1=1"
    ++ (if given q.category then " AND category = ?" else "")
    ++ (if given q.color then " AND color = ?" else "")
    ++ (if given q.season then " AND seasons LIKE ?" else "")
    ++ (if given q.search then " AND (name LIKE ? OR brand LIKE ? OR notes LIKE ?)" else "")
    ++ " ORDER BY created_at DESC"

/-- The positional parameters `GET /api/items` binds to its query. -/
def itemsQueryParams (q : ItemQuery) : List String :=
  (if given q.category then [q.category.getD ""] else [])
    ++ (if given q.color then [q.color.getD ""] else [])
    ++ (if given q.season then ["%" ++ q.season.getD "" ++ "%"] else [])
    ++ (if given q.search then
          ["%" ++ q.search.getD "" ++ "%", "%" ++ q.search.getD "" ++ "%",
            "%" ++ q.search.getD "" ++ "%"]
        else [])

/-- The `WHERE` clause of `GET /api/items` on one row. -/
def itemMatches (q : ItemQuery) (r : ItemRow) : Bool :=
  (if given q.category then decide (r.category = .text (q.category.getD "")) else true)
    && (if given q.color then decide (r.color = .text (q.color.getD "")) else true)
    && (if given q.season then likeContains (q.season.getD "") r.seasons else true)
    && (if given q.search then
          likeContains (q.search.getD "") r.name || likeContains (q.search.getD "") r.brand
            || likeContains (q.search.getD "") r.notes
        else true)

/-- The step `items.map(item => (\x7b...item, seasons: JSON.parse(item.seasons)\x7d))`;
`none` when a `JSON.parse` throws. -/
def parseItems : List ItemRow → Option (List ItemRecord)
  | [] => some []
  | r :: rs =>
    match JSON_parse (toJs r.seasons), parseItems rs with
    | some v, some recs => some (r.toRecord v :: recs)
    | _, _ => none

/-- Handler `app.get('/api/items')`. -/
def listItems (q : ItemQuery) (st : Store) : Response :=
  let items := orderBy (fun a b => decide (b.created_at < a.created_at))
    (st.items.filter (itemMatches q))
  match parseItems items with
  | none => failure 500 "获取衣物列表失败"
  | some parsedItems =>
    { status := 200, success := true, message := none,
      data := .items parsedItems, count := some parsedItems.length }

/-! ## Outfit handlers -/

/-- Handler `app.get('/api/outfits/:id')`. -/
def getOutfit (id : Nat) (st : Store) : Response :=
  match selectOutfit id st with
  | none => failure 404 "记录不存在"
  | some record =>
    { status := 200, success := true, message := none,
      data := .outfit record, count := none }

/-- Handler `app.post('/api/outfits')`. -/
def createOutfit (now : String) (body : Body) (st : Store) : Store × Response :=
  let date := getField "date" body
  let image := getField "image" body
  let season := getField "season" body
  let style := getField "style" body
  let scene := getField "scene" body
  let items := (getField "items" body).getD (.str "")
  let notes := (getField "notes" body).getD (.str "")
  let rating := (getField "rating" body).getD (.num 0)
  if !truthy date || !truthy season || !truthy style || !truthy scene then
    (st, failure 400 "缺少必填字段: date, season, style, scene")
  else
    match bind 8 [date, image, season, style, scene, some items, some notes, some rating] with
    | none => (st, failure 500 "添加穿搭记录失败")
    | some params =>
      match insertOutfit now params st with
      | none => (st, failure 500 "添加穿搭记录失败")
      | some (st1, rowid) =>
        match selectOutfit rowid st1 with
        | none => (st1, success 201 "添加成功" .none)
        | some newRecord => (st1, success 201 "添加成功" (.outfit newRecord))

/-- Handler `app.put('/api/outfits/:id')`. -/
def replaceOutfit (now : String) (id : Nat) (body : Body) (st : Store) : Store × Response :=
  match selectOutfit id st with
  | none => (st, failure 404 "记录不存在")
  | some _ =>
    match bind 8 [getField "date" body, getField "image" body, getField "season" body,
        getField "style" body, getField "scene" body, getField "items" body,
        getField "notes" body, getField "rating" body] with
    | none => (st, failure 500 "更新穿搭记录失败")
    | some params =>
      match updateOutfit now params id st with
      | none => (st, failure 500 "更新穿搭记录失败")
      | some st1 =>
        match selectOutfit id st1 with
        | none => (st1, success 200 "更新成功" .none)
        | some updatedRecord => (st1, success 200 "更新成功" (.outfit updatedRecord))

/-- Handler `app.delete('/api/outfits/:id')`. -/
def deleteOutfit (id : Nat) (st : Store) : Store × Response :=
  match selectOutfit id st with
  | none => (st, failure 404 "记录不存在")
  | some _ => (deleteOutfitRow id st, success 200 "删除成功" .none)

/-- The arguments of `stmt.run` for one element of an outfit batch. -/
def outfitBatchArgs (record : JVal) : Option (List (Option JVal)) :=
  match record with
  | .null => none
  | _ =>
    let get := fun k => (propOf k record).getD none
    some [get "date", get "image", get "season", get "style", get "scene",
      some (orElse (get "items") (.str "")),
      some (orElse (get "notes") (.str "")),
      some (orElse (get "rating") (.num 0))]

/-- The body of the transaction `insertMany` of the outfit batch. -/
def insertManyOutfits (now : String) : List JVal → Store → Option Store
  | [], st => some st
  | record :: rest, st =>
    match outfitBatchArgs record with
    | none => none
    | some args =>
      match bind 8 args with
      | none => none
      | some params =>
        match insertOutfit now params st with
        | none => none
        | some (st1, _) => insertManyOutfits now rest st1

/-- Handler `app.post('/api/outfits/batch')`. -/
def batchOutfits (now : String) (body : Body) (st : Store) : Store × Response :=
  match getField "records" body with
  | some (.arr (x :: xs)) =>
    (match insertManyOutfits now (x :: xs) st with
      | none => (st, failure 500 "批量导入失败")
      | some st1 =>
        (st1, success 200 ("成功导入 " ++ toString (x :: xs).length ++ " 条记录") .none))
  | _ => (st, failure 400 "无效的数据格式")

/-! ## Inspiration handlers -/

/-- The expression `row.tags ? JSON.parse(row.tags) : []`. -/
def parseTags (tags : SqlVal) : Option JVal :=
  if truthy (some (toJs tags)) then JSON_parse (toJs tags) else some (.arr [])

/-- The step `inspirations.map(...)` of the list handler. -/
def parseInspirations : List InspirationRow → Option (List InspirationRecord)
  | [] => some []
  | r :: rs =>
    match parseTags r.tags, parseInspirations rs with
    | some v, some recs => some (r.toRecord v :: recs)
    | _, _ => none

/-- Handler `app.get('/api/inspirations')`. -/
def listInspirations (st : Store) : Response :=
  let inspirations := orderBy (fun a b => decide (b.created_at < a.created_at)) st.inspirations
  match parseInspirations inspirations with
  | none => failure 500 "获取灵感列表失败"
  | some parsed =>
    { status := 200, success := true, message := none,
      data := .inspirations parsed, count := some parsed.length }

/-- Handler `app.get('/api/inspirations/:id')`. -/
def getInspiration (id : Nat) (st : Store) : Response :=
  match selectInspiration id st with
  | none => failure 404 "灵感不存在"
  | some inspiration =>
    match parseTags inspiration.tags with
    | none => failure 500 "获取灵感详情失败"
    | some v =>
      { status := 200, success := true, message := none,
        data := .inspiration (inspiration.toRecord v), count := none }

/-- Handler `app.post('/api/inspirations')`. -/
def createInspiration (now : String) (body : Body) (st : Store) : Store × Response :=
  let title := getField "title" body
  let image := getField "image" body
  let description := (getField "description" body).getD (.str "")
  let tags := (getField "tags" body).getD (.arr [])
  if !truthy title || !truthy image then
    (st, failure 400 "缺少必填字段: title, image")
  else
    match bind 4 [title, image, some description, JSON_stringify (some tags)] with
    | none => (st, failure 500 "添加灵感失败")
    | some params =>
      match insertInspiration now params st with
      | none => (st, failure 500 "添加灵感失败")
      | some (st1, rowid) =>
        match selectInspiration rowid st1 with
        | none => (st1, failure 500 "添加灵感失败")
        | some newInspiration =>
          match JSON_parse (toJs newInspiration.tags) with
          | none => (st1, failure 500 "添加灵感失败")
          | some v => (st1, success 201 "添加成功" (.inspiration (newInspiration.toRecord v)))

/-- Handler `app.put('/api/inspirations/:id')`. -/
def replaceInspiration (now : String) (id : Nat) (body : Body) (st : Store) :
    Store × Response :=
  match selectInspiration id st with
  | none => (st, failure 404 "灵感不存在")
  | some _ =>
    match bind 4 [getField "title" body, getField "image" body,
        getField "description" body, JSON_stringify (getField "tags" body)] with
    | none => (st, failure 500 "更新灵感失败")
    | some params =>
      match updateInspiration now params id st with
      | none => (st, failure 500 "更新灵感失败")
      | some st1 =>
        match selectInspiration id st1 with
        | none => (st1, failure 500 "更新灵感失败")
        | some updatedInspiration =>
          match JSON_parse (toJs updatedInspiration.tags) with
          | none => (st1, failure 500 "更新灵感失败")
          | some v =>
            (st1, success 200 "更新成功" (.inspiration (updatedInspiration.toRecord v)))

/-- Handler `app.delete('/api/inspirations/:id')`. -/
def deleteInspiration (id : Nat) (st : Store) : Store × Response :=
  match selectInspiration id st with
  | none => (st, failure 404 "灵感不存在")
  | some _ => (deleteInspirationRow id st, success 200 "删除成功" .none)

/-- The arguments of `stmt.run` for one element of an inspiration batch. -/
def inspirationBatchArgs (item : JVal) : Option (List (Option JVal)) :=
  match item with
  | .null => none
  | _ =>
    let get := fun k => (propOf k item).getD none
    some [get "title", get "image",
      some (orElse (get "description") (.str "")),
      JSON_stringify (some (orElse (get "tags") (.arr [])))]

/-- The body of the transaction `insertMany` of the inspiration batch. -/
def insertManyInspirations (now : String) : List JVal → Store → Option Store
  | [], st => some st
  | item :: rest, st =>
    match inspirationBatchArgs item with
    | none => none
    | some args =>
      match bind 4 args with
      | none => none
      | some params =>
        match insertInspiration now params st with
        | none => none
        | some (st1, _) => insertManyInspirations now rest st1

/-- Handler `app.post('/api/inspirations/batch')`. -/
def batchInspirations (now : String) (body : Body) (st : Store) : Store × Response :=
  match getField "inspirations" body with
  | some (.arr (x :: xs)) =>
    (match insertManyInspirations now (x :: xs) st with
      | none => (st, failure 500 "批量导入失败")
      | some st1 =>
        (st1, success 200 ("成功导入 " ++ toString (x :: xs).length ++ " 条灵感") .none))
  | _ => (st, failure 400 "无效的数据格式")

/-! ## Listing outfits -/

/-- The order of stored values that `ORDER BY` uses: NULL first, then numbers
by value, then texts by code points. -/
def sqlLt : SqlVal → SqlVal → Bool
  | .null, .null => false
  | .null, _ => true
  | .real _, .null => false
  | .real a, .real b => decide (a < b)
  | .real _, .text _ => true
  | .text _, .null => false
  | .text _, .real _ => false
  | .text a, .text b => decide (a < b)

/-- The query string of `GET /api/outfits`. The handler reads `season`, `style`
and `search`; any other parameter, such as `scene`, is not read. -/
structure OutfitQuery where
  season : Option String
  style : Option String
  scene : Option String
  search : Option String

/-- The text of the query `GET /api/outfits` builds. -/
def outfitsQueryText (q : OutfitQuery) : String :=
  "SELECT * FROM outfit_records WHERE 1=1"
    ++ (if given q.season then " AND season = ?" else "")
    ++ (if given q.style then " AND style = ?" else "")
    ++ (if given q.search then " AND (items LIKE ? OR notes LIKE ?)" else "")
    ++ " ORDER BY date DESC, created_at DESC"

/-- The positional parameters `GET /api/outfits` binds to its query. -/
def outfitsQueryParams (q : OutfitQuery) : List String :=
  (if given q.season then [q.season.getD ""] else [])
    ++ (if given q.style then [q.style.getD ""] else [])
    ++ (if given q.search then
          ["%" ++ q.search.getD "" ++ "%", "%" ++ q.search.getD "" ++ "%"]
        else [])

/-- The `WHERE` clause of `GET /api/outfits` on one row. -/
def outfitMatches (q : OutfitQuery) (r : OutfitRow) : Bool :=
  (if given q.season then decide (r.season = .text (q.season.getD "")) else true)
    && (if given q.style then decide (r.style = .text (q.style.getD "")) else true)
    && (if given q.search then
          likeContains (q.search.getD "") r.items || likeContains (q.search.getD "") r.notes
        else true)

/-- The clause `ORDER BY date DESC, created_at DESC`: whether `a` comes strictly
before `b`. -/
def outfitBefore (a b : OutfitRow) : Bool :=
  sqlLt b.date a.date || (decide (a.date = b.date) && decide (b.created_at < a.created_at))

/-- Handler `app.get('/api/outfits')`. -/
def listOutfits (q : OutfitQuery) (st : Store) : Response :=
  let records := orderBy outfitBefore (st.outfits.filter (outfitMatches q))
  { status := 200, success := true, message := none,
    data := .outfits records, count := some records.length }

/-! ## Item statistics -/

/-- The query `SELECT key, COUNT(*) as count FROM wardrobe_items GROUP BY key`:
one entry for each value of the column, with the number of rows holding it (SQL
leaves the order of the entries open). -/
def groupCount (key : ItemRow → SqlVal) (rows : List ItemRow) : List (SqlVal × Nat) :=
  ((rows.map key).dedup).map (fun v => (v, (rows.filter (fun r => decide (key r = v))).length))

/-- The query `SELECT name, price FROM wardrobe_items ORDER BY price DESC
LIMIT 1` read with `get`. -/
def mostExpensive (rows : List ItemRow) : Option (SqlVal × SqlVal) :=
  (orderBy (fun (a b : ItemRow) => sqlLt b.price a.price) rows).head?.map
    (fun r => (r.name, r.price))

/-- Handler `app.get('/api/statistics')`. The parameter `thisMonth` is the
condition `strftime('%Y-%m', purchase_date) = strftime('%Y-%m', 'now')` on a
stored `purchase_date`, as the database evaluates it at the time of the
request. -/
def getStatistics (thisMonth : SqlVal → Bool) (st : Store) : Response :=
  { status := 200, success := true, message := none,
    data := .statistics
      { total := st.items.length,
        categoryDistribution := groupCount (fun r => r.category) st.items,
        colorDistribution := groupCount (fun r => r.color) st.items,
        mostExpensive := mostExpensive st.items,
        monthAdded := (st.items.filter (fun r => thisMonth r.purchase_date)).length },
    count := none }

/-! ## Dates and outfit statistics -/

/-- The number of days of month `m` of year `y`. -/
def daysInMonth (y m : Nat) : Nat :=
  if m = 2 then (if (y % 4 = 0 ∧ y % 100 ≠ 0) ∨ y % 400 = 0 then 29 else 28)
  else if m = 4 ∨ m = 6 ∨ m = 9 ∨ m = 11 then 30
  else 31

/-- The number a run of two decimal digits stands for. -/
def twoDigits (a b : Char) : Nat := (a.toNat - 48) * 10 + (b.toNat - 48)

/-- Whether a text has the form `YYYY-MM-DD` and names a day of the calendar. -/
def isCalendarDate (cs : List Char) : Bool :=
  match cs with
  | [y1, y2, y3, y4, p, m1, m2, q, d1, d2] =>
    isDigit y1 && isDigit y2 && isDigit y3 && isDigit y4 && p == '-' &&
      isDigit m1 && isDigit m2 && q == '-' && isDigit d1 && isDigit d2 &&
      decide (1 ≤ twoDigits m1 m2) && decide (twoDigits m1 m2 ≤ 12) &&
      decide (1 ≤ twoDigits d1 d2) &&
      decide (twoDigits d1 d2 ≤
        daysInMonth (twoDigits y1 y2 * 100 + twoDigits y3 y4) (twoDigits m1 m2))
  | _ => false

/-- The SQL function `strftime('%Y-%m', v)`, `none` for NULL. Of the time
values the database reads, the calendar dates `YYYY-MM-DD` are modelled: such a
date yields its year and month. NULL and a text that is no time value, such as
the empty string or a `YYYY-MM` without a day, yield NULL. A text with a time of
day, the text `now`, a Julian day number and a day past the end of its month lie
outside the model. -/
def strftimeYearMonth : SqlVal → Option (List Char)
  | .text s => if isCalendarDate s.data then some (s.data.take 7) else none
  | _ => none

/-- The condition `strftime('%Y-%m', v) = strftime('%Y-%m', 'now')` at a
request made on the day `today`; a comparison with NULL does not hold. -/
def thisMonthOn (today : String) (v : SqlVal) : Bool :=
  match strftimeYearMonth v, strftimeYearMonth (.text today) with
  | some a, some b => a == b
  | _, _ => false

/-- The query `SELECT key, COUNT(*) as count FROM outfit_records GROUP BY key`
over the rows a `WHERE` clause has kept. -/
def groupCountOutfits (key : OutfitRow → SqlVal) (rows : List OutfitRow) :
    List (SqlVal × Nat) :=
  ((rows.map key).dedup).map (fun v => (v, (rows.filter (fun r => decide (key r = v))).length))

/-- Handler `app.get('/api/outfit-statistics')`. The parameter `thisMonth` is
the condition `strftime('%Y-%m', date) = strftime('%Y-%m', 'now')` and `weekAgo`
the value of `date('now', '-7 days')`, both as the database evaluates them at
the time of the request. The clause `date >= date('now', '-7 days')` compares
the stored value with that text in the order of stored values. -/
def getOutfitStatistics (thisMonth : SqlVal → Bool) (weekAgo : String) (st : Store) :
    Response :=
  { status := 200, success := true, message := none,
    data := .outfitStatistics
      { total := st.outfits.length,
        inspirationTotal := st.inspirations.length,
        monthRecords := (st.outfits.filter (fun r => thisMonth r.date)).length,
        styleDistribution := groupCountOutfits (fun r => r.style) st.outfits,
        sceneDistribution := groupCountOutfits (fun r => r.scene) st.outfits,
        trend := orderBy (fun (a b : SqlVal × Nat) => sqlLt a.1 b.1)
          (groupCountOutfits (fun r => r.date)
            (st.outfits.filter (fun r => !sqlLt r.date (.text weekAgo)))) },
    count := none }

/-! ## Auxiliary notions of the proofs -/

/-- The input after a value inside an array or object, or at the end. -/
def Delimited : List Char → Prop
  | [] => True
  | c :: _ => c.toNat = 44 ∨ c.toNat = 93 ∨ c.toNat = 125

mutual
/-- Fuel that suffices to parse the text of a value. -/
def need : JVal → Nat
  | .null => 1
  | .bool _ => 1
  | .num _ => 1
  | .str _ => 1
  | .arr xs => 1 + needElems xs
  | .obj kvs => 1 + needMembers kvs
/-- Fuel that suffices to parse the elements of an array. -/
def needElems : List JVal → Nat
  | [] => 0
  | x :: xs => 1 + need x + needElems xs
/-- Fuel that suffices to parse the members of an object. -/
def needMembers : List (String × JVal) → Nat
  | [] => 0
  | (_, v) :: kvs => 1 + need v + needMembers kvs
end

/-- A value the binder takes as one positional value: `undefined`, `null`, a
number or a string. -/
def isScalar : Option JVal → Bool
  | none => true
  | some .null => true
  | some (.num _) => true
  | some (.str _) => true
  | _ => false

/-- The column value a scalar binds. -/
def sqlOf : Option JVal → SqlVal
  | some (.num n) => .real n
  | some (.str s) => .text s
  | _ => .null

/-- A property that is a non-empty string. -/
def isNonEmptyString : Option JVal → Bool
  | some (.str s) => s != ""
  | _ => false

/-- A property that is a string. -/
def isString : Option JVal → Bool
  | some (.str _) => true
  | _ => false

/-- The body of the example scenario. -/
def blueJacket : Body :=
  [("name", .str "Blue Jacket"), ("category", .str "outerwear"), ("color", .str "blue")]

/-- The fields of an item body other than `seasons` are scalars. -/
def scalarItemFields (body : Body) : Bool :=
  isScalar (getField "name" body) && isScalar (getField "category" body)
    && isScalar (getField "color" body) && isScalar (getField "brand" body)
    && isScalar (getField "price" body) && isScalar (getField "purchase_date" body)
    && isScalar (getField "image" body) && isScalar (getField "notes" body)
    && isScalar (getField "platform" body)

/-- The row `POST /api/items` writes for a body whose fields are scalars. -/
def createdItemRow (now : String) (body : Body) (st : Store) : ItemRow :=
  { id := nextId st.itemSeq (st.items.map (fun r => r.id)),
    name := textAffinity (sqlOf (getField "name" body)),
    category := textAffinity (sqlOf (getField "category" body)),
    color := textAffinity (sqlOf (getField "color" body)),
    brand := textAffinity (sqlOf (some ((getField "brand" body).getD (.str "未知品牌")))),
    price := numericAffinity (sqlOf (some ((getField "price" body).getD (.num 0)))),
    seasons := .text (String.mk
      (stringify ((getField "seasons" body).getD (.arr [.str "all-season"])))),
    purchase_date := textAffinity (sqlOf (getField "purchase_date" body)),
    image := textAffinity (sqlOf (getField "image" body)),
    notes := textAffinity (sqlOf (some ((getField "notes" body).getD (.str "")))),
    platform := textAffinity (sqlOf (some ((getField "platform" body).getD (.str "未记录")))),
    created_at := now, updated_at := now }

/-- The body of the example scenario with a boolean `image`. -/
def blueJacketFlagged : Body := ("image", .bool true) :: blueJacket

/-- The store after the example scenario's `POST /api/items` on the empty store. -/
def oneJacket : Store := (createItem "2024-05-01 10:00:00" blueJacket Store.empty).1

/-- A property that is absent, or present and truthy. -/
def absentOrTruthy : Option JVal → Bool
  | none => true
  | some v => truthy (some v)

/-- The body of the example scenario with an empty `brand`. -/
def blankBrand : Body := ("brand", .str "") :: blueJacket

/-- A property that is absent, `null` or a string. -/
def textOrNull : Option JVal → Bool
  | none => true
  | some .null => true
  | some (.str _) => true
  | _ => false

/-- A property that is absent, `null` or a number. -/
def numberOrNull : Option JVal → Bool
  | none => true
  | some .null => true
  | some (.num _) => true
  | _ => false

/-- The assignment of `PUT /api/items/:id` to a row, for a body whose fields
are scalars and whose `seasons` is the value `seasons`. -/
def replacedItemRow (now : String) (body : Body) (seasons : JVal) (r : ItemRow) : ItemRow :=
  { r with
    name := textAffinity (sqlOf (getField "name" body)),
    category := textAffinity (sqlOf (getField "category" body)),
    color := textAffinity (sqlOf (getField "color" body)),
    brand := textAffinity (sqlOf (getField "brand" body)),
    price := numericAffinity (sqlOf (getField "price" body)),
    seasons := .text (String.mk (stringify seasons)),
    purchase_date := textAffinity (sqlOf (getField "purchase_date" body)),
    image := textAffinity (sqlOf (getField "image" body)),
    notes := textAffinity (sqlOf (getField "notes" body)),
    platform := textAffinity (sqlOf (getField "platform" body)),
    updated_at := now }

/-- A full replacement body for an item. -/
def redCoat : Body :=
  [("name", .str "Red Coat"), ("category", .str "outerwear"), ("color", .str "red"),
    ("price", .num 120), ("seasons", .arr [.str "winter"]), ("notes", .null)]

/-- One round of the loop of the item batch: the insert of one element. -/
def insertOneItem (now : String) (item : JVal) (st : Store) : Option Store :=
  match itemBatchArgs item with
  | none => none
  | some args =>
    match bind 10 args with
    | none => none
    | some params =>
      match insertItem now params st with
      | none => none
      | some (st1, _) => some st1

/-- An element of an item batch that lacks a required column (`name`,
`category` or `color`) and has no array or object in these three places. An
element that is not an object has no property at all. -/
def lacksRequired : JVal → Bool
  | .obj rec =>
    isScalar (getField "name" rec) && isScalar (getField "category" rec)
      && isScalar (getField "color" rec)
      && ((getField "name" rec).isNone || (getField "category" rec).isNone
        || (getField "color" rec).isNone)
  | _ => true

/-- An element of an item batch that is an object whose `name`, `category` and
`color` are strings and whose other column values are scalars (`seasons` may be
any value). -/
def plainItemRecord : JVal → Bool
  | .obj rec =>
    isString (getField "name" rec) && isString (getField "category" rec)
      && isString (getField "color" rec) && isScalar (getField "brand" rec)
      && isScalar (getField "price" rec) && isScalar (getField "purchaseDate" rec)
      && isScalar (getField "purchase_date" rec) && isScalar (getField "image" rec)
      && isScalar (getField "notes" rec) && isScalar (getField "platform" rec)
  | _ => false

/-- A batch element whose `name` is an array of three strings, with empty
arrays as `color` and `image` and no `category`. -/
def spreadRecord : JVal :=
  .obj [("name", .arr [.str "coat", .str "outerwear", .str "red"]),
    ("color", .arr []), ("image", .arr [])]

/-- The column values of a batch record other than `seasons` are scalars. -/
def scalarBatchFields (rec : Body) : Bool :=
  isScalar (getField "name" rec) && isScalar (getField "category" rec)
    && isScalar (getField "color" rec) && isScalar (getField "brand" rec)
    && isScalar (getField "price" rec) && isScalar (getField "purchaseDate" rec)
    && isScalar (getField "purchase_date" rec) && isScalar (getField "image" rec)
    && isScalar (getField "notes" rec) && isScalar (getField "platform" rec)

/-- The row the item batch writes for a record whose fields are scalars. -/
def batchItemRow (now : String) (rec : Body) (st : Store) : ItemRow :=
  { id := nextId st.itemSeq (st.items.map (fun r => r.id)),
    name := textAffinity (sqlOf (getField "name" rec)),
    category := textAffinity (sqlOf (getField "category" rec)),
    color := textAffinity (sqlOf (getField "color" rec)),
    brand := textAffinity (sqlOf (some (orElse (getField "brand" rec) (.str "未知品牌")))),
    price := numericAffinity (sqlOf (some (orElse (getField "price" rec) (.num 0)))),
    seasons := .text (String.mk
      (stringify (orElse (getField "seasons" rec) (.arr [.str "all-season"])))),
    purchase_date := textAffinity (sqlOf
      (if truthy (getField "purchaseDate" rec) then getField "purchaseDate" rec
        else getField "purchase_date" rec)),
    image := textAffinity (sqlOf (getField "image" rec)),
    notes := textAffinity (sqlOf (some (orElse (getField "notes" rec) (.str "")))),
    platform := textAffinity (sqlOf (some (orElse (getField "platform" rec) (.str "未记录")))),
    created_at := now, updated_at := now }

/-- A batch record with all four required columns and a boolean `image`. -/
def flaggedRecord : JVal := .obj blueJacketFlagged

/-- The row `POST /api/inspirations` writes for a body whose `title`, `image`
and `description` are scalars. -/
def createdInspirationRow (now : String) (body : Body) (st : Store) : InspirationRow :=
  { id := nextId st.inspirationSeq (st.inspirations.map (fun r => r.id)),
    title := textAffinity (sqlOf (getField "title" body)),
    image := textAffinity (sqlOf (getField "image" body)),
    description := textAffinity (sqlOf (some ((getField "description" body).getD (.str "")))),
    tags := .text (String.mk (stringify ((getField "tags" body).getD (.arr [])))),
    created_at := now, updated_at := now }

/-- The query string without any parameter. -/
def noFilter : ItemQuery := { category := none, color := none, season := none, search := none }

/-- An item body with the seasons spring and autumn. -/
def springCoat : Body :=
  [("name", .str "Trench Coat"), ("category", .str "outerwear"), ("color", .str "beige"),
    ("seasons", .arr [.str "spring", .str "autumn"])]

/-- An inspiration body with two tags. -/
def streetLook : Body :=
  [("title", .str "Street look"), ("image", .str "https://example.org/look.jpg"),
    ("tags", .arr [.str "casual", .str "denim"])]

/-- A non-empty array of strings: a list of season tags. -/
def isTagList : JVal → Bool
  | .arr (x :: xs) => (x :: xs).all (fun v => isString (some v))
  | _ => false

/-- A `seasons` property that is omitted or a list of season tags. -/
def absentOrTags : Option JVal → Bool
  | none => true
  | some v => isTagList v

/-- A call of one of the three item endpoints that write `seasons`. -/
inductive ItemCall where
  | create (now : String) (body : Body) : ItemCall
  | replace (now : String) (id : Nat) (body : Body) : ItemCall
  | batch (now : String) (body : Body) : ItemCall

/-- The store after a call. -/
def ItemCall.run : ItemCall → Store → Store
  | .create now body, st => (createItem now body st).1
  | .replace now id body, st => (replaceItem now id body st).1
  | .batch now body, st => (batchItems now body st).1

/-- The store after a sequence of calls, the first call first. -/
def runItemCalls (calls : List ItemCall) (st : Store) : Store :=
  calls.foldl (fun s c => c.run s) st

/-- A batch record with scalar columns whose `seasons` is omitted or a list of
season tags. -/
def taggedRecord : JVal → Bool
  | .obj rec => scalarBatchFields rec && absentOrTags (getField "seasons" rec)
  | _ => false

/-- A call whose body (for a batch: each of whose records) has scalar columns
and a `seasons` value that is omitted or a list of season tags. -/
def taggedCall : ItemCall → Bool
  | .create _ body => scalarItemFields body && absentOrTags (getField "seasons" body)
  | .replace _ _ body => scalarItemFields body && absentOrTags (getField "seasons" body)
  | .batch _ body =>
    match getField "items" body with
    | some (.arr items) => items.all taggedRecord
    | _ => true

/-- The stored `seasons` of a row decodes to a list of season tags. -/
def seasonsTagged (r : ItemRow) : Prop :=
  ∃ v, JSON_parse (toJs r.seasons) = some v ∧ isTagList v = true

/-- The example body with an empty array as `seasons`. -/
def noSeasons : Body := ("seasons", .arr []) :: blueJacket

/-- A create, a replace and a one-record batch, in this order. -/
def threeCalls : List ItemCall :=
  [.create "2024-05-01 10:00:00" blueJacket,
    .replace "2024-05-02 09:00:00" 1 redCoat,
    .batch "2024-05-03 08:00:00" [("items", .arr [.obj springCoat])]]

/-- The row the batch of `threeCalls` stores. -/
def trenchRow : ItemRow :=
  { id := 2, name := .text "Trench Coat", category := .text "outerwear",
    color := .text "beige", brand := .text "未知品牌", price := .real 0,
    seasons := .text "[\"spring\",\"autumn\"]", purchase_date := .null, image := .null,
    notes := .text "", platform := .text "未记录",
    created_at := "2024-05-03 08:00:00", updated_at := "2024-05-03 08:00:00" }

/-- The example body with an empty `purchaseDate`, as the legacy client sends
it when the date was left blank. -/
def undatedJacket : Body := ("purchaseDate", .str "") :: blueJacket

/-- The example body with the legacy spelling of the purchase date. -/
def legacyJacket : Body := ("purchaseDate", .str "2024-03-15") :: blueJacket

/-- The example body with the current spelling of the purchase date. -/
def datedJacket : Body := ("purchase_date", .str "2024-04-20") :: blueJacket

/-- The record the API returns for a row; `none` when its `seasons` text does
not decode. -/
def decodeRow (r : ItemRow) : Option ItemRecord :=
  match JSON_parse (toJs r.seasons) with
  | some v => some (r.toRecord v)
  | none => none

/-- Every stored `seasons` text decodes. -/
def allDecode (st : Store) : Bool :=
  st.items.all (fun r => (JSON_parse (toJs r.seasons)).isSome)

/-- The items a response carries; none when it carries no list. -/
def returnedItems (resp : Response) : List ItemRecord :=
  match resp.data with
  | .items gs => gs
  | _ => []

/-- The outfit records a response carries. -/
def returnedOutfits (resp : Response) : List OutfitRow :=
  match resp.data with
  | .outfits rs => rs
  | _ => []

/-- A Create body whose `name` is an array of six values and whose `category`,
`color`, `brand`, `price` and `platform` are empty arrays: the binder spreads
the six values over the first six parameters, so the text `oops` is stored as
`seasons`. -/
def garbledBody : Body :=
  [("name", .arr [.str "coat", .str "outerwear", .str "red", .str "brand", .num 0,
      .str "oops"]),
    ("category", .arr []), ("color", .arr []), ("brand", .arr []), ("price", .arr []),
    ("purchase_date", .str "2024-05-01"), ("image", .str "x"), ("notes", .str "n"),
    ("platform", .arr [])]

/-- The store after `POST /api/items` with `garbledBody` on the empty store
(the call is answered 500 and leaves its row behind). -/
def garbledStore : Store := (createItem "2024-05-01 10:00:00" garbledBody Store.empty).1

/-- An outfit body with scene `party`. -/
def partyOutfit : Body :=
  [("date", .str "2024-05-01"), ("season", .str "spring"), ("style", .str "casual"),
    ("scene", .str "party")]

/-- The store after `POST /api/outfits` with `partyOutfit` on the empty store. -/
def partyStore : Store := (createOutfit "2024-05-01 10:00:00" partyOutfit Store.empty).1

/-- The text `t` contains `s` as a contiguous substring, letters of the ASCII
alphabet compared without regard to case. -/
def containsFold (s t : List Char) : Prop :=
  ∃ pre m post, t = pre ++ m ++ post ∧ m.map lowerAscii = s.map lowerAscii

/-- The term holds none of the wildcards `%` and `_` of `LIKE`. -/
def noWildcard (s : List Char) : Bool :=
  s.all (fun c => c.toNat != 37 && c.toNat != 95)

/-- The term holds none of the wildcards `%` and `_` of `LIKE` and no U+0000. -/
def literalTerm (s : List Char) : Bool :=
  s.all (fun c => c.toNat != 37 && c.toNat != 95 && c.toNat != 0)

/-- The text of a stored value as `LIKE` compares it: the characters up to the
first U+0000; NULL has none. -/
def sqlText : SqlVal → Option (List Char)
  | .null => none
  | .real n => some (upToNul (renderInt n ++ ['.', '0']))
  | .text s => some (upToNul s.data)

/-- The example body with the season summer. -/
def summerDress : Body :=
  [("name", .str "Dress"), ("category", .str "dress"), ("color", .str "white"),
    ("seasons", .arr [.str "summer"])]

/-- The store after `POST /api/items` with `summerDress` on the empty store. -/
def summerStore : Store := (createItem "2024-05-01 10:00:00" summerDress Store.empty).1

/-- The query that supplies the `category` parameter of `q` alone. -/
def onlyCategory (q : ItemQuery) : ItemQuery :=
  { category := q.category, color := none, season := none, search := none }

/-- The query that supplies the `color` parameter of `q` alone. -/
def onlyColor (q : ItemQuery) : ItemQuery :=
  { category := none, color := q.color, season := none, search := none }

/-- The query that supplies the `season` parameter of `q` alone. -/
def onlySeason (q : ItemQuery) : ItemQuery :=
  { category := none, color := none, season := q.season, search := none }

/-- The query that supplies the `search` parameter of `q` alone. -/
def onlySearch (q : ItemQuery) : ItemQuery :=
  { category := none, color := none, season := none, search := q.search }

/-- A query with a category and a color. -/
def blueOuterwear : ItemQuery :=
  { category := some "outerwear", color := some "blue", season := none, search := none }

/-- The inspirations a response carries. -/
def returnedInspirations (resp : Response) : List InspirationRecord :=
  match resp.data with
  | .inspirations gs => gs
  | _ => []

/-- The statistics a response carries. -/
def statisticsOf (resp : Response) : Option ItemStatistics :=
  match resp.data with
  | .statistics s => some s
  | _ => none

/-- An item body with price 80. -/
def cheapShirt : Body :=
  [("name", .str "Shirt"), ("category", .str "top"), ("color", .str "white"),
    ("price", .num 80)]

/-- An item body with price 300. -/
def dearCoat : Body :=
  [("name", .str "Coat"), ("category", .str "outerwear"), ("color", .str "black"),
    ("price", .num 300)]

/-- A call of one of the item endpoints that add or remove rows. -/
inductive ItemOp where
  | create (now : String) (body : Body) : ItemOp
  | batch (now : String) (body : Body) : ItemOp
  | delete (id : Nat) : ItemOp

/-- The store after a call, and the response. -/
def ItemOp.respond : ItemOp → Store → Store × Response
  | .create now body, st => createItem now body st
  | .batch now body, st => batchItems now body st
  | .delete id, st => deleteItem id st

/-- The rows a call reports: one for a successful single create (201), the
length of the array for a successful batch (200), minus one for a successful
delete (200), none for a call that fails. -/
def rowsReported (op : ItemOp) (resp : Response) : Int :=
  match op with
  | .create _ _ => if resp.status = 201 then 1 else 0
  | .batch _ body =>
    if resp.status = 200 then
      (match getField "items" body with
        | some (.arr items) => (items.length : Int)
        | _ => 0)
    else 0
  | .delete _ => if resp.status = 200 then -1 else 0

/-- The store after a sequence of calls, the first call first, and the sum of
the rows the calls report. -/
def runOps : List ItemOp → Store → Store × Int
  | [], st => (st, 0)
  | op :: rest, st =>
    ((runOps rest (op.respond st).1).1,
      rowsReported op (op.respond st).2 + (runOps rest (op.respond st).1).2)

/-- A batch record that is an object with scalar column values. -/
def scalarRecord : JVal → Bool
  | .obj rec => scalarBatchFields rec
  | _ => false

/-- A call whose body (for a batch: each of whose records) has scalar column
values. -/
def scalarOp : ItemOp → Bool
  | .create _ body => scalarItemFields body
  | .batch _ body =>
    match getField "items" body with
    | some (.arr items) => items.all scalarRecord
    | _ => true
  | .delete _ => true

/-- The answer of `GET /api/statistics`' `total` for a store. -/
def reportedTotal (thisMonth : SqlVal → Bool) (st : Store) : Option Nat :=
  (statisticsOf (getStatistics thisMonth st)).map (fun s => s.total)

/-- Every stored `seasons` text decodes and the identifiers are pairwise
distinct. -/
def WellFormed (st : Store) : Prop :=
  (∀ r ∈ st.items, ∃ v, JSON_parse (toJs r.seasons) = some v) ∧
    (st.items.map (fun r => r.id)).Nodup

/-- Two creates, a batch of two records, the delete of the first item and the
delete of an absent item. -/
def fiveOps : List ItemOp :=
  [.create "2024-05-01 10:00:00" blueJacket,
    .create "2024-05-01 10:05:00" [("name", .str "Scarf")],
    .batch "2024-05-02 09:00:00" [("items", .arr [.obj springCoat, .obj redCoat])],
    .delete 1, .delete 9]
/-- The outfit statistics a response carries. -/
def outfitStatisticsOf (resp : Response) : Option OutfitStatistics :=
  match resp.data with
  | .outfitStatistics s => some s
  | _ => none

/-- The inspiration a response carries. -/
def inspirationOf (resp : Response) : Option InspirationRecord :=
  match resp.data with
  | .inspiration r => some r
  | _ => none

/-- An outfit body dated in the year 2099. -/
def futureOutfit : Body :=
  [("date", .str "2099-01-01"), ("season", .str "winter"), ("style", .str "formal"),
    ("scene", .str "work")]

/-- The store after `POST /api/outfits` with `futureOutfit` on the empty store. -/
def futureStore : Store := (createOutfit "2024-05-01 10:00:00" futureOutfit Store.empty).1

/-- The store after `POST /api/inspirations` with `streetLook` on the empty
store. -/
def oneLook : Store := (createInspiration "2024-05-01 10:00:00" streetLook Store.empty).1

/-- A replacement body for an inspiration that carries no `tags`. -/
def untaggedLook : Body :=
  [("title", .str "Street look"), ("image", .str "https://example.org/look.jpg")]

/-- A query that supplies a `category` and a `search` parameter. -/
def topsNamed (category search : String) : ItemQuery :=
  { category := some category, color := none, season := none, search := some search }

/-- A query for outfits that supplies a `season` and a `search` parameter. -/
def outfitsNamed (season search : String) : OutfitQuery :=
  { season := some season, style := none, scene := none, search := some search }

/-- The three tables of the store. -/
inductive Table where
  | items : Table
  | outfits : Table
  | inspirations : Table

/-- The identifiers of the rows of a table, in rowid order. -/
def tableIds : Table → Store → List Nat
  | .items, st => st.items.map (fun r => r.id)
  | .outfits, st => st.outfits.map (fun r => r.id)
  | .inspirations, st => st.inspirations.map (fun r => r.id)

/-- The `AUTOINCREMENT` counter of a table. -/
def tableSeq : Table → Store → Nat
  | .items, st => st.itemSeq
  | .outfits, st => st.outfitSeq
  | .inspirations, st => st.inspirationSeq

/-- A call of one of the twelve endpoints that write. -/
inductive Call where
  | postItem (now : String) (body : Body) : Call
  | putItem (now : String) (id : Nat) (body : Body) : Call
  | dropItem (id : Nat) : Call
  | postItems (now : String) (body : Body) : Call
  | postOutfit (now : String) (body : Body) : Call
  | putOutfit (now : String) (id : Nat) (body : Body) : Call
  | dropOutfit (id : Nat) : Call
  | postOutfits (now : String) (body : Body) : Call
  | postInspiration (now : String) (body : Body) : Call
  | putInspiration (now : String) (id : Nat) (body : Body) : Call
  | dropInspiration (id : Nat) : Call
  | postInspirations (now : String) (body : Body) : Call

/-- The store after a call, and the response. -/
def Call.run : Call → Store → Store × Response
  | .postItem now body, st => createItem now body st
  | .putItem now id body, st => replaceItem now id body st
  | .dropItem id, st => deleteItem id st
  | .postItems now body, st => batchItems now body st
  | .postOutfit now body, st => createOutfit now body st
  | .putOutfit now id body, st => replaceOutfit now id body st
  | .dropOutfit id, st => deleteOutfit id st
  | .postOutfits now body, st => batchOutfits now body st
  | .postInspiration now body, st => createInspiration now body st
  | .putInspiration now id body, st => replaceInspiration now id body st
  | .dropInspiration id, st => deleteInspiration id st
  | .postInspirations now body, st => batchInspirations now body st

/-- The store after a sequence of calls, the first call first. -/
def runCalls : List Call → Store → Store
  | [], st => st
  | c :: cs, st => runCalls cs (c.run st).1

/-- The identifiers a call has assigned in a table: those the table holds after
the call and did not hold before it. -/
def assignedBy (t : Table) (st st1 : Store) : List Nat :=
  (tableIds t st1).filter (fun i => !(tableIds t st).contains i)

/-- The identifiers assigned in a table in the course of a sequence of calls, in
the order of their assignment. -/
def assignedAlong (t : Table) : List Call → Store → List Nat
  | [], _ => []
  | c :: cs, st => assignedBy t st (c.run st).1 ++ assignedAlong t cs (c.run st).1

/-- A table has grown: its identifiers `ids'` are the former `ids` followed by
new ones, which increase and lie above the former counter `seq` and up to the
new counter `seq'`. -/
def Grown (ids : List Nat) (seq : Nat) (ids' : List Nat) (seq' : Nat) : Prop :=
  ∃ new, ids' = ids ++ new ∧ new.Pairwise (fun a b => a < b) ∧
    (∀ i ∈ new, seq < i ∧ i ≤ seq') ∧ seq ≤ seq'

/-- A table has lost rows: its identifiers `ids'` are some of the former `ids`,
in their order, and the counter is as before. -/
def Shrunk (ids : List Nat) (seq : Nat) (ids' : List Nat) (seq' : Nat) : Prop :=
  (∃ p : Nat → Bool, ids' = ids.filter p) ∧ seq' = seq

/-- The identifiers of a table increase in rowid order and none exceeds the
counter. -/
def Ascending (t : Table) (st : Store) : Prop :=
  (tableIds t st).Pairwise (fun a b => a < b) ∧ ∀ i ∈ tableIds t st, i ≤ tableSeq t st

/-- A stored value is a text that begins with the characters `pre`. -/
def beginsWith (pre : List Char) : SqlVal → Bool
  | .text s => pre.isPrefixOf s.data
  | _ => false

/-- A stored `purchase_date` that is NULL, the empty string or a calendar date
`YYYY-MM-DD`. -/
def dateOrBlank : SqlVal → Bool
  | .null => true
  | .text s => decide (s = "") || isCalendarDate s.data
  | .real _ => false

/-- The `monthAdded` a response carries. -/
def monthAddedOf (resp : Response) : Option Nat :=
  (statisticsOf resp).map (fun s => s.monthAdded)

/-- The example body with a purchase date that names a month and no day. -/
def monthOnlyJacket : Body := ("purchase_date", .str "2024-05") :: blueJacket

/-- The example body with a purchase date in May 2024. -/
def mayJacket : Body := ("purchase_date", .str "2024-05-03") :: blueJacket

/-- The store after three Create calls: an item bought in May 2024, one bought
in April 2024 and one without a purchase date. -/
def threeJackets : Store :=
  (createItem "2024-05-04 10:00:00" blueJacket
    (createItem "2024-05-03 10:00:00" datedJacket
      (createItem "2024-05-03 09:00:00" mayJacket Store.empty).1).1).1

/-- A stored value that is a non-empty text. -/
def nonEmptyText : SqlVal → Bool
  | .text s => s != ""
  | _ => false

/-- A property that is the empty string. -/
def isBlank : Option JVal → Bool
  | some (.str s) => s == ""
  | _ => false

/-- A batch record with scalar column values whose `name` is not the empty
string. -/
def namedRecord : JVal → Bool
  | .obj rec => scalarBatchFields rec && !isBlank (getField "name" rec)
  | _ => false

/-- A call whose body (for a batch: each of whose records) has scalar column
values and, for a Replace or a batch record, a `name` that is not the empty
string. -/
def namedCall : ItemCall → Bool
  | .create _ body => scalarItemFields body
  | .replace _ _ body => scalarItemFields body && !isBlank (getField "name" body)
  | .batch _ body =>
    match getField "items" body with
    | some (.arr items) => items.all namedRecord
    | _ => true

/-- A replacement body for an item with the empty string as `name`. -/
def namelessCoat : Body :=
  [("name", .str ""), ("category", .str "outerwear"), ("color", .str "red"),
    ("seasons", .arr [.str "winter"])]

/-- A stored value that is a number not below zero. -/
def nonNegative : SqlVal → Bool
  | .real n => decide (0 ≤ n)
  | _ => false

/-- A property that is a number not below zero. -/
def isPrice : Option JVal → Bool
  | some (.num n) => decide (0 ≤ n)
  | _ => false

/-- A property that is omitted or a number not below zero. -/
def absentOrPrice : Option JVal → Bool
  | none => true
  | x => isPrice x

/-- A batch record with scalar column values whose `price` is omitted or a
number not below zero. -/
def pricedRecord : JVal → Bool
  | .obj rec => scalarBatchFields rec && absentOrPrice (getField "price" rec)
  | _ => false

/-- A call whose body (for a batch: each of whose records) has scalar column
values and a `price` that is a number not below zero or, for a Create and a
batch record, omitted. -/
def pricedCall : ItemCall → Bool
  | .create _ body => scalarItemFields body && absentOrPrice (getField "price" body)
  | .replace _ _ body => scalarItemFields body && isPrice (getField "price" body)
  | .batch _ body =>
    match getField "items" body with
    | some (.arr items) => items.all pricedRecord
    | _ => true

/-- The example body with the price -5. -/
def refundJacket : Body := ("price", .num (-5)) :: blueJacket

/-- The row the replace of `threeCalls` leaves. -/
def redCoatRow : ItemRow :=
  { id := 1, name := .text "Red Coat", category := .text "outerwear",
    color := .text "red", brand := .null, price := .real 120,
    seasons := .text "[\"winter\"]", purchase_date := .null, image := .null,
    notes := .null, platform := .null,
    created_at := "2024-05-01 10:00:00", updated_at := "2024-05-02 09:00:00" }

/-- The `title`, `image` and `description` of an inspiration body are scalars. -/
def scalarLookFields (body : Body) : Bool :=
  isScalar (getField "title" body) && isScalar (getField "image" body)
    && isScalar (getField "description" body)

/-- A batch record of inspirations that is an object with scalar `title`,
`image` and `description`. -/
def scalarLook : JVal → Bool
  | .obj rec => scalarLookFields rec
  | _ => false

/-- A write call on items or inspirations whose body (for a batch: each of whose
records) has scalar column values; `seasons` and `tags` may be any value. A
call on outfits and a delete are unrestricted. -/
def plainCall : Call → Bool
  | .postItem _ body => scalarItemFields body
  | .putItem _ _ body => scalarItemFields body
  | .postItems _ body =>
    (match getField "items" body with
      | some (.arr items) => items.all scalarRecord
      | _ => true)
  | .postInspiration _ body => scalarLookFields body
  | .putInspiration _ _ body => scalarLookFields body
  | .postInspirations _ body =>
    (match getField "inspirations" body with
      | some (.arr items) => items.all scalarLook
      | _ => true)
  | _ => true

/-- The stored `seasons` of every item and the stored `tags` of every
inspiration decode, the way the List and Get handlers decode them. -/
def Decodable (st : Store) : Prop :=
  (∀ r ∈ st.items, ∃ v, JSON_parse (toJs r.seasons) = some v) ∧
    ∀ r ∈ st.inspirations, ∃ v, parseTags r.tags = some v

/-- Seven calls on the three resources: items and inspirations are created,
replaced, imported and deleted, and an outfit is created. -/
def sevenCalls : List Call :=
  [.postItem "2024-05-01 10:00:00" blueJacket,
    .postInspiration "2024-05-01 10:05:00" streetLook,
    .putInspiration "2024-05-02 09:00:00" 1 untaggedLook,
    .putItem "2024-05-02 09:30:00" 1 redCoat,
    .postItems "2024-05-03 08:00:00" [("items", .arr [.obj springCoat])],
    .postOutfit "2024-05-03 09:00:00" partyOutfit,
    .dropItem 1]

/-- A call whose body has scalar column values where it is the body of a Create
or a Replace of an item or an inspiration; a batch, a delete and a call on
outfits are unrestricted. -/
def scalarWrite : Call → Bool
  | .postItem _ body => scalarItemFields body
  | .putItem _ _ body => scalarItemFields body
  | .postInspiration _ body => scalarLookFields body
  | .putInspiration _ _ body => scalarLookFields body
  | _ => true

/-- The item a response carries. -/
def itemOf (resp : Response) : Option ItemRecord :=
  match resp.data with
  | .item r => some r
  | _ => none

/-- A Create body with `seasons: ['spring']` whose `name` is an array of six
values, the last the text `["x"]`, and whose `category`, `color`, `brand`,
`price` and `platform` are empty arrays: the binder spreads the six values over
the first six parameters, so the text `["x"]` is stored as `seasons`. -/
def shiftedBody : Body :=
  [("name", .arr [.str "coat", .str "outerwear", .str "red", .str "brand", .num 0,
      .str "[\"x\"]"]),
    ("category", .arr []), ("color", .arr []), ("brand", .arr []), ("price", .arr []),
    ("seasons", .arr [.str "spring"]),
    ("purchase_date", .str "2024-05-01"), ("image", .str "x"), ("notes", .str "n"),
    ("platform", .arr [])]

/-- The example body with the season spring. -/
def springJacket : Body := ("seasons", .arr [.str "spring"]) :: blueJacket

/-- The query string of `GET /api/items` with the one parameter `category`. -/
def categoryQuery (c : String) : ItemQuery :=
  { category := some c, color := none, season := none, search := none }

/-- The query string of `GET /api/outfits` with the one parameter `season`. -/
def seasonQuery (s : String) : OutfitQuery :=
  { season := some s, style := none, scene := none, search := none }

/-! ## The codec: decoding undoes encoding -/

theorem ofNat_toNat_eq (c : Char) (n : Nat) (h : c.toNat = n) : Char.ofNat n = c := by
  subst h; exact Char.ofNat_toNat c

theorem unicodeEscape_low : ∀ n, n < 32 →
    unicodeEscape '0' '0' (hexDigit (n / 16)) (hexDigit (n % 16)) = some (Char.ofNat n) := by
  decide

theorem parseChars_cons (c : Char) (cs : List Char) :
    parseChars (c :: cs) =
    if c.toNat = 34 then some ([], cs)
    else if c.toNat = 92 then
      match cs with
      | [] => none
      | e :: cs1 =>
        if e = 'u' then
          match cs1 with
          | h1 :: h2 :: h3 :: h4 :: cs2 =>
            match unicodeEscape h1 h2 h3 h4 with
            | none => none
            | some ch =>
              match parseChars cs2 with
              | none => none
              | some (s, rest) => some (ch :: s, rest)
          | _ => none
        else
          match unescape e with
          | none => none
          | some ch =>
            match parseChars cs1 with
            | none => none
            | some (s, rest) => some (ch :: s, rest)
    else if c.toNat < 32 then none
    else
      match parseChars cs with
      | none => none
      | some (s, rest) => some (c :: s, rest) := by
  rw [parseChars.eq_def]

theorem parseChars_escaped (e ch : Char) (cs : List Char) (s rest : List Char)
    (hu : e ≠ 'u') (he : unescape e = some ch) (ih : parseChars cs = some (s, rest)) :
    parseChars (Char.ofNat 92 :: e :: cs) = some (ch :: s, rest) := by
  rw [parseChars_cons]
  simp [hu, he, ih]

theorem parseChars_escapeChars (s : List Char) (rest : List Char) :
    parseChars (escapeChars s ++ Char.ofNat 34 :: rest) = some (s, rest) := by
  induction s with
  | nil => rw [escapeChars, List.nil_append, parseChars_cons]; simp
  | cons c cs ih =>
    simp only [escapeChars, escapeChar]
    split_ifs with h1 h2 h3 h4 h5 h6 h7 h8
    · have := ofNat_toNat_eq c _ h1
      subst this
      exact parseChars_escaped _ _ _ _ _ (by decide) (by decide) ih
    · have := ofNat_toNat_eq c _ h2
      subst this
      exact parseChars_escaped _ _ _ _ _ (by decide) (by decide) ih
    · have := ofNat_toNat_eq c _ h3
      subst this
      exact parseChars_escaped _ _ _ _ _ (by decide) (by decide) ih
    · have := ofNat_toNat_eq c _ h4
      subst this
      exact parseChars_escaped _ _ _ _ _ (by decide) (by decide) ih
    · have := ofNat_toNat_eq c _ h5
      subst this
      exact parseChars_escaped _ _ _ _ _ (by decide) (by decide) ih
    · have := ofNat_toNat_eq c _ h6
      subst this
      exact parseChars_escaped _ _ _ _ _ (by decide) (by decide) ih
    · have := ofNat_toNat_eq c _ h7
      subst this
      exact parseChars_escaped _ _ _ _ _ (by decide) (by decide) ih
    · have hc := ofNat_toNat_eq c _ rfl
      have hl := unicodeEscape_low c.toNat h8
      rw [hc] at hl
      show parseChars (Char.ofNat 92 :: 'u' :: '0' :: '0' :: hexDigit (c.toNat / 16) ::
        hexDigit (c.toNat % 16) :: (escapeChars cs ++ Char.ofNat 34 :: rest)) = _
      rw [parseChars_cons]
      simp [hl, ih]
    · show parseChars (c :: (escapeChars cs ++ Char.ofNat 34 :: rest)) = _
      rw [parseChars_cons]
      simp [h1, h2, h8, ih]

theorem digitChar_spec : ∀ d, d < 10 →
    (digitChar d).toNat = 48 + d ∧ isDigit (digitChar d) = true := by
  decide

theorem parseDigits_delimited (rest : List Char) (m : Nat) (h : Delimited rest) :
    parseDigits rest m = (m, rest) := by
  cases rest with
  | nil => rfl
  | cons c cs =>
    have : isDigit c = false := by
      simp only [Delimited] at h
      simp only [isDigit]
      rcases h with h | h | h <;> simp [h]
    simp [parseDigits, this]

theorem parseDigits_digitChar (d : Nat) (hd : d < 10) (cs : List Char) (a : Nat) :
    parseDigits (digitChar d :: cs) a = parseDigits cs (a * 10 + d) := by
  obtain ⟨h1, h2⟩ := digitChar_spec d hd
  simp [parseDigits, h1, h2]

theorem parseDigits_natDigits (fuel : Nat) : ∀ (n : Nat) (acc : List Char), n < fuel →
    ∃ k, ∀ a, parseDigits (natDigits fuel n acc) a = parseDigits acc (a * 10 ^ k + n) := by
  induction fuel with
  | zero => intro n acc h; omega
  | succ fuel ih =>
    intro n acc h
    by_cases hn : n < 10
    · refine ⟨1, fun a => ?_⟩
      simp only [natDigits, hn, if_true, pow_one]
      exact parseDigits_digitChar n hn acc a
    · have hlt : n / 10 < fuel := by omega
      obtain ⟨k, hk⟩ := ih (n / 10) (digitChar (n % 10) :: acc) hlt
      refine ⟨k + 1, fun a => ?_⟩
      simp only [natDigits, hn, if_false]
      rw [hk a, parseDigits_digitChar _ (by omega)]
      congr 1
      rw [pow_succ]
      have := Nat.div_add_mod n 10
      nlinarith [this]

theorem natDigits_head (fuel : Nat) : ∀ (n : Nat) (acc : List Char), n < fuel →
    ∃ d tl, d < 10 ∧ (d = 0 → n = 0 ∧ tl = acc) ∧ natDigits fuel n acc = digitChar d :: tl := by
  induction fuel with
  | zero => intro n acc h; omega
  | succ fuel ih =>
    intro n acc h
    by_cases hn : n < 10
    · refine ⟨n, acc, hn, fun h0 => ⟨h0, rfl⟩, ?_⟩
      simp [natDigits, hn]
    · have hlt : n / 10 < fuel := by omega
      obtain ⟨d, tl, hd, h0, heq⟩ := ih (n / 10) (digitChar (n % 10) :: acc) hlt
      refine ⟨d, tl, hd, fun hd0 => ?_, ?_⟩
      · have := (h0 hd0).1
        omega
      · simp [natDigits, hn, heq]

theorem parseFraction_delimited (rest : List Char) (h : Delimited rest) :
    parseFraction rest = some rest := by
  cases rest with
  | nil => rfl
  | cons c cs =>
    simp only [Delimited] at h
    simp only [parseFraction]
    rcases h with h | h | h <;> simp [h]

theorem natDigits_append (fuel : Nat) : ∀ (n : Nat) (acc rest : List Char),
    natDigits fuel n acc ++ rest = natDigits fuel n (acc ++ rest) := by
  induction fuel with
  | zero => intro n acc rest; rfl
  | succ fuel ih =>
    intro n acc rest
    by_cases hn : n < 10
    · simp [natDigits, hn]
    · simp only [natDigits, hn, if_false]
      rw [ih]; rfl

theorem isDigit_delimited (c : Char) (cs : List Char) (h : Delimited (c :: cs)) :
    isDigit c = false := by
  simp only [Delimited] at h
  simp only [isDigit]
  rcases h with h | h | h <;> simp [h]

theorem parseNat_renderNat (n : Nat) (rest : List Char) (h : Delimited rest) :
    parseNat (renderNat n ++ rest) = some (n, rest) := by
  unfold renderNat
  rw [natDigits_append, List.nil_append]
  obtain ⟨d, tl, hd, h0, heq⟩ := natDigits_head (n + 1) n rest (by omega)
  obtain ⟨k, hk⟩ := parseDigits_natDigits (n + 1) n rest (by omega)
  obtain ⟨hc, hdig⟩ := digitChar_spec d hd
  have hk0 := hk 0
  rw [heq] at hk0 ⊢
  simp only [parseNat, hc]
  by_cases hd0 : d = 0
  · obtain ⟨hn, htl⟩ := h0 hd0
    subst hd0 hn htl
    cases tl with
    | nil => simp
    | cons c cs => simp [isDigit_delimited c cs h]
  · have : ¬ (48 + d = 48) := by omega
    simp only [this, if_false, hdig, if_true]
    rw [hk0, parseDigits_delimited _ _ h]
    simp

theorem renderNat_head (n : Nat) : ∃ d tl, d < 10 ∧ renderNat n = digitChar d :: tl := by
  obtain ⟨d, tl, hd, -, heq⟩ := natDigits_head (n + 1) n [] (by omega)
  exact ⟨d, tl, hd, heq⟩

theorem parseNumber_renderInt (n : Int) (rest : List Char) (h : Delimited rest) :
    parseNumber (renderInt n ++ rest) = some (n, rest) := by
  cases n with
  | ofNat m =>
    obtain ⟨d, tl, hd, heq⟩ := renderNat_head m
    have hp := parseNat_renderNat m rest h
    simp only [renderInt]
    rw [heq] at hp ⊢
    obtain ⟨hc, -⟩ := digitChar_spec d hd
    have : ¬ (48 + d = 45) := by omega
    simp only [List.cons_append, parseNumber, hc, this, if_false]
    simp only [List.cons_append] at hp
    rw [hp]
    simp [parseFraction_delimited rest h]
  | negSucc m =>
    have hp := parseNat_renderNat (m + 1) rest h
    simp only [renderInt, List.cons_append, parseNumber]
    rw [hp]
    simp [parseFraction_delimited rest h, Int.negSucc_eq]

theorem parseValue_succ (fuel : Nat) (c : Char) (cs : List Char) :
    parseValue (fuel + 1) (c :: cs) =
    if c.toNat = 34 then
      match parseChars cs with
      | none => none
      | some (s, rest) => some (.str (String.mk s), rest)
    else if c.toNat = 91 then
      match cs with
      | [] => none
      | d :: ds =>
        if d.toNat = 93 then some (.arr [], ds)
        else
          match parseElems fuel (d :: ds) with
          | none => none
          | some (vs, rest) => some (.arr vs, rest)
    else if c.toNat = 123 then
      match cs with
      | [] => none
      | d :: ds =>
        if d.toNat = 125 then some (.obj [], ds)
        else
          match parseMembers fuel (d :: ds) with
          | none => none
          | some (kvs, rest) => some (.obj kvs, rest)
    else if c = 'n' then
      match expect ['u', 'l', 'l'] cs with
      | none => none
      | some rest => some (.null, rest)
    else if c = 't' then
      match expect ['r', 'u', 'e'] cs with
      | none => none
      | some rest => some (.bool true, rest)
    else if c = 'f' then
      match expect ['a', 'l', 's', 'e'] cs with
      | none => none
      | some rest => some (.bool false, rest)
    else
      match parseNumber (c :: cs) with
      | none => none
      | some (n, rest) => some (.num n, rest) := by
  rfl

theorem parseElems_succ (fuel : Nat) (cs : List Char) :
    parseElems (fuel + 1) cs =
    match parseValue fuel cs with
    | none => none
    | some (v, rest) =>
      match rest with
      | [] => none
      | d :: ds =>
        if d.toNat = 93 then some ([v], ds)
        else if d.toNat = 44 then
          match parseElems fuel ds with
          | none => none
          | some (vs, rest1) => some (v :: vs, rest1)
        else none := by
  rfl

theorem parseMembers_succ (fuel : Nat) (c : Char) (cs : List Char) :
    parseMembers (fuel + 1) (c :: cs) =
    if c.toNat = 34 then
      match parseChars cs with
      | none => none
      | some (k, rest) =>
        match rest with
        | [] => none
        | e :: es =>
          if e.toNat = 58 then
            match parseValue fuel es with
            | none => none
            | some (v, rest1) =>
              match rest1 with
              | [] => none
              | d :: ds =>
                if d.toNat = 125 then some ([(String.mk k, v)], ds)
                else if d.toNat = 44 then
                  match parseMembers fuel ds with
                  | none => none
                  | some (kvs, rest2) => some ((String.mk k, v) :: kvs, rest2)
                else none
          else none
    else none := by
  rfl

theorem renderInt_head (n : Int) :
    ∃ c tl, renderInt n = c :: tl ∧ (c.toNat = 45 ∨ (48 ≤ c.toNat ∧ c.toNat ≤ 57)) := by
  cases n with
  | ofNat m =>
    obtain ⟨d, tl, hd, heq⟩ := renderNat_head m
    obtain ⟨hc, -⟩ := digitChar_spec d hd
    exact ⟨_, tl, heq, Or.inr (by omega)⟩
  | negSucc m => exact ⟨'-', _, rfl, Or.inl (by decide)⟩

theorem stringify_head (v : JVal) :
    ∃ c tl, stringify v = c :: tl ∧ c.toNat ≠ 93 ∧ c.toNat ≠ 125 := by
  cases v with
  | null => exact ⟨_, _, by rw [stringify], by decide, by decide⟩
  | bool b => cases b <;> exact ⟨_, _, by rw [stringify], by decide, by decide⟩
  | num n =>
    obtain ⟨c, tl, heq, hc⟩ := renderInt_head n
    exact ⟨c, tl, by rw [stringify, heq], by omega, by omega⟩
  | str s => exact ⟨_, _, by rw [stringify, quote], by decide, by decide⟩
  | arr xs => cases xs <;> exact ⟨_, _, by rw [stringify], by decide, by decide⟩
  | obj kvs => cases kvs <;> exact ⟨_, _, by rw [stringify], by decide, by decide⟩

theorem parseValue_num (n : Int) (fuel : Nat) (rest : List Char) (hr : Delimited rest) :
    parseValue (fuel + 1) (renderInt n ++ rest) = some (.num n, rest) := by
  obtain ⟨c, tl, heq, hc⟩ := renderInt_head n
  have hp := parseNumber_renderInt n rest hr
  rw [heq] at hp ⊢
  rw [List.cons_append] at hp ⊢
  rw [parseValue_succ, hp]
  have h1 : c.toNat ≠ 34 := by omega
  have h2 : c.toNat ≠ 91 := by omega
  have h3 : c.toNat ≠ 123 := by omega
  have h4 : c ≠ 'n' := by rintro rfl; revert hc; decide
  have h5 : c ≠ 't' := by rintro rfl; revert hc; decide
  have h6 : c ≠ 'f' := by rintro rfl; revert hc; decide
  simp [h1, h2, h3, h4, h5, h6]

theorem parseValue_str (s : String) (fuel : Nat) (rest : List Char) :
    parseValue (fuel + 1) (quote s ++ rest) = some (.str s, rest) := by
  have hp := parseChars_escapeChars s.data rest
  simp only [quote, List.cons_append, List.append_assoc, List.singleton_append,
    List.nil_append]
  rw [parseValue_succ, hp]
  simp

theorem expect_self (ks rest : List Char) : expect ks (ks ++ rest) = some rest := by
  induction ks with
  | nil => cases rest <;> rfl
  | cons k ks ih => simp [expect, ih]

theorem stringifyElems_one (x : JVal) : stringifyElems [x] = stringify x ++ [']'] := rfl

theorem stringifyElems_cons (x y : JVal) (ys : List JVal) :
    stringifyElems (x :: y :: ys) = stringify x ++ ',' :: stringifyElems (y :: ys) := rfl

theorem stringifyMembers_one (k : String) (v : JVal) :
    stringifyMembers [(k, v)] = quote k ++ ':' :: (stringify v ++ [Char.ofNat 125]) := rfl

theorem stringifyMembers_cons (k : String) (v : JVal) (kv : String × JVal)
    (kvs : List (String × JVal)) :
    stringifyMembers ((k, v) :: kv :: kvs) =
      quote k ++ ':' :: (stringify v ++ ',' :: stringifyMembers (kv :: kvs)) := rfl

theorem stringifyElems_head (x : JVal) (xs : List JVal) (rest : List Char) :
    ∃ c tl, stringifyElems (x :: xs) ++ rest = c :: tl ∧ c.toNat ≠ 93 := by
  obtain ⟨c, tl, hc, h93, -⟩ := stringify_head x
  cases xs with
  | nil => rw [stringifyElems_one, hc]; exact ⟨c, _, rfl, h93⟩
  | cons y ys => rw [stringifyElems_cons, hc]; exact ⟨c, _, rfl, h93⟩

theorem stringifyMembers_head (kv : String × JVal) (kvs : List (String × JVal))
    (rest : List Char) :
    ∃ tl, stringifyMembers (kv :: kvs) ++ rest = Char.ofNat 34 :: tl := by
  obtain ⟨k, v⟩ := kv
  cases kvs with
  | nil => rw [stringifyMembers_one, quote]; exact ⟨_, rfl⟩
  | cons y ys => rw [stringifyMembers_cons, quote]; exact ⟨_, rfl⟩

mutual
theorem parseValue_stringify : ∀ (v : JVal) (fuel : Nat) (rest : List Char),
    need v ≤ fuel → Delimited rest → parseValue fuel (stringify v ++ rest) = some (v, rest)
  | .null, fuel, rest, hf, _ => by
    obtain ⟨f, rfl⟩ : ∃ f, fuel = f + 1 := ⟨fuel - 1, by simp only [need] at hf; omega⟩
    show parseValue (f + 1) ('n' :: (['u', 'l', 'l'] ++ rest)) = _
    rw [parseValue_succ, expect_self]
    simp
  | .bool true, fuel, rest, hf, _ => by
    obtain ⟨f, rfl⟩ : ∃ f, fuel = f + 1 := ⟨fuel - 1, by simp only [need] at hf; omega⟩
    show parseValue (f + 1) ('t' :: (['r', 'u', 'e'] ++ rest)) = _
    rw [parseValue_succ, expect_self]
    simp
  | .bool false, fuel, rest, hf, _ => by
    obtain ⟨f, rfl⟩ : ∃ f, fuel = f + 1 := ⟨fuel - 1, by simp only [need] at hf; omega⟩
    show parseValue (f + 1) ('f' :: (['a', 'l', 's', 'e'] ++ rest)) = _
    rw [parseValue_succ, expect_self]
    simp
  | .num n, fuel, rest, hf, hr => by
    obtain ⟨f, rfl⟩ : ∃ f, fuel = f + 1 := ⟨fuel - 1, by simp only [need] at hf; omega⟩
    rw [stringify]
    exact parseValue_num n f rest hr
  | .str s, fuel, rest, hf, _ => by
    obtain ⟨f, rfl⟩ : ∃ f, fuel = f + 1 := ⟨fuel - 1, by simp only [need] at hf; omega⟩
    rw [stringify]
    exact parseValue_str s f rest
  | .arr [], fuel, rest, hf, _ => by
    obtain ⟨f, rfl⟩ : ∃ f, fuel = f + 1 := ⟨fuel - 1, by simp only [need] at hf; omega⟩
    show parseValue (f + 1) ('[' :: ']' :: rest) = _
    rw [parseValue_succ]
    simp
  | .arr (x :: xs), fuel, rest, hf, _ => by
    obtain ⟨f, rfl⟩ : ∃ f, fuel = f + 1 := ⟨fuel - 1, by simp only [need] at hf; omega⟩
    have ih := parseElems_stringifyElems (x :: xs) f rest (by simp) (by
      simp only [need] at hf; omega)
    obtain ⟨c, tl1, htl, h93⟩ := stringifyElems_head x xs rest
    rw [stringify, List.cons_append, parseValue_succ]
    rw [htl] at ih ⊢
    simp [h93, ih]
  | .obj [], fuel, rest, hf, _ => by
    obtain ⟨f, rfl⟩ : ∃ f, fuel = f + 1 := ⟨fuel - 1, by simp only [need] at hf; omega⟩
    show parseValue (f + 1) (Char.ofNat 123 :: Char.ofNat 125 :: rest) = _
    rw [parseValue_succ]
    simp
  | .obj (kv :: kvs), fuel, rest, hf, _ => by
    obtain ⟨f, rfl⟩ : ∃ f, fuel = f + 1 := ⟨fuel - 1, by simp only [need] at hf; omega⟩
    have ih := parseMembers_stringifyMembers (kv :: kvs) f rest (by simp) (by
      simp only [need] at hf; omega)
    obtain ⟨tl1, htl⟩ := stringifyMembers_head kv kvs rest
    rw [stringify, List.cons_append, parseValue_succ]
    rw [htl] at ih ⊢
    simp [ih]
theorem parseElems_stringifyElems : ∀ (xs : List JVal) (fuel : Nat) (rest : List Char),
    xs ≠ [] → needElems xs ≤ fuel →
    parseElems fuel (stringifyElems xs ++ rest) = some (xs, rest)
  | [], _, _, hne, _ => absurd rfl hne
  | [x], fuel, rest, _, hf => by
    obtain ⟨f, rfl⟩ : ∃ f, fuel = f + 1 := ⟨fuel - 1, by simp only [needElems] at hf; omega⟩
    have ih := parseValue_stringify x f (']' :: rest) (by simp only [needElems] at hf; omega)
      (Or.inr (Or.inl (by decide)))
    rw [stringifyElems_one, List.append_assoc, parseElems_succ, List.singleton_append, ih]
    simp
  | x :: y :: ys, fuel, rest, _, hf => by
    obtain ⟨f, rfl⟩ : ∃ f, fuel = f + 1 := ⟨fuel - 1, by simp only [needElems] at hf; omega⟩
    have ih := parseValue_stringify x f (',' :: (stringifyElems (y :: ys) ++ rest))
      (by simp only [needElems] at hf; omega) (Or.inl (by decide))
    have ih2 := parseElems_stringifyElems (y :: ys) f rest (by simp)
      (by simp only [needElems] at hf ⊢; omega)
    rw [stringifyElems_cons, List.append_assoc, parseElems_succ, List.cons_append, ih]
    simp [ih2]
theorem parseMembers_stringifyMembers : ∀ (kvs : List (String × JVal)) (fuel : Nat)
    (rest : List Char), kvs ≠ [] → needMembers kvs ≤ fuel →
    parseMembers fuel (stringifyMembers kvs ++ rest) = some (kvs, rest)
  | [], _, _, hne, _ => absurd rfl hne
  | [(k, v)], fuel, rest, _, hf => by
    obtain ⟨f, rfl⟩ : ∃ f, fuel = f + 1 := ⟨fuel - 1, by simp only [needMembers] at hf; omega⟩
    have ih := parseValue_stringify v f (Char.ofNat 125 :: rest)
      (by simp only [needMembers] at hf; omega) (Or.inr (Or.inr (by decide)))
    have hk := parseChars_escapeChars k.data
      (':' :: (stringify v ++ Char.ofNat 125 :: rest))
    rw [stringifyMembers_one]
    simp only [quote, List.cons_append, List.append_assoc,
      List.singleton_append, List.nil_append]
    rw [parseMembers_succ, hk]
    simp [ih]
  | (k, v) :: kv :: kvs, fuel, rest, _, hf => by
    obtain ⟨f, rfl⟩ : ∃ f, fuel = f + 1 := ⟨fuel - 1, by simp only [needMembers] at hf; omega⟩
    have ih := parseValue_stringify v f (',' :: (stringifyMembers (kv :: kvs) ++ rest))
      (by simp only [needMembers] at hf; omega) (Or.inl (by decide))
    have ih2 := parseMembers_stringifyMembers (kv :: kvs) f rest (by simp)
      (by simp only [needMembers] at hf ⊢; omega)
    have hk := parseChars_escapeChars k.data
      (':' :: (stringify v ++ ',' :: (stringifyMembers (kv :: kvs) ++ rest)))
    rw [stringifyMembers_cons]
    simp only [quote, List.cons_append, List.append_assoc,
      List.singleton_append, List.nil_append]
    rw [parseMembers_succ, hk]
    simp [ih, ih2]
end

theorem renderInt_length_pos (n : Int) : 1 ≤ (renderInt n).length := by
  obtain ⟨c, tl, heq, -⟩ := renderInt_head n
  rw [heq]; simp

mutual
theorem need_le_length : ∀ (v : JVal), need v ≤ (stringify v).length
  | .null => by simp [need, stringify]
  | .bool true => by simp [need, stringify]
  | .bool false => by simp [need, stringify]
  | .num n => by rw [need, stringify]; exact renderInt_length_pos n
  | .str s => by simp [need, stringify, quote]
  | .arr [] => by simp [need, needElems, stringify]
  | .arr (x :: xs) => by
    have := needElems_le_length (x :: xs)
    rw [need, stringify, List.length_cons]; omega
  | .obj [] => by simp [need, needMembers, stringify]
  | .obj (kv :: kvs) => by
    have := needMembers_le_length (kv :: kvs)
    rw [need, stringify, List.length_cons]; omega
theorem needElems_le_length : ∀ (xs : List JVal), needElems xs ≤ (stringifyElems xs).length
  | [] => by simp [needElems]
  | [x] => by
    have := need_le_length x
    rw [stringifyElems_one]
    simp only [needElems, List.length_append, List.length_singleton]; omega
  | x :: y :: ys => by
    have := need_le_length x
    have := needElems_le_length (y :: ys)
    rw [stringifyElems_cons, needElems]
    simp only [List.length_append, List.length_cons]; omega
theorem needMembers_le_length : ∀ (kvs : List (String × JVal)),
    needMembers kvs ≤ (stringifyMembers kvs).length
  | [] => by simp [needMembers]
  | [(k, v)] => by
    have := need_le_length v
    rw [stringifyMembers_one]
    simp only [needMembers, List.length_append, List.length_cons, List.length_singleton]; omega
  | (k, v) :: kv :: kvs => by
    have := need_le_length v
    have := needMembers_le_length (kv :: kvs)
    rw [stringifyMembers_cons, needMembers]
    simp only [List.length_append, List.length_cons]; omega
end

/-- Decoding the text that encodes a value gives the value back. -/
theorem JSON_parse_stringify (v : JVal) :
    JSON_parse (.str (String.mk (stringify v))) = some v := by
  have h := parseValue_stringify v ((stringify v).length + 1) []
    (by have := need_le_length v; omega) trivial
  rw [List.append_nil] at h
  simp only [JSON_parse, jsToString, h]

/-! ## The binder and the statements on ordinary arguments -/

theorem bindLoop_scalars (seen : Bool) (args : List (Option JVal))
    (h : ∀ a ∈ args, isScalar a = true) : bindLoop seen args = some (args.map sqlOf) := by
  induction args with
  | nil => rfl
  | cons a rest ih =>
    have hrest := ih (fun b hb => h b (List.mem_cons_of_mem _ hb))
    have ha := h a (List.mem_cons_self _ _)
    match a, ha with
    | none, _ => simp [bindLoop, hrest, sqlOf]
    | some .null, _ => simp [bindLoop, hrest, sqlOf, bindValue]
    | some (.num n), _ => simp [bindLoop, hrest, sqlOf, bindValue]
    | some (.str s), _ => simp [bindLoop, hrest, sqlOf, bindValue]

theorem bind_scalars (count : Nat) (args : List (Option JVal))
    (h : ∀ a ∈ args, isScalar a = true) (hc : args.length = count) :
    bind count args = some (args.map sqlOf) := by
  simp [bind, bindLoop_scalars false args h, hc]

theorem foldl_max_ge (ids : List Nat) : ∀ (seq : Nat),
    seq ≤ ids.foldl max seq ∧ ∀ i ∈ ids, i ≤ ids.foldl max seq := by
  induction ids with
  | nil => intro seq; simp
  | cons j js ih =>
    intro seq
    obtain ⟨h1, h2⟩ := ih (max seq j)
    refine ⟨le_trans (le_max_left _ _) h1, ?_⟩
    intro i hi
    rcases List.mem_cons.mp hi with rfl | hi
    · exact le_trans (le_max_right _ _) h1
    · exact h2 i hi

theorem lt_nextId (seq : Nat) (ids : List Nat) (i : Nat) (hi : i ∈ ids) :
    i < nextId seq ids := by
  have := (foldl_max_ge ids seq).2 i hi
  unfold nextId; omega

theorem seq_lt_nextId (seq : Nat) (ids : List Nat) : seq < nextId seq ids := by
  have := (foldl_max_ge ids seq).1
  unfold nextId; omega

theorem find_append_fresh {α : Type} (key : α → Nat) (rows : List α) (row : α)
    (h : ∀ r ∈ rows, key r < key row) :
    (rows ++ [row]).find? (fun r => key r == key row) = some row := by
  induction rows with
  | nil => simp
  | cons r rs ih =>
    have hr := h r (List.mem_cons_self _ _)
    have hne : (key r == key row) = false := by
      simp only [beq_eq_false_iff_ne, ne_eq]; omega
    simp only [List.cons_append, List.find?_cons, hne]
    exact ih (fun x hx => h x (List.mem_cons_of_mem _ hx))

theorem isScalar_getD (x : Option JVal) (d : JVal) (hd : isScalar (some d) = true)
    (h : isScalar x = true) : isScalar (some (x.getD d)) = true := by
  cases x with
  | none => simpa using hd
  | some v => simpa using h

theorem textAffinity_sqlOf_ne_null (x : Option JVal) (ht : truthy x = true)
    (hs : isScalar x = true) : textAffinity (sqlOf x) ≠ .null := by
  match x, ht, hs with
  | some (.num n), _, _ => simp [sqlOf, textAffinity]
  | some (.str s), _, _ => simp [sqlOf, textAffinity]

theorem selectItem_append_fresh (st : Store) (row : ItemRow) (seq : Nat)
    (h : row.id = nextId st.itemSeq (st.items.map (fun r => r.id))) :
    selectItem row.id { st with items := st.items ++ [row], itemSeq := seq } = some row := by
  unfold selectItem
  apply find_append_fresh (fun r : ItemRow => r.id)
  intro r hr
  rw [h]
  exact lt_nextId _ _ _ (List.mem_map_of_mem _ hr)

theorem createItem_scalar (now : String) (body : Body) (st : Store)
    (hn : truthy (getField "name" body) = true)
    (hc : truthy (getField "category" body) = true)
    (hl : truthy (getField "color" body) = true)
    (hs : scalarItemFields body = true) :
    createItem now body st =
      ({ st with items := st.items ++ [createdItemRow now body st],
                 itemSeq := (createdItemRow now body st).id },
        success 201 "添加成功" (.item ((createdItemRow now body st).toRecord
          ((getField "seasons" body).getD (.arr [.str "all-season"]))))) := by
  simp only [scalarItemFields, Bool.and_eq_true] at hs
  obtain ⟨⟨⟨⟨⟨⟨⟨⟨s1, s2⟩, s3⟩, s4⟩, s5⟩, s6⟩, s7⟩, s8⟩, s9⟩ := hs
  have hb := bind_scalars 10
    [getField "name" body, getField "category" body, getField "color" body,
      some ((getField "brand" body).getD (.str "未知品牌")),
      some ((getField "price" body).getD (.num 0)),
      JSON_stringify (some ((getField "seasons" body).getD (.arr [.str "all-season"]))),
      getField "purchase_date" body, getField "image" body,
      some ((getField "notes" body).getD (.str "")),
      some ((getField "platform" body).getD (.str "未记录"))]
    (by
      intro a ha
      simp only [List.mem_cons, List.mem_singleton, List.not_mem_nil, or_false] at ha
      rcases ha with rfl | rfl | rfl | rfl | rfl | rfl | rfl | rfl | rfl | rfl
      · exact s1
      · exact s2
      · exact s3
      · exact isScalar_getD _ _ rfl s4
      · exact isScalar_getD _ _ rfl s5
      · rfl
      · exact s6
      · exact s7
      · exact isScalar_getD _ _ rfl s8
      · exact isScalar_getD _ _ rfl s9) rfl
  have n1 := textAffinity_sqlOf_ne_null _ hn s1
  have n2 := textAffinity_sqlOf_ne_null _ hc s2
  have n3 := textAffinity_sqlOf_ne_null _ hl s3
  have hsel := selectItem_append_fresh st (createdItemRow now body st)
    (createdItemRow now body st).id rfl
  have hparse := JSON_parse_stringify ((getField "seasons" body).getD (.arr [.str "all-season"]))
  unfold createItem
  simp only [hn, hc, hl, Bool.not_true, Bool.or_self, Bool.false_eq_true, if_false, hb]
  have hins : insertItem now (List.map sqlOf
      [getField "name" body, getField "category" body, getField "color" body,
        some ((getField "brand" body).getD (.str "未知品牌")),
        some ((getField "price" body).getD (.num 0)),
        JSON_stringify (some ((getField "seasons" body).getD (.arr [.str "all-season"]))),
        getField "purchase_date" body, getField "image" body,
        some ((getField "notes" body).getD (.str "")),
        some ((getField "platform" body).getD (.str "未记录"))]) st =
      some ({ st with items := st.items ++ [createdItemRow now body st],
                      itemSeq := (createdItemRow now body st).id },
        (createdItemRow now body st).id) := by
    simp only [List.map, insertItem, JSON_stringify, sqlOf, textAffinity]
    rw [if_neg]
    · rfl
    · simp only [not_or]
      exact ⟨n1, n2, n3, by simp⟩
  rw [hins]
  simp only [hsel]
  have hse : toJs (createdItemRow now body st).seasons = .str (String.mk
      (stringify ((getField "seasons" body).getD (.arr [.str "all-season"])))) := rfl
  rw [hse, hparse]

/-! ## Shape of the handlers' results -/

theorem selectItem_id (id : Nat) (st : Store) (r : ItemRow) (h : selectItem id st = some r) :
    r.id = id := by
  have := List.find?_some h
  simpa using this

theorem createItem_accepted (now : String) (body : Body) (st : Store)
    (h : (createItem now body st).2.status = 201) :
    ∃ params newItem v,
      bind 10 [getField "name" body, getField "category" body, getField "color" body,
        some ((getField "brand" body).getD (.str "未知品牌")),
        some ((getField "price" body).getD (.num 0)),
        JSON_stringify (some ((getField "seasons" body).getD (.arr [.str "all-season"]))),
        getField "purchase_date" body, getField "image" body,
        some ((getField "notes" body).getD (.str "")),
        some ((getField "platform" body).getD (.str "未记录"))] = some params ∧
      insertItem now params st = some ((createItem now body st).1, newItem.id) ∧
      selectItem newItem.id (createItem now body st).1 = some newItem ∧
      JSON_parse (toJs newItem.seasons) = some v ∧
      (createItem now body st).2 = success 201 "添加成功" (.item (newItem.toRecord v)) := by
  revert h
  unfold createItem
  simp only []
  split
  · intro h; simp [failure] at h
  · split
    · intro h; simp [failure] at h
    · rename_i params hb
      split
      · intro h; simp [failure] at h
      · rename_i st1 rowid hi
        split
        · intro h; simp [failure] at h
        · rename_i newItem hsel
          split
          · intro h; simp [failure] at h
          · rename_i v hp
            intro _
            have hid := selectItem_id _ _ _ hsel
            subst hid
            exact ⟨params, newItem, v, hb, hi, hsel, hp, rfl⟩

theorem find_none_of_absent {α : Type} (key : α → Nat) (rows : List α) (id : Nat)
    (h : ∀ r ∈ rows, key r ≠ id) : rows.find? (fun r => key r == id) = none := by
  rw [List.find?_eq_none]
  intro r hr
  simpa using h r hr

theorem orElse_eq_getD (x : Option JVal) (d : JVal) (h : absentOrTruthy x = true) :
    orElse x d = x.getD d := by
  cases x with
  | none => simp [orElse, truthy]
  | some v =>
    have : truthy (some v) = true := h
    simp [orElse, this]

theorem itemBatchArgs_obj (rec : Body) :
    itemBatchArgs (.obj rec) =
      some [getField "name" rec, getField "category" rec, getField "color" rec,
        some (orElse (getField "brand" rec) (.str "未知品牌")),
        some (orElse (getField "price" rec) (.num 0)),
        JSON_stringify (some (orElse (getField "seasons" rec) (.arr [.str "all-season"]))),
        (if truthy (getField "purchaseDate" rec) then getField "purchaseDate" rec
          else getField "purchase_date" rec),
        getField "image" rec,
        some (orElse (getField "notes" rec) (.str "")),
        some (orElse (getField "platform" rec) (.str "未记录"))] := by
  simp [itemBatchArgs, propOf]

theorem isScalar_of_textOrNull (x : Option JVal) (h : textOrNull x = true) :
    isScalar x = true := by
  match x, h with
  | none, _ => rfl
  | some .null, _ => rfl
  | some (.str _), _ => rfl

theorem isScalar_of_numberOrNull (x : Option JVal) (h : numberOrNull x = true) :
    isScalar x = true := by
  match x, h with
  | none, _ => rfl
  | some .null, _ => rfl
  | some (.num _), _ => rfl

theorem textAffinity_textOrNull (x : Option JVal) (h : textOrNull x = true) :
    textAffinity (sqlOf x) = sqlOf x := by
  match x, h with
  | none, _ => rfl
  | some .null, _ => rfl
  | some (.str _), _ => rfl

theorem numericAffinity_numberOrNull (x : Option JVal) (h : numberOrNull x = true) :
    numericAffinity (sqlOf x) = sqlOf x := by
  match x, h with
  | none, _ => rfl
  | some .null, _ => rfl
  | some (.num _), _ => rfl

theorem find_map_update {α : Type} (key : α → Nat) (set : α → α) (id : Nat)
    (hkey : ∀ r, key (set r) = key r) (rows : List α) :
    (rows.map (fun r => if key r == id then set r else r)).find? (fun r => key r == id)
      = (rows.find? (fun r => key r == id)).map set := by
  induction rows with
  | nil => rfl
  | cons r rs ih =>
    by_cases h : key r = id
    · have h1 : (key r == id) = true := by simpa using h
      have h2 : (key (set r) == id) = true := by rw [hkey]; exact h1
      simp only [List.map_cons, h1, if_true, List.find?_cons, h2, Option.map_some']
    · have h1 : (key r == id) = false := by simpa using h
      simp only [List.map_cons, h1, Bool.false_eq_true, if_false, List.find?_cons]
      exact ih

theorem any_of_find {α : Type} (p : α → Bool) (rows : List α) (r : α)
    (h : rows.find? p = some r) : rows.any p = true := by
  rw [List.any_eq_true]
  exact ⟨r, List.mem_of_find?_eq_some h, List.find?_some h⟩

theorem replaceItem_scalar (now : String) (id : Nat) (body : Body) (st : Store)
    (r0 : ItemRow) (seasons : JVal)
    (hex : selectItem id st = some r0)
    (hs : scalarItemFields body = true)
    (hseasons : getField "seasons" body = some seasons)
    (hn : textAffinity (sqlOf (getField "name" body)) ≠ .null)
    (hc : textAffinity (sqlOf (getField "category" body)) ≠ .null)
    (hl : textAffinity (sqlOf (getField "color" body)) ≠ .null) :
    replaceItem now id body st =
      ({ st with items := st.items.map (fun r =>
            if r.id == id then replacedItemRow now body seasons r else r) },
        success 200 "更新成功"
          (.item ((replacedItemRow now body seasons r0).toRecord seasons))) := by
  simp only [scalarItemFields, Bool.and_eq_true] at hs
  obtain ⟨⟨⟨⟨⟨⟨⟨⟨s1, s2⟩, s3⟩, s4⟩, s5⟩, s6⟩, s7⟩, s8⟩, s9⟩ := hs
  have hb := bind_scalars 10
    [getField "name" body, getField "category" body, getField "color" body,
      getField "brand" body, getField "price" body,
      JSON_stringify (getField "seasons" body),
      getField "purchase_date" body, getField "image" body,
      getField "notes" body, getField "platform" body]
    (by
      intro a ha
      simp only [List.mem_cons, List.mem_singleton, List.not_mem_nil, or_false] at ha
      rcases ha with rfl | rfl | rfl | rfl | rfl | rfl | rfl | rfl | rfl | rfl
      · exact s1
      · exact s2
      · exact s3
      · exact s4
      · exact s5
      · rw [hseasons]; rfl
      · exact s6
      · exact s7
      · exact s8
      · exact s9) rfl
  have hupd : updateItem now (List.map sqlOf
      [getField "name" body, getField "category" body, getField "color" body,
        getField "brand" body, getField "price" body,
        JSON_stringify (getField "seasons" body),
        getField "purchase_date" body, getField "image" body,
        getField "notes" body, getField "platform" body]) id st =
      some { st with items := st.items.map (fun r =>
        if r.id == id then replacedItemRow now body seasons r else r) } := by
    simp only [List.map, updateItem, hseasons, JSON_stringify, sqlOf, textAffinity]
    rw [if_neg]
    · rfl
    · simp only [not_and, not_or]
      intro _
      exact ⟨hn, hc, hl, by simp⟩
  have hsel : selectItem id { st with items := st.items.map (fun r =>
        if r.id == id then replacedItemRow now body seasons r else r) }
      = some (replacedItemRow now body seasons r0) := by
    unfold selectItem at hex ⊢
    have := find_map_update (fun r : ItemRow => r.id) (replacedItemRow now body seasons) id
      (fun _ => rfl) st.items
    simp only at this ⊢
    rw [this, hex]; rfl
  have hparse := JSON_parse_stringify seasons
  have hse : toJs (replacedItemRow now body seasons r0).seasons
      = .str (String.mk (stringify seasons)) := rfl
  unfold replaceItem
  simp only [hex, hb, hupd, hsel, hse, hparse]

/-! ### The item batch -/

theorem insertManyItems_cons (now : String) (item : JVal) (rest : List JVal) (st : Store) :
    insertManyItems now (item :: rest) st =
      match insertOneItem now item st with
      | none => none
      | some st1 => insertManyItems now rest st1 := by
  rw [insertManyItems]
  unfold insertOneItem
  cases itemBatchArgs item with
  | none => rfl
  | some args =>
    simp only
    cases bind 10 args with
    | none => rfl
    | some params =>
      simp only
      cases insertItem now params st with
      | none => rfl
      | some p => rfl

theorem insertManyItems_fails (now : String) (bad : JVal)
    (hbad : ∀ st, insertOneItem now bad st = none) :
    ∀ (items : List JVal) (st : Store), bad ∈ items → insertManyItems now items st = none := by
  intro items
  induction items with
  | nil => intro st h; simp at h
  | cons x rest ih =>
    intro st h
    rw [insertManyItems_cons]
    rcases List.mem_cons.mp h with rfl | h
    · rw [hbad]
    · cases insertOneItem now x st with
      | none => rfl
      | some st1 => exact ih st1 h

theorem bindLoop_scalar_cons (seen : Bool) (a : Option JVal) (rest : List (Option JVal))
    (h : isScalar a = true) :
    bindLoop seen (a :: rest) =
      match bindLoop seen rest with
      | some ps => some (sqlOf a :: ps)
      | none => none := by
  match a, h with
  | none, _ => rfl
  | some .null, _ =>
    simp only [bindLoop, bindValue, sqlOf]
    cases bindLoop seen rest <;> rfl
  | some (.num n), _ =>
    simp only [bindLoop, bindValue, sqlOf]
    cases bindLoop seen rest <;> rfl
  | some (.str s), _ =>
    simp only [bindLoop, bindValue, sqlOf]
    cases bindLoop seen rest <;> rfl

theorem insertItem_null_required (now : String) (st : Store) (p1 p2 p3 : SqlVal)
    (ps : List SqlVal) (h : textAffinity p1 = .null ∨ textAffinity p2 = .null ∨
      textAffinity p3 = .null) :
    insertItem now (p1 :: p2 :: p3 :: ps) st = none := by
  match ps with
  | [p4, p5, p6, p7, p8, p9, p10] =>
    simp only [insertItem]
    rw [if_pos]
    rcases h with h | h | h
    · exact Or.inl h
    · exact Or.inr (Or.inl h)
    · exact Or.inr (Or.inr (Or.inl h))
  | [] => rfl
  | [_] => rfl
  | [_, _] => rfl
  | [_, _, _] => rfl
  | [_, _, _, _] => rfl
  | [_, _, _, _, _] => rfl
  | [_, _, _, _, _, _] => rfl
  | _ :: _ :: _ :: _ :: _ :: _ :: _ :: _ :: _ => rfl

theorem bind_three_scalars (a1 a2 a3 : Option JVal) (rest : List (Option JVal))
    (params : List SqlVal)
    (h1 : isScalar a1 = true) (h2 : isScalar a2 = true) (h3 : isScalar a3 = true)
    (hb : bind 10 (a1 :: a2 :: a3 :: rest) = some params) :
    ∃ ps, params = sqlOf a1 :: sqlOf a2 :: sqlOf a3 :: ps := by
  unfold bind at hb
  rw [bindLoop_scalar_cons _ _ _ h1, bindLoop_scalar_cons _ _ _ h2,
    bindLoop_scalar_cons _ _ _ h3] at hb
  cases hr : bindLoop false rest with
  | none => simp [hr] at hb
  | some ps =>
    simp only [hr] at hb
    split at hb
    · exact ⟨ps, (Option.some.inj hb).symm⟩
    · simp at hb

theorem sqlOf_absent_null (a : Option JVal) (h : a.isNone = true) :
    textAffinity (sqlOf a) = .null := by
  cases a with
  | none => rfl
  | some v => simp at h

theorem insertOneItem_lacksRequired (now : String) (item : JVal)
    (h : lacksRequired item = true) (st : Store) : insertOneItem now item st = none := by
  unfold insertOneItem
  cases hargs : itemBatchArgs item with
  | none => rfl
  | some args =>
    simp only
    cases hb : bind 10 args with
    | none => rfl
    | some params =>
      simp only
      have key : ∃ a1 a2 a3 rest, args = a1 :: a2 :: a3 :: rest ∧
          isScalar a1 = true ∧ isScalar a2 = true ∧ isScalar a3 = true ∧
          (a1.isNone = true ∨ a2.isNone = true ∨ a3.isNone = true) := by
        match item, h, hargs with
        | .obj rec, h, hargs =>
          rw [itemBatchArgs_obj] at hargs
          simp only [lacksRequired, Bool.and_eq_true, Bool.or_eq_true] at h
          obtain ⟨⟨⟨h1, h2⟩, h3⟩, h4⟩ := h
          refine ⟨_, _, _, _, (Option.some.inj hargs).symm, h1, h2, h3, ?_⟩
          rcases h4 with (h4 | h4) | h4
          · exact Or.inl h4
          · exact Or.inr (Or.inl h4)
          · exact Or.inr (Or.inr h4)
        | .bool b, _, hargs =>
          exact ⟨_, _, _, _, (Option.some.inj hargs).symm, rfl, rfl, rfl, Or.inl rfl⟩
        | .num n, _, hargs =>
          exact ⟨_, _, _, _, (Option.some.inj hargs).symm, rfl, rfl, rfl, Or.inl rfl⟩
        | .str s, _, hargs =>
          exact ⟨_, _, _, _, (Option.some.inj hargs).symm, rfl, rfl, rfl, Or.inl rfl⟩
        | .arr xs, _, hargs =>
          exact ⟨_, _, _, _, (Option.some.inj hargs).symm, rfl, rfl, rfl, Or.inl rfl⟩
      obtain ⟨a1, a2, a3, rest, rfl, h1, h2, h3, hnone⟩ := key
      obtain ⟨ps, rfl⟩ := bind_three_scalars a1 a2 a3 rest params h1 h2 h3 hb
      rw [insertItem_null_required]
      rcases hnone with h | h | h
      · exact Or.inl (sqlOf_absent_null _ h)
      · exact Or.inr (Or.inl (sqlOf_absent_null _ h))
      · exact Or.inr (Or.inr (sqlOf_absent_null _ h))

theorem isScalar_orElse (x : Option JVal) (d : JVal) (hd : isScalar (some d) = true)
    (h : isScalar x = true) : isScalar (some (orElse x d)) = true := by
  unfold orElse
  split
  · exact isScalar_getD x d hd h
  · exact hd

theorem insertItem_ten (now : String) (st : Store)
    (p1 p2 p3 p4 p5 p6 p7 p8 p9 p10 : SqlVal) :
    insertItem now [p1, p2, p3, p4, p5, p6, p7, p8, p9, p10] st =
      if textAffinity p1 = .null ∨ textAffinity p2 = .null ∨ textAffinity p3 = .null ∨
          textAffinity p6 = .null then none
      else some ({ st with
          items := st.items ++
            [{ id := nextId st.itemSeq (st.items.map (fun r => r.id)),
               name := textAffinity p1, category := textAffinity p2,
               color := textAffinity p3, brand := textAffinity p4,
               price := numericAffinity p5, seasons := textAffinity p6,
               purchase_date := textAffinity p7, image := textAffinity p8,
               notes := textAffinity p9, platform := textAffinity p10,
               created_at := now, updated_at := now }],
          itemSeq := nextId st.itemSeq (st.items.map (fun r => r.id)) },
        nextId st.itemSeq (st.items.map (fun r => r.id))) := rfl

theorem insertOneItem_scalar (now : String) (rec : Body) (st : Store)
    (hs : scalarBatchFields rec = true) :
    insertOneItem now (.obj rec) st =
      if textAffinity (sqlOf (getField "name" rec)) = .null ∨
          textAffinity (sqlOf (getField "category" rec)) = .null ∨
          textAffinity (sqlOf (getField "color" rec)) = .null then none
      else some { st with items := st.items ++ [batchItemRow now rec st],
                          itemSeq := (batchItemRow now rec st).id } := by
  simp only [scalarBatchFields, Bool.and_eq_true] at hs
  obtain ⟨⟨⟨⟨⟨⟨⟨⟨⟨s1, s2⟩, s3⟩, s4⟩, s5⟩, s6⟩, s7⟩, s8⟩, s9⟩, s10⟩ := hs
  have hb := bind_scalars 10
    [getField "name" rec, getField "category" rec, getField "color" rec,
      some (orElse (getField "brand" rec) (.str "未知品牌")),
      some (orElse (getField "price" rec) (.num 0)),
      JSON_stringify (some (orElse (getField "seasons" rec) (.arr [.str "all-season"]))),
      (if truthy (getField "purchaseDate" rec) then getField "purchaseDate" rec
        else getField "purchase_date" rec),
      getField "image" rec,
      some (orElse (getField "notes" rec) (.str "")),
      some (orElse (getField "platform" rec) (.str "未记录"))]
    (by
      intro a ha
      simp only [List.mem_cons, List.mem_singleton, List.not_mem_nil, or_false] at ha
      rcases ha with rfl | rfl | rfl | rfl | rfl | rfl | rfl | rfl | rfl | rfl
      · exact s1
      · exact s2
      · exact s3
      · exact isScalar_orElse _ _ rfl s4
      · exact isScalar_orElse _ _ rfl s5
      · rfl
      · split
        · exact s6
        · exact s7
      · exact s8
      · exact isScalar_orElse _ _ rfl s9
      · exact isScalar_orElse _ _ rfl s10) rfl
  have hse : textAffinity (sqlOf (JSON_stringify
      (some (orElse (getField "seasons" rec) (.arr [.str "all-season"]))))) ≠ .null := by
    simp [JSON_stringify, sqlOf, textAffinity]
  unfold insertOneItem
  rw [itemBatchArgs_obj]
  simp only [hb, List.map]
  rw [insertItem_ten]
  by_cases hnull : textAffinity (sqlOf (getField "name" rec)) = .null ∨
      textAffinity (sqlOf (getField "category" rec)) = .null ∨
      textAffinity (sqlOf (getField "color" rec)) = .null
  · rw [if_pos hnull, if_pos (by tauto)]
  · rw [if_neg hnull, if_neg (by tauto)]
    rfl

theorem insertOneItem_plain (now : String) (item : JVal) (st : Store)
    (h : plainItemRecord item = true) :
    ∃ row seq, insertOneItem now item st =
      some { st with items := st.items ++ [row], itemSeq := seq } := by
  match item, h with
  | .obj rec, h =>
    simp only [plainItemRecord, Bool.and_eq_true] at h
    obtain ⟨⟨⟨⟨⟨⟨⟨⟨⟨s1, s2⟩, s3⟩, s4⟩, s5⟩, s6⟩, s7⟩, s8⟩, s9⟩, s10⟩ := h
    have n1 : textAffinity (sqlOf (getField "name" rec)) ≠ .null := by
      match getField "name" rec, s1 with
      | some (.str s), _ => simp [sqlOf, textAffinity]
    have n2 : textAffinity (sqlOf (getField "category" rec)) ≠ .null := by
      match getField "category" rec, s2 with
      | some (.str s), _ => simp [sqlOf, textAffinity]
    have n3 : textAffinity (sqlOf (getField "color" rec)) ≠ .null := by
      match getField "color" rec, s3 with
      | some (.str s), _ => simp [sqlOf, textAffinity]
    have i1 : isScalar (getField "name" rec) = true := by
      match getField "name" rec, s1 with
      | some (.str s), _ => rfl
    have i2 : isScalar (getField "category" rec) = true := by
      match getField "category" rec, s2 with
      | some (.str s), _ => rfl
    have i3 : isScalar (getField "color" rec) = true := by
      match getField "color" rec, s3 with
      | some (.str s), _ => rfl
    have hs : scalarBatchFields rec = true := by
      simp only [scalarBatchFields, i1, i2, i3, s4, s5, s6, s7, s8, s9, s10]
      rfl
    rw [insertOneItem_scalar now rec st hs, if_neg (by tauto)]
    exact ⟨_, _, rfl⟩

theorem insertManyItems_plain (now : String) : ∀ (items : List JVal) (st : Store),
    (∀ x ∈ items, plainItemRecord x = true) →
    ∃ rows seq, rows.length = items.length ∧
      insertManyItems now items st = some { st with items := st.items ++ rows, itemSeq := seq }
  | [], st, _ => ⟨[], st.itemSeq, rfl, by simp [insertManyItems]⟩
  | x :: rest, st, h => by
    obtain ⟨row, seq, h1⟩ := insertOneItem_plain now x st (h x (List.mem_cons_self _ _))
    obtain ⟨rows, seq2, hlen, h2⟩ := insertManyItems_plain now rest
      { st with items := st.items ++ [row], itemSeq := seq }
      (fun y hy => h y (List.mem_cons_of_mem _ hy))
    refine ⟨row :: rows, seq2, by simp [hlen], ?_⟩
    rw [insertManyItems_cons, h1]
    simp only [h2, List.append_assoc, List.singleton_append]

/-! ### Listing -/

theorem mem_insertBy {α : Type} (before : α → α → Bool) (x y : α) (rows : List α) :
    y ∈ insertBy before x rows ↔ y = x ∨ y ∈ rows := by
  induction rows with
  | nil => simp [insertBy]
  | cons r rs ih =>
    unfold insertBy
    split
    · simp only [List.mem_cons, ih]; tauto
    · simp only [List.mem_cons]

theorem mem_orderBy {α : Type} (before : α → α → Bool) (y : α) (rows : List α) :
    y ∈ orderBy before rows ↔ y ∈ rows := by
  induction rows with
  | nil => simp [orderBy]
  | cons r rs ih =>
    have : orderBy before (r :: rs) = insertBy before r (orderBy before rs) := rfl
    rw [this, mem_insertBy, ih, List.mem_cons]

theorem parseItems_decoded : ∀ (rows : List ItemRow),
    (∀ r ∈ rows, ∃ v, JSON_parse (toJs r.seasons) = some v) →
    ∃ recs, parseItems rows = some recs ∧
      List.Forall₂ (fun (r : ItemRow) (g : ItemRecord) =>
        ∃ v, JSON_parse (toJs r.seasons) = some v ∧ g = r.toRecord v) rows recs
  | [], _ => ⟨[], rfl, List.Forall₂.nil⟩
  | r :: rs, h => by
    obtain ⟨v, hv⟩ := h r (List.mem_cons_self _ _)
    obtain ⟨recs, hrecs, hall⟩ := parseItems_decoded rs
      (fun x hx => h x (List.mem_cons_of_mem _ hx))
    refine ⟨r.toRecord v :: recs, ?_, List.Forall₂.cons ⟨v, hv, rfl⟩ hall⟩
    simp only [parseItems, hv, hrecs]

theorem forall₂_mem_left {α β : Type} {R : α → β → Prop} {xs : List α} {ys : List β}
    (h : List.Forall₂ R xs ys) (x : α) (hx : x ∈ xs) : ∃ y ∈ ys, R x y := by
  induction h with
  | nil => simp at hx
  | cons hr _ ih =>
    rcases List.mem_cons.mp hx with rfl | hx
    · exact ⟨_, List.mem_cons_self _ _, hr⟩
    · obtain ⟨y, hy, hxy⟩ := ih hx
      exact ⟨y, List.mem_cons_of_mem _ hy, hxy⟩

theorem forall₂_mem_right {α β : Type} {R : α → β → Prop} {xs : List α} {ys : List β}
    (h : List.Forall₂ R xs ys) (y : β) (hy : y ∈ ys) : ∃ x ∈ xs, R x y := by
  induction h with
  | nil => simp at hy
  | cons hr _ ih =>
    rcases List.mem_cons.mp hy with rfl | hy
    · exact ⟨_, List.mem_cons_self _ _, hr⟩
    · obtain ⟨x, hx, hxy⟩ := ih hy
      exact ⟨x, List.mem_cons_of_mem _ hx, hxy⟩

/-- When every stored `seasons` text decodes, the list handler answers 200 with
the decoded records of the matching rows, in the order of the query. -/
theorem listItems_decoded (q : ItemQuery) (st : Store)
    (h : ∀ r ∈ st.items, ∃ v, JSON_parse (toJs r.seasons) = some v) :
    ∃ recs, listItems q st =
        { status := 200, success := true, message := none, data := .items recs,
          count := some recs.length } ∧
      List.Forall₂ (fun (r : ItemRow) (g : ItemRecord) =>
        ∃ v, JSON_parse (toJs r.seasons) = some v ∧ g = r.toRecord v)
        (orderBy (fun a b => decide (b.created_at < a.created_at))
          (st.items.filter (itemMatches q))) recs := by
  obtain ⟨recs, hrecs, hall⟩ := parseItems_decoded
    (orderBy (fun a b => decide (b.created_at < a.created_at))
      (st.items.filter (itemMatches q)))
    (by
      intro r hr
      rw [mem_orderBy] at hr
      exact h r (List.mem_of_mem_filter hr))
  refine ⟨recs, ?_, hall⟩
  simp only [listItems, hrecs]

/-! ### Inspirations -/

theorem stringify_ne_nil (v : JVal) : stringify v ≠ [] := by
  obtain ⟨c, tl, h, -, -⟩ := stringify_head v
  rw [h]; simp

theorem parseTags_stringify (v : JVal) :
    parseTags (.text (String.mk (stringify v))) = some v := by
  have hne : (String.mk (stringify v) != "") = true := by
    have := stringify_ne_nil v
    simp only [bne_iff_ne, ne_eq]
    intro h
    exact this (congrArg String.data h)
  simp only [parseTags, toJs, truthy, hne, if_true]
  exact JSON_parse_stringify v

theorem selectInspiration_append_fresh (st : Store) (row : InspirationRow) (seq : Nat)
    (h : row.id = nextId st.inspirationSeq (st.inspirations.map (fun r => r.id))) :
    selectInspiration row.id
      { st with inspirations := st.inspirations ++ [row], inspirationSeq := seq } = some row := by
  unfold selectInspiration
  apply find_append_fresh (fun r : InspirationRow => r.id)
  intro r hr
  rw [h]
  exact lt_nextId _ _ _ (List.mem_map_of_mem _ hr)

theorem createInspiration_scalar (now : String) (body : Body) (st : Store)
    (ht : truthy (getField "title" body) = true)
    (hi : truthy (getField "image" body) = true)
    (s1 : isScalar (getField "title" body) = true)
    (s2 : isScalar (getField "image" body) = true)
    (s3 : isScalar (getField "description" body) = true) :
    createInspiration now body st =
      ({ st with inspirations := st.inspirations ++ [createdInspirationRow now body st],
                 inspirationSeq := (createdInspirationRow now body st).id },
        success 201 "添加成功" (.inspiration ((createdInspirationRow now body st).toRecord
          ((getField "tags" body).getD (.arr []))))) := by
  have hb := bind_scalars 4
    [getField "title" body, getField "image" body,
      some ((getField "description" body).getD (.str "")),
      JSON_stringify (some ((getField "tags" body).getD (.arr [])))]
    (by
      intro a ha
      simp only [List.mem_cons, List.mem_singleton, List.not_mem_nil, or_false] at ha
      rcases ha with rfl | rfl | rfl | rfl
      · exact s1
      · exact s2
      · exact isScalar_getD _ _ rfl s3
      · rfl) rfl
  have n1 := textAffinity_sqlOf_ne_null _ ht s1
  have n2 := textAffinity_sqlOf_ne_null _ hi s2
  have hsel := selectInspiration_append_fresh st (createdInspirationRow now body st)
    (createdInspirationRow now body st).id rfl
  have hparse := JSON_parse_stringify ((getField "tags" body).getD (.arr []))
  have hins : insertInspiration now (List.map sqlOf
      [getField "title" body, getField "image" body,
        some ((getField "description" body).getD (.str "")),
        JSON_stringify (some ((getField "tags" body).getD (.arr [])))]) st =
      some ({ st with inspirations := st.inspirations ++ [createdInspirationRow now body st],
                      inspirationSeq := (createdInspirationRow now body st).id },
        (createdInspirationRow now body st).id) := by
    simp only [List.map, insertInspiration]
    rw [if_neg (by tauto)]
    rfl
  have hse : toJs (createdInspirationRow now body st).tags = .str (String.mk
      (stringify ((getField "tags" body).getD (.arr [])))) := rfl
  unfold createInspiration
  simp only [ht, hi, Bool.not_true, Bool.or_self, Bool.false_eq_true, if_false, hb, hins,
    hsel, hse, hparse]

theorem parseInspirations_decoded : ∀ (rows : List InspirationRow),
    (∀ r ∈ rows, ∃ v, parseTags r.tags = some v) →
    ∃ recs, parseInspirations rows = some recs ∧
      List.Forall₂ (fun (r : InspirationRow) (g : InspirationRecord) =>
        ∃ v, parseTags r.tags = some v ∧ g = r.toRecord v) rows recs
  | [], _ => ⟨[], rfl, List.Forall₂.nil⟩
  | r :: rs, h => by
    obtain ⟨v, hv⟩ := h r (List.mem_cons_self _ _)
    obtain ⟨recs, hrecs, hall⟩ := parseInspirations_decoded rs
      (fun x hx => h x (List.mem_cons_of_mem _ hx))
    refine ⟨r.toRecord v :: recs, ?_, List.Forall₂.cons ⟨v, hv, rfl⟩ hall⟩
    simp only [parseInspirations, hv, hrecs]

/-- When every stored `tags` text decodes, the list handler answers 200 with the
decoded records of all rows, in the order of the query. -/
theorem listInspirations_decoded (st : Store)
    (h : ∀ r ∈ st.inspirations, ∃ v, parseTags r.tags = some v) :
    ∃ recs, listInspirations st =
        { status := 200, success := true, message := none, data := .inspirations recs,
          count := some recs.length } ∧
      List.Forall₂ (fun (r : InspirationRow) (g : InspirationRecord) =>
        ∃ v, parseTags r.tags = some v ∧ g = r.toRecord v)
        (orderBy (fun a b => decide (b.created_at < a.created_at)) st.inspirations) recs := by
  obtain ⟨recs, hrecs, hall⟩ := parseInspirations_decoded
    (orderBy (fun a b => decide (b.created_at < a.created_at)) st.inspirations)
    (by
      intro r hr
      rw [mem_orderBy] at hr
      exact h r hr)
  refine ⟨recs, ?_, hall⟩
  simp only [listInspirations, hrecs]

/-! ### The stores the item calls produce -/

theorem updateItem_ten (now : String) (id : Nat) (st : Store)
    (p1 p2 p3 p4 p5 p6 p7 p8 p9 p10 : SqlVal) :
    updateItem now [p1, p2, p3, p4, p5, p6, p7, p8, p9, p10] id st =
      if st.items.any (fun r => r.id == id) ∧
          (textAffinity p1 = .null ∨ textAffinity p2 = .null ∨
            textAffinity p3 = .null ∨ textAffinity p6 = .null) then none
      else some { st with items := st.items.map (fun r =>
        if r.id == id then
          { r with
            name := textAffinity p1, category := textAffinity p2,
            color := textAffinity p3, brand := textAffinity p4,
            price := numericAffinity p5, seasons := textAffinity p6,
            purchase_date := textAffinity p7, image := textAffinity p8,
            notes := textAffinity p9, platform := textAffinity p10,
            updated_at := now }
        else r) } := rfl

theorem createItem_rejected (now : String) (body : Body) (st : Store)
    (h : (truthy (getField "name" body) && truthy (getField "category" body)
      && truthy (getField "color" body)) = false) :
    (createItem now body st).1 = st := by
  have : (!truthy (getField "name" body) || !truthy (getField "category" body)
      || !truthy (getField "color" body)) = true := by
    cases h1 : truthy (getField "name" body) <;> cases h2 : truthy (getField "category" body)
      <;> cases h3 : truthy (getField "color" body) <;> simp [h1, h2, h3] at h ⊢
  simp [createItem, this]

theorem replaceItem_scalar_store (now : String) (id : Nat) (body : Body) (st : Store)
    (hs : scalarItemFields body = true) :
    (replaceItem now id body st).1 = st ∨
    ∃ seasons, getField "seasons" body = some seasons ∧
      (replaceItem now id body st).1 =
        { st with items := st.items.map (fun r =>
            if r.id == id then replacedItemRow now body seasons r else r) } := by
  cases hex : selectItem id st with
  | none => left; simp [replaceItem, hex]
  | some r0 =>
    cases hse : getField "seasons" body with
    | none =>
      left
      have hs' := hs
      simp only [scalarItemFields, Bool.and_eq_true] at hs'
      obtain ⟨⟨⟨⟨⟨⟨⟨⟨s1, s2⟩, s3⟩, s4⟩, s5⟩, s6⟩, s7⟩, s8⟩, s9⟩ := hs'
      have hb := bind_scalars 10
        [getField "name" body, getField "category" body, getField "color" body,
          getField "brand" body, getField "price" body, JSON_stringify none,
          getField "purchase_date" body, getField "image" body,
          getField "notes" body, getField "platform" body]
        (by
          intro a ha
          simp only [List.mem_cons, List.mem_singleton, List.not_mem_nil, or_false] at ha
          rcases ha with rfl | rfl | rfl | rfl | rfl | rfl | rfl | rfl | rfl | rfl
          · exact s1
          · exact s2
          · exact s3
          · exact s4
          · exact s5
          · rfl
          · exact s6
          · exact s7
          · exact s8
          · exact s9) rfl
      have hany : st.items.any (fun r => r.id == id) = true := any_of_find _ _ _ hex
      unfold replaceItem
      simp only [hex, hse, hb, List.map]
      rw [updateItem_ten, if_pos ⟨hany, Or.inr (Or.inr (Or.inr rfl))⟩]
    | some seasons =>
      by_cases hnull : textAffinity (sqlOf (getField "name" body)) = .null ∨
          textAffinity (sqlOf (getField "category" body)) = .null ∨
          textAffinity (sqlOf (getField "color" body)) = .null
      · left
        have hs' := hs
        simp only [scalarItemFields, Bool.and_eq_true] at hs'
        obtain ⟨⟨⟨⟨⟨⟨⟨⟨s1, s2⟩, s3⟩, s4⟩, s5⟩, s6⟩, s7⟩, s8⟩, s9⟩ := hs'
        have hb := bind_scalars 10
          [getField "name" body, getField "category" body, getField "color" body,
            getField "brand" body, getField "price" body, JSON_stringify (some seasons),
            getField "purchase_date" body, getField "image" body,
            getField "notes" body, getField "platform" body]
          (by
            intro a ha
            simp only [List.mem_cons, List.mem_singleton, List.not_mem_nil, or_false] at ha
            rcases ha with rfl | rfl | rfl | rfl | rfl | rfl | rfl | rfl | rfl | rfl
            · exact s1
            · exact s2
            · exact s3
            · exact s4
            · exact s5
            · rfl
            · exact s6
            · exact s7
            · exact s8
            · exact s9) rfl
        have hany : st.items.any (fun r => r.id == id) = true := any_of_find _ _ _ hex
        unfold replaceItem
        simp only [hex, hse, hb, List.map]
        rw [updateItem_ten, if_pos ⟨hany, by tauto⟩]
      · right
        simp only [not_or] at hnull
        refine ⟨seasons, rfl, ?_⟩
        rw [replaceItem_scalar now id body st r0 seasons hex hs hse hnull.1 hnull.2.1
          hnull.2.2]

theorem seasonsTagged_of_text (r : ItemRow) (v : JVal)
    (hr : r.seasons = .text (String.mk (stringify v))) (hv : isTagList v = true) :
    seasonsTagged r := by
  refine ⟨v, ?_, hv⟩
  rw [hr]
  exact JSON_parse_stringify v

theorem isTagList_getD (x : Option JVal) (h : absentOrTags x = true) :
    isTagList (x.getD (.arr [.str "all-season"])) = true := by
  cases x with
  | none => rfl
  | some v => exact h

theorem isTagList_orElse (x : Option JVal) (h : absentOrTags x = true) :
    isTagList (orElse x (.arr [.str "all-season"])) = true := by
  unfold orElse
  split
  · exact isTagList_getD x h
  · rfl

theorem tagged_create (now : String) (body : Body) (st : Store)
    (hinv : ∀ r ∈ st.items, seasonsTagged r)
    (hs : scalarItemFields body = true) (ht : absentOrTags (getField "seasons" body) = true) :
    ∀ r ∈ (createItem now body st).1.items, seasonsTagged r := by
  cases hall : (truthy (getField "name" body) && truthy (getField "category" body)
      && truthy (getField "color" body)) with
  | false => rw [createItem_rejected now body st hall]; exact hinv
  | true =>
    simp only [Bool.and_eq_true] at hall
    rw [createItem_scalar now body st hall.1.1 hall.1.2 hall.2 hs]
    intro r hr
    rcases List.mem_append.mp hr with hr | hr
    · exact hinv r hr
    · rw [List.mem_singleton.mp hr]
      exact seasonsTagged_of_text _ _ rfl (isTagList_getD _ ht)

theorem tagged_replace (now : String) (id : Nat) (body : Body) (st : Store)
    (hinv : ∀ r ∈ st.items, seasonsTagged r)
    (hs : scalarItemFields body = true) (ht : absentOrTags (getField "seasons" body) = true) :
    ∀ r ∈ (replaceItem now id body st).1.items, seasonsTagged r := by
  rcases replaceItem_scalar_store now id body st hs with h | ⟨seasons, hse, h⟩
  · rw [h]; exact hinv
  · rw [h]
    intro r hr
    simp only [List.mem_map] at hr
    obtain ⟨r0, hr0, rfl⟩ := hr
    split
    · rw [hse] at ht
      exact seasonsTagged_of_text _ _ rfl ht
    · exact hinv r0 hr0

theorem tagged_insertMany (now : String) : ∀ (items : List JVal) (st st1 : Store),
    (∀ x ∈ items, taggedRecord x = true) → (∀ r ∈ st.items, seasonsTagged r) →
    insertManyItems now items st = some st1 → ∀ r ∈ st1.items, seasonsTagged r
  | [], st, st1, _, hinv, h => by
    simp only [insertManyItems, Option.some.injEq] at h
    rw [← h]; exact hinv
  | x :: rest, st, st1, hx, hinv, h => by
    rw [insertManyItems_cons] at h
    have hx0 := hx x (List.mem_cons_self _ _)
    match x, hx0 with
    | .obj rec, hx0 =>
      simp only [taggedRecord, Bool.and_eq_true] at hx0
      rw [insertOneItem_scalar now rec st hx0.1] at h
      by_cases hnull : textAffinity (sqlOf (getField "name" rec)) = .null ∨
          textAffinity (sqlOf (getField "category" rec)) = .null ∨
          textAffinity (sqlOf (getField "color" rec)) = .null
      · rw [if_pos hnull] at h
        simp at h
      · rw [if_neg hnull] at h
        refine tagged_insertMany now rest
          { st with items := st.items ++ [batchItemRow now rec st],
                    itemSeq := (batchItemRow now rec st).id } st1
          (fun y hy => hx y (List.mem_cons_of_mem _ hy)) ?_ h
        intro r hr
        rcases List.mem_append.mp hr with hr | hr
        · exact hinv r hr
        · rw [List.mem_singleton.mp hr]
          exact seasonsTagged_of_text _ _ rfl (isTagList_orElse _ hx0.2)

theorem tagged_batch (now : String) (body : Body) (st : Store)
    (hinv : ∀ r ∈ st.items, seasonsTagged r)
    (hc : taggedCall (.batch now body) = true) :
    ∀ r ∈ (batchItems now body st).1.items, seasonsTagged r := by
  unfold batchItems
  split
  · rename_i x xs hitems
    simp only [taggedCall, hitems, List.all_eq_true] at hc
    split
    · exact hinv
    · rename_i st1 hmany
      exact tagged_insertMany now (x :: xs) st st1 hc hinv hmany
  · exact hinv

theorem tagged_run (c : ItemCall) (st : Store)
    (hinv : ∀ r ∈ st.items, seasonsTagged r) (hc : taggedCall c = true) :
    ∀ r ∈ (c.run st).items, seasonsTagged r := by
  match c, hc with
  | .create now body, hc =>
    simp only [taggedCall, Bool.and_eq_true] at hc
    exact tagged_create now body st hinv hc.1 hc.2
  | .replace now id body, hc =>
    simp only [taggedCall, Bool.and_eq_true] at hc
    exact tagged_replace now id body st hinv hc.1 hc.2
  | .batch now body, hc => exact tagged_batch now body st hinv hc

theorem tagged_runCalls : ∀ (calls : List ItemCall) (st : Store),
    (∀ r ∈ st.items, seasonsTagged r) → (∀ c ∈ calls, taggedCall c = true) →
    ∀ r ∈ (runItemCalls calls st).items, seasonsTagged r
  | [], _, hinv, _ => hinv
  | c :: rest, st, hinv, hc => by
    have h1 := tagged_run c st hinv (hc c (List.mem_cons_self _ _))
    exact tagged_runCalls rest (c.run st) h1 (fun d hd => hc d (List.mem_cons_of_mem _ hd))

theorem insertOneItem_plain_row (now : String) (rec : Body) (st : Store)
    (h : plainItemRecord (.obj rec) = true) :
    insertOneItem now (.obj rec) st =
      some { st with items := st.items ++ [batchItemRow now rec st],
                     itemSeq := (batchItemRow now rec st).id } := by
  simp only [plainItemRecord, Bool.and_eq_true] at h
  obtain ⟨⟨⟨⟨⟨⟨⟨⟨⟨s1, s2⟩, s3⟩, s4⟩, s5⟩, s6⟩, s7⟩, s8⟩, s9⟩, s10⟩ := h
  have n1 : textAffinity (sqlOf (getField "name" rec)) ≠ .null := by
    match getField "name" rec, s1 with
    | some (.str s), _ => simp [sqlOf, textAffinity]
  have n2 : textAffinity (sqlOf (getField "category" rec)) ≠ .null := by
    match getField "category" rec, s2 with
    | some (.str s), _ => simp [sqlOf, textAffinity]
  have n3 : textAffinity (sqlOf (getField "color" rec)) ≠ .null := by
    match getField "color" rec, s3 with
    | some (.str s), _ => simp [sqlOf, textAffinity]
  have i1 : isScalar (getField "name" rec) = true := by
    match getField "name" rec, s1 with
    | some (.str s), _ => rfl
  have i2 : isScalar (getField "category" rec) = true := by
    match getField "category" rec, s2 with
    | some (.str s), _ => rfl
  have i3 : isScalar (getField "color" rec) = true := by
    match getField "color" rec, s3 with
    | some (.str s), _ => rfl
  have hs : scalarBatchFields rec = true := by
    simp only [scalarBatchFields, i1, i2, i3, s4, s5, s6, s7, s8, s9, s10]
    rfl
  rw [insertOneItem_scalar now rec st hs, if_neg (by tauto)]

theorem insertManyItems_rows (now : String) : ∀ (items : List JVal) (st : Store),
    (∀ x ∈ items, plainItemRecord x = true) →
    ∃ rows seq,
      insertManyItems now items st = some { st with items := st.items ++ rows, itemSeq := seq } ∧
      List.Forall₂ (fun (x : JVal) (row : ItemRow) =>
        ∃ rec s, x = .obj rec ∧ row = batchItemRow now rec s) items rows
  | [], st, _ => ⟨[], st.itemSeq, by simp [insertManyItems], List.Forall₂.nil⟩
  | x :: rest, st, h => by
    have hx := h x (List.mem_cons_self _ _)
    match x, hx with
    | .obj rec, hx =>
      have h1 := insertOneItem_plain_row now rec st hx
      obtain ⟨rows, seq2, h2, hall⟩ := insertManyItems_rows now rest
        { st with items := st.items ++ [batchItemRow now rec st],
                  itemSeq := (batchItemRow now rec st).id }
        (fun y hy => h y (List.mem_cons_of_mem _ hy))
      refine ⟨batchItemRow now rec st :: rows, seq2, ?_,
        List.Forall₂.cons ⟨rec, st, rfl, rfl⟩ hall⟩
      rw [insertManyItems_cons, h1]
      simp only [h2, List.append_assoc, List.singleton_append]

theorem length_insertBy {α : Type} (before : α → α → Bool) (x : α) (rows : List α) :
    (insertBy before x rows).length = rows.length + 1 := by
  induction rows with
  | nil => rfl
  | cons r rs ih =>
    unfold insertBy
    split
    · simp [ih]
    · simp

theorem length_orderBy {α : Type} (before : α → α → Bool) (rows : List α) :
    (orderBy before rows).length = rows.length := by
  induction rows with
  | nil => rfl
  | cons r rs ih =>
    have : orderBy before (r :: rs) = insertBy before r (orderBy before rs) := rfl
    rw [this, length_insertBy, ih, List.length_cons]

theorem decodes_of_allDecode (st : Store) (h : allDecode st = true) :
    ∀ r ∈ st.items, ∃ v, JSON_parse (toJs r.seasons) = some v := by
  intro r hr
  simp only [allDecode, List.all_eq_true] at h
  exact Option.isSome_iff_exists.mp (h r hr)

/-- When every stored `seasons` text decodes, the list handler answers 200 and
the records it returns are exactly the decoded rows the `WHERE` clause selects,
one for each. -/
theorem listItems_members (q : ItemQuery) (st : Store) (h : allDecode st = true) :
    (listItems q st).status = 200 ∧ (listItems q st).success = true ∧
    (listItems q st).count = some (returnedItems (listItems q st)).length ∧
    (returnedItems (listItems q st)).length = (st.items.filter (itemMatches q)).length ∧
    ∀ g, g ∈ returnedItems (listItems q st) ↔
      ∃ r ∈ st.items, itemMatches q r = true ∧ decodeRow r = some g := by
  obtain ⟨gs, hlist, hall⟩ := listItems_decoded q st (decodes_of_allDecode st h)
  rw [hlist]
  refine ⟨rfl, rfl, rfl, ?_, ?_⟩
  · show gs.length = _
    rw [← List.Forall₂.length_eq hall, length_orderBy]
  · intro g
    show g ∈ gs ↔ _
    constructor
    · intro hg
      obtain ⟨r, hr, v, hv, hgv⟩ := forall₂_mem_right hall g hg
      rw [mem_orderBy, List.mem_filter] at hr
      exact ⟨r, hr.1, hr.2, by simp [decodeRow, hv, hgv]⟩
    · rintro ⟨r, hr, hm, hd⟩
      have hmem : r ∈ orderBy (fun a b => decide (b.created_at < a.created_at))
          (st.items.filter (itemMatches q)) := by
        rw [mem_orderBy, List.mem_filter]; exact ⟨hr, hm⟩
      obtain ⟨g1, hg1, v, hv, hgv⟩ := forall₂_mem_left hall r hmem
      simp only [decodeRow, hv, Option.some.injEq] at hd
      rw [← hd, ← hgv]; exact hg1

theorem decodeRow_id (r : ItemRow) (g : ItemRecord) (h : decodeRow r = some g) :
    g.id = r.id := by
  unfold decodeRow at h
  split at h
  · rw [← Option.some.inj h]; rfl
  · simp at h

theorem itemMatches_split (q : ItemQuery) (r : ItemRow) :
    itemMatches q r = (itemMatches (onlyCategory q) r && itemMatches (onlyColor q) r
      && itemMatches (onlySeason q) r && itemMatches (onlySearch q) r) := by
  simp [itemMatches, onlyCategory, onlyColor, onlySeason, onlySearch, given]

theorem itemMatches_noFilter (r : ItemRow) : itemMatches noFilter r = true := rfl

theorem itemMatches_absent (q : ItemQuery) (r : ItemRow) :
    (given q.category = false → itemMatches (onlyCategory q) r = true) ∧
    (given q.color = false → itemMatches (onlyColor q) r = true) ∧
    (given q.season = false → itemMatches (onlySeason q) r = true) ∧
    (given q.search = false → itemMatches (onlySearch q) r = true) := by
  have hn : given none = false := rfl
  refine ⟨?_, ?_, ?_, ?_⟩ <;> intro h <;>
    simp [itemMatches, onlyCategory, onlyColor, onlySeason, onlySearch, hn, h]

/-! ## The operator `LIKE` -/

theorem likeMatch_nil (t : List Char) : likeMatch [] t = t.isEmpty := by
  cases t <;> rfl

theorem likeMatch_cons (p : Char) (ps t : List Char) :
    likeMatch (p :: ps) t =
      if p.toNat = 37 then anySuffix (fun u => likeMatch ps u) t
      else
        match t with
        | [] => false
        | c :: cs =>
          (decide (p.toNat = 95) || decide (lowerAscii p = lowerAscii c)) && likeMatch ps cs := by
  cases t <;> rfl

theorem anySuffix_iff (f : List Char → Bool) (t : List Char) :
    anySuffix f t = true ↔ ∃ pre u, t = pre ++ u ∧ f u = true := by
  induction t with
  | nil =>
    simp only [anySuffix]
    constructor
    · intro h; exact ⟨[], [], rfl, h⟩
    · rintro ⟨pre, u, h, hf⟩
      have hu : u = [] := by
        have := congrArg List.length h
        simp only [List.length_nil, List.length_append] at this
        exact List.length_eq_zero.mp (by omega)
      rw [hu] at hf; exact hf
  | cons c cs ih =>
    simp only [anySuffix, Bool.or_eq_true, ih]
    constructor
    · rintro (h | ⟨pre, u, h, hf⟩)
      · exact ⟨[], c :: cs, rfl, h⟩
      · exact ⟨c :: pre, u, by rw [h]; rfl, hf⟩
    · rintro ⟨pre, u, h, hf⟩
      cases pre with
      | nil =>
        left
        simp only [List.nil_append] at h
        rw [h]; exact hf
      | cons d pre =>
        right
        simp only [List.cons_append, List.cons.injEq] at h
        exact ⟨pre, u, h.2, hf⟩

theorem likeMatch_literal (p : List Char) (hp : noWildcard p = true) (q : List Char) :
    ∀ t, likeMatch (p ++ q) t = true ↔
      ∃ m u, t = m ++ u ∧ m.map lowerAscii = p.map lowerAscii ∧ likeMatch q u = true := by
  induction p with
  | nil =>
    intro t
    simp only [List.nil_append, List.map_nil, List.map_eq_nil_iff]
    constructor
    · intro h; exact ⟨[], t, rfl, rfl, h⟩
    · rintro ⟨m, u, h, hm, hq⟩
      rw [hm, List.nil_append] at h
      rw [h]; exact hq
  | cons c p ih =>
    intro t
    simp only [noWildcard, List.all_cons, Bool.and_eq_true, bne_iff_ne, ne_eq] at hp
    obtain ⟨⟨h37, h95⟩, hrest⟩ := hp
    have ih := ih (by simpa [noWildcard] using hrest)
    rw [List.cons_append, likeMatch_cons, if_neg h37]
    cases t with
    | nil =>
      simp only [Bool.false_eq_true, false_iff]
      rintro ⟨m, u, h, hm, -⟩
      have hl := congrArg List.length hm
      have hl2 := congrArg List.length h
      simp only [List.length_map, List.length_cons, List.length_nil,
        List.length_append] at hl hl2
      omega
    | cons d t =>
      simp only [Bool.and_eq_true, Bool.or_eq_true, decide_eq_true_eq, h95, false_or, ih]
      constructor
      · rintro ⟨hcd, m, u, h, hm, hq⟩
        exact ⟨d :: m, u, by rw [h]; rfl, by simp [hm, hcd], hq⟩
      · rintro ⟨m, u, h, hm, hq⟩
        cases m with
        | nil => simp at hm
        | cons e m =>
          simp only [List.cons_append, List.cons.injEq] at h
          simp only [List.map_cons, List.cons.injEq] at hm
          exact ⟨by rw [h.1]; exact hm.1.symm, m, u, h.2, hm.2, hq⟩

theorem likeMatch_percent (u : List Char) : likeMatch ['%'] u = true := by
  rw [likeMatch_cons, if_pos (by decide), anySuffix_iff]
  exact ⟨u, [], by simp, rfl⟩

/-- For a term without wildcards, `text LIKE '%term%'` holds exactly when the
text contains the term up to ASCII letter case. -/
theorem likeMatch_contains (s t : List Char) (hs : noWildcard s = true) :
    likeMatch ('%' :: (s ++ ['%'])) t = true ↔ containsFold s t := by
  rw [likeMatch_cons, if_pos (by decide), anySuffix_iff]
  constructor
  · rintro ⟨pre, u, h, hm⟩
    obtain ⟨m, post, hu, hmm, -⟩ := (likeMatch_literal s hs ['%'] u).mp hm
    exact ⟨pre, m, post, by rw [h, hu, List.append_assoc], hmm⟩
  · rintro ⟨pre, m, post, h, hm⟩
    refine ⟨pre, m ++ post, by rw [h, List.append_assoc], ?_⟩
    exact (likeMatch_literal s hs ['%'] (m ++ post)).mpr ⟨m, post, rfl, hm, likeMatch_percent post⟩

theorem upToNul_self (l : List Char) (h : ∀ c ∈ l, c.toNat ≠ 0) : upToNul l = l := by
  unfold upToNul
  rw [List.takeWhile_eq_self_iff]
  intro c hc
  simpa using h c hc

theorem literalTerm_noWildcard (s : List Char) (h : literalTerm s = true) :
    noWildcard s = true := by
  simp only [literalTerm, noWildcard, List.all_eq_true, Bool.and_eq_true] at h ⊢
  intro c hc
  exact (h c hc).1

theorem upToNul_pattern (s : List Char) (h : literalTerm s = true) :
    upToNul ('%' :: (s ++ ['%'])) = '%' :: (s ++ ['%']) := by
  apply upToNul_self
  intro c hc
  simp only [List.mem_cons, List.mem_append, List.mem_singleton, List.not_mem_nil,
    or_false] at hc
  rcases hc with rfl | hc | rfl
  · decide
  · simp only [literalTerm, List.all_eq_true, Bool.and_eq_true, bne_iff_ne, ne_eq] at h
    exact (h c hc).2
  · decide

/-- For a term without wildcards and without U+0000, `column LIKE '%term%'` holds
exactly when the text of the column, read up to its first U+0000, contains the
term up to ASCII letter case. -/
theorem likeContains_iff (s : String) (v : SqlVal) (hs : literalTerm s.data = true) :
    likeContains s v = true ↔ ∃ t, sqlText v = some t ∧ containsFold s.data t := by
  have hw := literalTerm_noWildcard _ hs
  cases v with
  | null => simp [likeContains, sqlText]
  | real n =>
    simp only [likeContains, sqlText, Option.some.injEq, exists_eq_left', upToNul_pattern _ hs]
    exact likeMatch_contains _ _ hw
  | text t =>
    simp only [likeContains, sqlText, Option.some.injEq, exists_eq_left', upToNul_pattern _ hs]
    exact likeMatch_contains _ _ hw

/-- A pattern is read up to its first U+0000: the search term that begins with
U+0000 gives the pattern `%`, which every text matches. -/
theorem likeContains_nul :
    likeContains "\x00zzz" (.text "Blue Jacket") = true ∧
    likeContains "jacket" (.text "a\x00jacket") = false := by
  refine ⟨by decide, by decide⟩

/-! ## The clause `ORDER BY` -/

theorem pairwise_insertBy {α : Type} (before : α → α → Bool)
    (hasym : ∀ a b, before a b = true → before b a = false)
    (hnt : ∀ a b c, before a c = true → before a b = true ∨ before b c = true)
    (x : α) (ys : List α) (h : ys.Pairwise (fun a b => before b a = false)) :
    (insertBy before x ys).Pairwise (fun a b => before b a = false) := by
  induction ys with
  | nil => simp [insertBy]
  | cons y ys ih =>
    rw [List.pairwise_cons] at h
    unfold insertBy
    split
    · rename_i hyx
      rw [List.pairwise_cons]
      refine ⟨?_, ih h.2⟩
      intro w hw
      rcases (mem_insertBy before x w ys).mp hw with rfl | hw
      · exact hasym _ _ hyx
      · exact h.1 w hw
    · rename_i hyx
      simp only [Bool.not_eq_true] at hyx
      rw [List.pairwise_cons]
      refine ⟨?_, List.pairwise_cons.mpr h⟩
      intro w hw
      rcases List.mem_cons.mp hw with rfl | hw
      · exact hyx
      · have hyw := h.1 w hw
        cases hwx : before w x with
        | false => rfl
        | true =>
          rcases hnt w y x hwx with h1 | h1
          · rw [h1] at hyw; exact absurd hyw (by simp)
          · rw [h1] at hyx; exact absurd hyx (by simp)

theorem pairwise_orderBy {α : Type} (before : α → α → Bool)
    (hasym : ∀ a b, before a b = true → before b a = false)
    (hnt : ∀ a b c, before a c = true → before a b = true ∨ before b c = true)
    (rows : List α) : (orderBy before rows).Pairwise (fun a b => before b a = false) := by
  induction rows with
  | nil => exact List.Pairwise.nil
  | cons r rs ih =>
    have : orderBy before (r :: rs) = insertBy before r (orderBy before rs) := rfl
    rw [this]
    exact pairwise_insertBy before hasym hnt r _ ih

theorem pairwise_forall₂ {α β : Type} {S : α → β → Prop} {R : α → α → Prop}
    {T : β → β → Prop} (hST : ∀ a b c d, S a b → S c d → R a c → T b d)
    {xs : List α} {ys : List β} (h : List.Forall₂ S xs ys) (hp : xs.Pairwise R) :
    ys.Pairwise T := by
  induction h with
  | nil => exact List.Pairwise.nil
  | cons hab hrest ih =>
    rw [List.pairwise_cons] at hp ⊢
    refine ⟨?_, ih hp.2⟩
    intro d hd
    obtain ⟨c, hc, hcd⟩ := forall₂_mem_right hrest d hd
    exact hST _ _ _ _ hab hcd (hp.1 c hc)

theorem createdDesc_asymm (a b : String) (h : decide (b < a) = true) :
    decide (a < b) = false := by
  simp only [decide_eq_true_eq, decide_eq_false_iff_not] at h ⊢
  exact lt_asymm h

theorem createdDesc_negTrans (a b c : String) (h : decide (c < a) = true) :
    decide (b < a) = true ∨ decide (c < b) = true := by
  simp only [decide_eq_true_eq] at h ⊢
  exact (LT.lt.lt_or_lt h b).symm

theorem sqlLt_asymm (a b : SqlVal) (h : sqlLt a b = true) : sqlLt b a = false := by
  cases a <;> cases b <;> simp only [sqlLt, decide_eq_true_eq, decide_eq_false_iff_not,
    Bool.false_eq_true] at h ⊢
  · exact lt_asymm h
  · exact lt_asymm h

theorem sqlLt_trans (a b c : SqlVal) (h1 : sqlLt a b = true) (h2 : sqlLt b c = true) :
    sqlLt a c = true := by
  cases a <;> cases b <;> cases c <;> simp only [sqlLt, decide_eq_true_eq,
    Bool.false_eq_true] at h1 h2 ⊢
  · exact lt_trans h1 h2
  · exact lt_trans h1 h2

theorem sqlLt_total (a b : SqlVal) (h1 : sqlLt a b = false) (h2 : sqlLt b a = false) :
    a = b := by
  cases a <;> cases b <;> simp only [sqlLt, decide_eq_false_iff_not, Bool.true_eq_false,
    not_lt] at h1 h2 ⊢
  · exact congrArg _ (le_antisymm h2 h1)
  · exact congrArg _ (le_antisymm h2 h1)

theorem outfitBefore_asymm (a b : OutfitRow) (h : outfitBefore a b = true) :
    outfitBefore b a = false := by
  simp only [outfitBefore, Bool.or_eq_true, Bool.and_eq_true, decide_eq_true_eq,
    Bool.or_eq_false_iff, Bool.and_eq_false_iff, decide_eq_false_iff_not] at h ⊢
  rcases h with h | ⟨hd, hc⟩
  · refine ⟨sqlLt_asymm _ _ h, Or.inl ?_⟩
    intro he
    rw [he] at h
    have := sqlLt_asymm _ _ h
    rw [h] at this; exact absurd this (by simp)
  · refine ⟨?_, Or.inr (lt_asymm hc)⟩
    rw [hd]
    cases hs : sqlLt b.date b.date with
    | false => rfl
    | true =>
      have := sqlLt_asymm _ _ hs
      rw [hs] at this; exact absurd this (by simp)

theorem outfitBefore_negTrans (a b c : OutfitRow) (h : outfitBefore a c = true) :
    outfitBefore a b = true ∨ outfitBefore b c = true := by
  simp only [outfitBefore, Bool.or_eq_true, Bool.and_eq_true, decide_eq_true_eq] at h ⊢
  cases hba : sqlLt b.date a.date with
  | true => exact Or.inl (Or.inl rfl)
  | false =>
    cases hab : sqlLt a.date b.date with
    | true =>
      right; left
      rcases h with h | ⟨hd, -⟩
      · exact sqlLt_trans _ _ _ h hab
      · rw [← hd]; exact hab
    | false =>
      have heq := sqlLt_total _ _ hab hba
      rcases h with h | ⟨hd, hc⟩
      · right; left
        rw [← heq]; exact h
      · rcases LT.lt.lt_or_lt hc b.created_at with h1 | h1
        · exact Or.inr (Or.inr ⟨by rw [← heq, hd], h1⟩)
        · exact Or.inl (Or.inr ⟨heq, h1⟩)

theorem parseItems_some : ∀ (rows : List ItemRow) (gs : List ItemRecord),
    parseItems rows = some gs →
    List.Forall₂ (fun (r : ItemRow) (g : ItemRecord) => g.created_at = r.created_at) rows gs
  | [], gs, h => by
    simp only [parseItems, Option.some.injEq] at h
    rw [← h]; exact List.Forall₂.nil
  | r :: rs, gs, h => by
    rw [parseItems] at h
    cases hv : JSON_parse (toJs r.seasons) with
    | none => simp [hv] at h
    | some v =>
      cases hrs : parseItems rs with
      | none => simp [hv, hrs] at h
      | some recs =>
        simp only [hv, hrs, Option.some.injEq] at h
        rw [← h]
        exact List.Forall₂.cons rfl (parseItems_some rs recs hrs)

theorem parseInspirations_some : ∀ (rows : List InspirationRow) (gs : List InspirationRecord),
    parseInspirations rows = some gs →
    List.Forall₂ (fun (r : InspirationRow) (g : InspirationRecord) =>
      g.created_at = r.created_at) rows gs
  | [], gs, h => by
    simp only [parseInspirations, Option.some.injEq] at h
    rw [← h]; exact List.Forall₂.nil
  | r :: rs, gs, h => by
    rw [parseInspirations] at h
    cases hv : parseTags r.tags with
    | none => simp [hv] at h
    | some v =>
      cases hrs : parseInspirations rs with
      | none => simp [hv, hrs] at h
      | some recs =>
        simp only [hv, hrs, Option.some.injEq] at h
        rw [← h]
        exact List.Forall₂.cons rfl (parseInspirations_some rs recs hrs)

/-! ## Statistics -/

theorem filter_length_eq_count (key : ItemRow → SqlVal) (rows : List ItemRow) (v : SqlVal) :
    (rows.filter (fun r => decide (key r = v))).length = (rows.map key).count v := by
  rw [List.count_eq_countP, List.countP_map, List.countP_eq_length_filter]
  congr 1

theorem groupCount_keys (key : ItemRow → SqlVal) (rows : List ItemRow) :
    (groupCount key rows).map Prod.fst = (rows.map key).dedup := by
  simp only [groupCount, List.map_map]
  have : (Prod.fst ∘ fun v => (v, (rows.filter (fun r => decide (key r = v))).length))
      = (id : SqlVal → SqlVal) := rfl
  rw [this, List.map_id]

theorem groupCount_sum (key : ItemRow → SqlVal) (rows : List ItemRow) :
    ((groupCount key rows).map Prod.snd).sum = rows.length := by
  have h := List.sum_map_count_dedup_eq_length (rows.map key)
  rw [List.length_map] at h
  rw [← h]
  simp only [groupCount, List.map_map]
  congr 1
  apply List.map_congr_left
  intro v _
  simp only [Function.comp]
  exact filter_length_eq_count key rows v

/-- The entries of a distribution: one for each value present, none for an
absent value, each with the number of rows holding the value; the counts sum
to the number of rows. -/
theorem groupCount_spec (key : ItemRow → SqlVal) (rows : List ItemRow) :
    ((groupCount key rows).map Prod.fst).Nodup ∧
    (∀ v, v ∈ (groupCount key rows).map Prod.fst ↔ ∃ r ∈ rows, key r = v) ∧
    (∀ v n, (v, n) ∈ groupCount key rows →
      n = (rows.filter (fun r => decide (key r = v))).length) ∧
    ((groupCount key rows).map Prod.snd).sum = rows.length := by
  refine ⟨?_, ?_, ?_, groupCount_sum key rows⟩
  · rw [groupCount_keys]; exact List.nodup_dedup _
  · intro v
    rw [groupCount_keys, List.mem_dedup, List.mem_map]
  · intro v n h
    simp only [groupCount, List.mem_map, Prod.mk.injEq] at h
    obtain ⟨w, -, hw, hn⟩ := h
    rw [← hn, hw]

theorem sqlLt_irrefl (a : SqlVal) : sqlLt a a = false := by
  cases h : sqlLt a a with
  | false => rfl
  | true =>
    have := sqlLt_asymm a a h
    rw [h] at this; exact absurd this (by simp)

theorem priceDesc_negTrans (a b c : ItemRow) (h : sqlLt c.price a.price = true) :
    sqlLt b.price a.price = true ∨ sqlLt c.price b.price = true := by
  cases hba : sqlLt b.price a.price with
  | true => exact Or.inl rfl
  | false =>
    right
    cases hab : sqlLt a.price b.price with
    | true => exact sqlLt_trans _ _ _ h hab
    | false =>
      rw [← sqlLt_total _ _ hab hba]; exact h

theorem mostExpensive_spec (rows : List ItemRow) (hne : rows ≠ []) :
    ∃ r ∈ rows, mostExpensive rows = some (r.name, r.price) ∧
      ∀ x ∈ rows, sqlLt r.price x.price = false := by
  have hs := pairwise_orderBy (fun (a b : ItemRow) => sqlLt b.price a.price)
    (fun a b h => sqlLt_asymm _ _ h) (fun a b c h => priceDesc_negTrans a b c h) rows
  cases hsorted : orderBy (fun (a b : ItemRow) => sqlLt b.price a.price) rows with
  | nil =>
    have hlen := length_orderBy (fun (a b : ItemRow) => sqlLt b.price a.price) rows
    rw [hsorted] at hlen
    exact absurd (List.length_eq_zero.mp hlen.symm) hne
  | cons r rest =>
    rw [hsorted, List.pairwise_cons] at hs
    have hmem : ∀ x, x ∈ rows ↔ x = r ∨ x ∈ rest := by
      intro x
      rw [← mem_orderBy (fun (a b : ItemRow) => sqlLt b.price a.price) x rows, hsorted,
        List.mem_cons]
    refine ⟨r, (hmem r).mpr (Or.inl rfl), ?_, ?_⟩
    · simp [mostExpensive, hsorted]
    · intro x hx
      rcases (hmem x).mp hx with rfl | hx
      · exact sqlLt_irrefl _
      · exact hs.1 x hx

/-! ### Row counts along a sequence of calls -/

theorem wellFormed_append (st : Store) (row : ItemRow) (seq : Nat) (h : WellFormed st)
    (hid : row.id = nextId st.itemSeq (st.items.map (fun r => r.id)))
    (hdec : ∃ v, JSON_parse (toJs row.seasons) = some v) :
    WellFormed { st with items := st.items ++ [row], itemSeq := seq } := by
  constructor
  · intro r hr
    rcases List.mem_append.mp hr with hr | hr
    · exact h.1 r hr
    · rw [List.mem_singleton.mp hr]; exact hdec
  · show ((st.items ++ [row]).map (fun r => r.id)).Nodup
    rw [List.map_append, List.nodup_append]
    refine ⟨h.2, by simp, ?_⟩
    intro a ha hb
    simp only [List.map_cons, List.map_nil, List.mem_singleton] at hb
    have := lt_nextId st.itemSeq _ a ha
    omega

theorem createItem_rejected_eq (now : String) (body : Body) (st : Store)
    (h : (truthy (getField "name" body) && truthy (getField "category" body)
      && truthy (getField "color" body)) = false) :
    createItem now body st = (st, failure 400 "缺少必填字段: name, category, color") := by
  have : (!truthy (getField "name" body) || !truthy (getField "category" body)
      || !truthy (getField "color" body)) = true := by
    cases h1 : truthy (getField "name" body) <;> cases h2 : truthy (getField "category" body)
      <;> cases h3 : truthy (getField "color" body) <;> simp [h1, h2, h3] at h ⊢
  simp [createItem, this]

theorem step_create (now : String) (body : Body) (st : Store) (hw : WellFormed st)
    (hs : scalarItemFields body = true) :
    WellFormed (createItem now body st).1 ∧
    ((createItem now body st).1.items.length : Int)
      = st.items.length + rowsReported (.create now body) (createItem now body st).2 := by
  cases hall : (truthy (getField "name" body) && truthy (getField "category" body)
      && truthy (getField "color" body)) with
  | false =>
    rw [createItem_rejected_eq now body st hall]
    exact ⟨hw, by simp [rowsReported, failure]⟩
  | true =>
    simp only [Bool.and_eq_true] at hall
    rw [createItem_scalar now body st hall.1.1 hall.1.2 hall.2 hs]
    refine ⟨wellFormed_append st _ _ hw rfl ⟨_, JSON_parse_stringify _⟩, ?_⟩
    simp [rowsReported, success]

theorem insertMany_scalar (now : String) : ∀ (items : List JVal) (st st1 : Store),
    (∀ x ∈ items, scalarRecord x = true) → WellFormed st →
    insertManyItems now items st = some st1 →
    WellFormed st1 ∧ st1.items.length = st.items.length + items.length
  | [], st, st1, _, hw, h => by
    simp only [insertManyItems, Option.some.injEq] at h
    rw [← h]; exact ⟨hw, rfl⟩
  | x :: rest, st, st1, hx, hw, h => by
    rw [insertManyItems_cons] at h
    have hx0 := hx x (List.mem_cons_self _ _)
    match x, hx0 with
    | .obj rec, hx0 =>
      rw [insertOneItem_scalar now rec st hx0] at h
      by_cases hnull : textAffinity (sqlOf (getField "name" rec)) = .null ∨
          textAffinity (sqlOf (getField "category" rec)) = .null ∨
          textAffinity (sqlOf (getField "color" rec)) = .null
      · rw [if_pos hnull] at h
        simp at h
      · rw [if_neg hnull] at h
        have hw1 := wellFormed_append st (batchItemRow now rec st)
          (batchItemRow now rec st).id hw rfl ⟨_, JSON_parse_stringify _⟩
        obtain ⟨hw2, hlen⟩ := insertMany_scalar now rest
          { st with items := st.items ++ [batchItemRow now rec st],
                    itemSeq := (batchItemRow now rec st).id } st1
          (fun y hy => hx y (List.mem_cons_of_mem _ hy)) hw1 h
        refine ⟨hw2, ?_⟩
        rw [hlen]
        simp only [List.length_append, List.length_cons, List.length_nil]
        omega

theorem step_batch (now : String) (body : Body) (st : Store) (hw : WellFormed st)
    (hs : scalarOp (.batch now body) = true) :
    WellFormed (batchItems now body st).1 ∧
    ((batchItems now body st).1.items.length : Int)
      = st.items.length + rowsReported (.batch now body) (batchItems now body st).2 := by
  unfold batchItems
  split
  · rename_i x xs hitems
    simp only [scalarOp, hitems, List.all_eq_true] at hs
    split
    · exact ⟨hw, by simp [rowsReported, failure]⟩
    · rename_i st1 hmany
      obtain ⟨hw1, hlen⟩ := insertMany_scalar now (x :: xs) st st1 hs hw hmany
      refine ⟨hw1, ?_⟩
      simp only [rowsReported, success, hitems, if_true]
      rw [hlen]
      push_cast
      rfl
  · rename_i hitems
    refine ⟨hw, ?_⟩
    simp [rowsReported, failure]

theorem filter_length_of_nodup (id : Nat) : ∀ (rows : List ItemRow) (r : ItemRow),
    (rows.map (fun x => x.id)).Nodup → rows.find? (fun x => x.id == id) = some r →
    (rows.filter (fun x => !(x.id == id))).length + 1 = rows.length
  | [], _, _, h => by simp at h
  | x :: xs, r, hnd, h => by
    rw [List.map_cons, List.nodup_cons] at hnd
    by_cases hx : x.id = id
    · have hnone : ∀ y ∈ xs, (!(y.id == id)) = true := by
        intro y hy
        have : y.id ≠ x.id := by
          intro he
          exact hnd.1 (by rw [← he]; exact List.mem_map_of_mem _ hy)
        simp only [Bool.not_eq_true', beq_eq_false_iff_ne, ne_eq]
        rw [← hx]; exact this
      have hf : xs.filter (fun y => !(y.id == id)) = xs := List.filter_eq_self.mpr hnone
      have hx' : (x.id == id) = true := by simpa using hx
      simp [List.filter_cons, hx', hf]
    · have hx' : (x.id == id) = false := by simpa using hx
      rw [List.find?_cons, hx'] at h
      have ih := filter_length_of_nodup id xs r hnd.2 h
      simp only [List.filter_cons, hx', Bool.not_false, if_true, List.length_cons]
      omega

theorem step_delete (id : Nat) (st : Store) (hw : WellFormed st) :
    WellFormed (deleteItem id st).1 ∧
    ((deleteItem id st).1.items.length : Int)
      = st.items.length + rowsReported (.delete id) (deleteItem id st).2 := by
  unfold deleteItem
  cases hsel : selectItem id st with
  | none => exact ⟨hw, by simp [rowsReported, failure]⟩
  | some r =>
    simp only [deleteItemRow, rowsReported, success, if_true]
    constructor
    · constructor
      · intro x hx
        exact hw.1 x (List.mem_of_mem_filter hx)
      · exact List.Nodup.sublist (List.Sublist.map _ (List.filter_sublist _)) hw.2
    · have := filter_length_of_nodup id st.items r hw.2 hsel
      omega

theorem step_op (op : ItemOp) (st : Store) (hw : WellFormed st) (hs : scalarOp op = true) :
    WellFormed (op.respond st).1 ∧
    ((op.respond st).1.items.length : Int)
      = st.items.length + rowsReported op (op.respond st).2 := by
  match op, hs with
  | .create now body, hs => exact step_create now body st hw hs
  | .batch now body, hs => exact step_batch now body st hw hs
  | .delete id, _ => exact step_delete id st hw

theorem runOps_count : ∀ (ops : List ItemOp) (st : Store), WellFormed st →
    (∀ op ∈ ops, scalarOp op = true) →
    WellFormed (runOps ops st).1 ∧
    ((runOps ops st).1.items.length : Int) = st.items.length + (runOps ops st).2
  | [], st, hw, _ => ⟨hw, by simp [runOps]⟩
  | op :: rest, st, hw, hs => by
    obtain ⟨hw1, hlen1⟩ := step_op op st hw (hs op (List.mem_cons_self _ _))
    obtain ⟨hw2, hlen2⟩ := runOps_count rest (op.respond st).1 hw1
      (fun o ho => hs o (List.mem_cons_of_mem _ ho))
    refine ⟨hw2, ?_⟩
    show ((runOps rest (op.respond st).1).1.items.length : Int) = _
    rw [hlen2, hlen1]
    simp only [runOps]
    omega

/-! ## Effects of the write calls on the tables -/

theorem grown_refl (ids : List Nat) (seq : Nat) : Grown ids seq ids seq :=
  ⟨[], by simp, List.Pairwise.nil, by simp, le_refl _⟩

theorem grown_one (ids : List Nat) (seq : Nat) :
    Grown ids seq (ids ++ [nextId seq ids]) (nextId seq ids) :=
  ⟨[nextId seq ids], rfl, List.pairwise_singleton _ _,
    by
      intro i hi
      rw [List.mem_singleton.mp hi]
      exact ⟨seq_lt_nextId seq ids, le_refl _⟩,
    le_of_lt (seq_lt_nextId seq ids)⟩

theorem grown_trans {a b c : List Nat} {s s1 s2 : Nat} (h1 : Grown a s b s1)
    (h2 : Grown b s1 c s2) : Grown a s c s2 := by
  obtain ⟨n1, hb, hp1, hb1, hs1⟩ := h1
  obtain ⟨n2, hc, hp2, hb2, hs2⟩ := h2
  refine ⟨n1 ++ n2, by rw [hc, hb, List.append_assoc], ?_, ?_, le_trans hs1 hs2⟩
  · rw [List.pairwise_append]
    refine ⟨hp1, hp2, ?_⟩
    intro x hx y hy
    have := (hb1 x hx).2
    have := (hb2 y hy).1
    omega
  · intro i hi
    rcases List.mem_append.mp hi with hi | hi
    · exact ⟨(hb1 i hi).1, le_trans (hb1 i hi).2 hs2⟩
    · exact ⟨lt_of_le_of_lt hs1 (hb2 i hi).1, (hb2 i hi).2⟩

theorem insertItem_shape (now : String) (params : List SqlVal) (st st1 : Store) (id : Nat)
    (h : insertItem now params st = some (st1, id)) :
    ∃ row : ItemRow, row.id = nextId st.itemSeq (st.items.map (fun r => r.id)) ∧
      st1 = { st with items := st.items ++ [row], itemSeq := row.id } := by
  unfold insertItem at h
  split at h
  · dsimp only at h
    split at h
    · cases h
    · simp only [Option.some.injEq, Prod.mk.injEq] at h
      exact ⟨_, rfl, h.1.symm⟩
  · cases h

theorem createItem_shape (now : String) (body : Body) (st : Store) :
    (createItem now body st).1 = st ∨
    ∃ params st1 id, insertItem now params st = some (st1, id) ∧
      (createItem now body st).1 = st1 := by
  unfold createItem
  simp only []
  split
  · exact Or.inl rfl
  · split
    · exact Or.inl rfl
    · split
      · exact Or.inl rfl
      · rename_i hins
        right
        refine ⟨_, _, _, hins, ?_⟩
        split <;> first | rfl | (split <;> rfl)

theorem updateItem_shape (now : String) (params : List SqlVal) (id : Nat) (st st1 : Store)
    (h : updateItem now params id st = some st1) :
    ∃ f : ItemRow → ItemRow, (∀ r, (f r).id = r.id) ∧
      st1 = { st with items := st.items.map f } := by
  unfold updateItem at h
  split at h
  · split at h
    · cases h
    · simp only [Option.some.injEq] at h
      refine ⟨_, ?_, h.symm⟩
      intro r
      split <;> rfl
  · cases h

theorem replaceItem_shape (now : String) (id : Nat) (body : Body) (st : Store) :
    (replaceItem now id body st).1 = st ∨
    ∃ params st1, updateItem now params id st = some st1 ∧
      (replaceItem now id body st).1 = st1 := by
  unfold replaceItem
  simp only []
  split
  · exact Or.inl rfl
  · split
    · exact Or.inl rfl
    · split
      · exact Or.inl rfl
      · rename_i hup
        right
        refine ⟨_, _, hup, ?_⟩
        split <;> first | rfl | (split <;> rfl)

theorem insertManyItems_shape (now : String) : ∀ (recs : List JVal) (st st2 : Store),
    insertManyItems now recs st = some st2 →
    ∃ rows seq, st2 = { st with items := st.items ++ rows, itemSeq := seq } ∧
      Grown (st.items.map (fun r => r.id)) st.itemSeq
        ((st.items ++ rows).map (fun r => r.id)) seq
  | [], st, st2, h => by
    simp only [insertManyItems, Option.some.injEq] at h
    exact ⟨[], st.itemSeq, by rw [← h, List.append_nil], by
      rw [List.append_nil]; exact grown_refl _ _⟩
  | item :: rest, st, st2, h => by
    rw [insertManyItems] at h
    split at h
    · cases h
    · split at h
      · cases h
      · split at h
        · cases h
        · rename_i hins
          obtain ⟨row, hid, hst1⟩ := insertItem_shape _ _ _ _ _ hins
          obtain ⟨rows, seq, hst2, hg⟩ := insertManyItems_shape now rest _ st2 h
          subst hst1
          refine ⟨row :: rows, seq, ?_, ?_⟩
          · rw [hst2]
            simp only [List.append_assoc, List.singleton_append]
          · have h1 : Grown (st.items.map (fun r => r.id)) st.itemSeq
                ((st.items ++ [row]).map (fun r => r.id)) row.id := by
              rw [List.map_append, List.map_singleton, hid]
              exact grown_one _ _
            have h2 := grown_trans h1 hg
            simpa only [List.append_assoc, List.singleton_append] using h2

theorem batchItems_shape (now : String) (body : Body) (st : Store) :
    (batchItems now body st).1 = st ∨
    ∃ recs, insertManyItems now recs st = some (batchItems now body st).1 := by
  unfold batchItems
  split
  · split
    · exact Or.inl rfl
    · rename_i hmany
      exact Or.inr ⟨_, hmany⟩
  · exact Or.inl rfl

theorem deleteItem_shape (id : Nat) (st : Store) :
    (deleteItem id st).1 = st ∨ (deleteItem id st).1 = deleteItemRow id st := by
  unfold deleteItem
  split
  · exact Or.inl rfl
  · exact Or.inr rfl

theorem createItem_effect (now : String) (body : Body) (st : Store) :
    ∃ rows seq, (createItem now body st).1 = { st with items := rows, itemSeq := seq } ∧
      (Grown (st.items.map (fun r => r.id)) st.itemSeq (rows.map (fun r => r.id)) seq ∨
        Shrunk (st.items.map (fun r => r.id)) st.itemSeq (rows.map (fun r => r.id)) seq) := by
  rcases createItem_shape now body st with h | ⟨params, st1, id, hins, h⟩
  · exact ⟨st.items, st.itemSeq, h, Or.inl (grown_refl _ _)⟩
  · obtain ⟨row, hid, hst1⟩ := insertItem_shape _ _ _ _ _ hins
    refine ⟨st.items ++ [row], row.id, by rw [h, hst1], Or.inl ?_⟩
    rw [List.map_append, List.map_singleton, hid]
    exact grown_one _ _

theorem replaceItem_effect (now : String) (id : Nat) (body : Body) (st : Store) :
    ∃ rows seq, (replaceItem now id body st).1 = { st with items := rows, itemSeq := seq } ∧
      (Grown (st.items.map (fun r => r.id)) st.itemSeq (rows.map (fun r => r.id)) seq ∨
        Shrunk (st.items.map (fun r => r.id)) st.itemSeq (rows.map (fun r => r.id)) seq) := by
  rcases replaceItem_shape now id body st with h | ⟨params, st1, hup, h⟩
  · exact ⟨st.items, st.itemSeq, h, Or.inl (grown_refl _ _)⟩
  · obtain ⟨f, hf, hst1⟩ := updateItem_shape _ _ _ _ _ hup
    refine ⟨st.items.map f, st.itemSeq, by rw [h, hst1], Or.inl ?_⟩
    have : (st.items.map f).map (fun r => r.id) = st.items.map (fun r => r.id) := by
      rw [List.map_map]
      exact List.map_congr_left (fun r _ => hf r)
    rw [this]
    exact grown_refl _ _

theorem deleteItem_effect (id : Nat) (st : Store) :
    ∃ rows seq, (deleteItem id st).1 = { st with items := rows, itemSeq := seq } ∧
      (Grown (st.items.map (fun r => r.id)) st.itemSeq (rows.map (fun r => r.id)) seq ∨
        Shrunk (st.items.map (fun r => r.id)) st.itemSeq (rows.map (fun r => r.id)) seq) := by
  rcases deleteItem_shape id st with h | h
  · exact ⟨st.items, st.itemSeq, h, Or.inl (grown_refl _ _)⟩
  · refine ⟨st.items.filter (fun r => !(r.id == id)), st.itemSeq, by rw [h]; rfl, Or.inr ?_⟩
    refine ⟨⟨fun i => !(i == id), ?_⟩, rfl⟩
    rw [List.filter_map]
    rfl

theorem batchItems_effect (now : String) (body : Body) (st : Store) :
    ∃ rows seq, (batchItems now body st).1 = { st with items := rows, itemSeq := seq } ∧
      (Grown (st.items.map (fun r => r.id)) st.itemSeq (rows.map (fun r => r.id)) seq ∨
        Shrunk (st.items.map (fun r => r.id)) st.itemSeq (rows.map (fun r => r.id)) seq) := by
  rcases batchItems_shape now body st with h | ⟨recs, hmany⟩
  · exact ⟨st.items, st.itemSeq, h, Or.inl (grown_refl _ _)⟩
  · obtain ⟨rows, seq, hst2, hg⟩ := insertManyItems_shape now recs st _ hmany
    exact ⟨st.items ++ rows, seq, hst2, Or.inl hg⟩

theorem table_of_items (t : Table) (st : Store) (rows : List ItemRow) (seq : Nat)
    (h : Grown (st.items.map (fun r => r.id)) st.itemSeq (rows.map (fun r => r.id)) seq ∨
        Shrunk (st.items.map (fun r => r.id)) st.itemSeq (rows.map (fun r => r.id)) seq) :
    Grown (tableIds t st) (tableSeq t st)
        (tableIds t { st with items := rows, itemSeq := seq })
        (tableSeq t { st with items := rows, itemSeq := seq }) ∨
      Shrunk (tableIds t st) (tableSeq t st)
        (tableIds t { st with items := rows, itemSeq := seq })
        (tableSeq t { st with items := rows, itemSeq := seq }) := by
  cases t
  · exact h
  · exact Or.inl (grown_refl _ _)
  · exact Or.inl (grown_refl _ _)

theorem insertOutfit_shape (now : String) (params : List SqlVal) (st st1 : Store) (id : Nat)
    (h : insertOutfit now params st = some (st1, id)) :
    ∃ row : OutfitRow, row.id = nextId st.outfitSeq (st.outfits.map (fun r => r.id)) ∧
      st1 = { st with outfits := st.outfits ++ [row], outfitSeq := row.id } := by
  unfold insertOutfit at h
  split at h
  · dsimp only at h
    split at h
    · cases h
    · simp only [Option.some.injEq, Prod.mk.injEq] at h
      exact ⟨_, rfl, h.1.symm⟩
  · cases h

theorem createOutfit_shape (now : String) (body : Body) (st : Store) :
    (createOutfit now body st).1 = st ∨
    ∃ params st1 id, insertOutfit now params st = some (st1, id) ∧
      (createOutfit now body st).1 = st1 := by
  unfold createOutfit
  simp only []
  split
  · exact Or.inl rfl
  · split
    · exact Or.inl rfl
    · split
      · exact Or.inl rfl
      · rename_i hins
        right
        refine ⟨_, _, _, hins, ?_⟩
        split <;> rfl

theorem updateOutfit_shape (now : String) (params : List SqlVal) (id : Nat) (st st1 : Store)
    (h : updateOutfit now params id st = some st1) :
    ∃ f : OutfitRow → OutfitRow, (∀ r, (f r).id = r.id) ∧
      st1 = { st with outfits := st.outfits.map f } := by
  unfold updateOutfit at h
  split at h
  · split at h
    · cases h
    · simp only [Option.some.injEq] at h
      refine ⟨_, ?_, h.symm⟩
      intro r
      split <;> rfl
  · cases h

theorem replaceOutfit_shape (now : String) (id : Nat) (body : Body) (st : Store) :
    (replaceOutfit now id body st).1 = st ∨
    ∃ params st1, updateOutfit now params id st = some st1 ∧
      (replaceOutfit now id body st).1 = st1 := by
  unfold replaceOutfit
  split
  · exact Or.inl rfl
  · split
    · exact Or.inl rfl
    · split
      · exact Or.inl rfl
      · rename_i hup
        right
        refine ⟨_, _, hup, ?_⟩
        split <;> rfl

theorem insertManyOutfits_shape (now : String) : ∀ (recs : List JVal) (st st2 : Store),
    insertManyOutfits now recs st = some st2 →
    ∃ rows seq, st2 = { st with outfits := st.outfits ++ rows, outfitSeq := seq } ∧
      Grown (st.outfits.map (fun r => r.id)) st.outfitSeq
        ((st.outfits ++ rows).map (fun r => r.id)) seq
  | [], st, st2, h => by
    simp only [insertManyOutfits, Option.some.injEq] at h
    exact ⟨[], st.outfitSeq, by rw [← h, List.append_nil], by
      rw [List.append_nil]; exact grown_refl _ _⟩
  | item :: rest, st, st2, h => by
    rw [insertManyOutfits] at h
    split at h
    · cases h
    · split at h
      · cases h
      · split at h
        · cases h
        · rename_i hins
          obtain ⟨row, hid, hst1⟩ := insertOutfit_shape _ _ _ _ _ hins
          obtain ⟨rows, seq, hst2, hg⟩ := insertManyOutfits_shape now rest _ st2 h
          subst hst1
          refine ⟨row :: rows, seq, ?_, ?_⟩
          · rw [hst2]
            simp only [List.append_assoc, List.singleton_append]
          · have h1 : Grown (st.outfits.map (fun r => r.id)) st.outfitSeq
                ((st.outfits ++ [row]).map (fun r => r.id)) row.id := by
              rw [List.map_append, List.map_singleton, hid]
              exact grown_one _ _
            have h2 := grown_trans h1 hg
            simpa only [List.append_assoc, List.singleton_append] using h2

theorem batchOutfits_shape (now : String) (body : Body) (st : Store) :
    (batchOutfits now body st).1 = st ∨
    ∃ recs, insertManyOutfits now recs st = some (batchOutfits now body st).1 := by
  unfold batchOutfits
  split
  · split
    · exact Or.inl rfl
    · rename_i hmany
      exact Or.inr ⟨_, hmany⟩
  · exact Or.inl rfl

theorem deleteOutfit_shape (id : Nat) (st : Store) :
    (deleteOutfit id st).1 = st ∨ (deleteOutfit id st).1 = deleteOutfitRow id st := by
  unfold deleteOutfit
  split
  · exact Or.inl rfl
  · exact Or.inr rfl

theorem createOutfit_effect (now : String) (body : Body) (st : Store) :
    ∃ rows seq, (createOutfit now body st).1 = { st with outfits := rows, outfitSeq := seq } ∧
      (Grown (st.outfits.map (fun r => r.id)) st.outfitSeq (rows.map (fun r => r.id)) seq ∨
        Shrunk (st.outfits.map (fun r => r.id)) st.outfitSeq (rows.map (fun r => r.id)) seq) := by
  rcases createOutfit_shape now body st with h | ⟨params, st1, id, hins, h⟩
  · exact ⟨st.outfits, st.outfitSeq, h, Or.inl (grown_refl _ _)⟩
  · obtain ⟨row, hid, hst1⟩ := insertOutfit_shape _ _ _ _ _ hins
    refine ⟨st.outfits ++ [row], row.id, by rw [h, hst1], Or.inl ?_⟩
    rw [List.map_append, List.map_singleton, hid]
    exact grown_one _ _

theorem replaceOutfit_effect (now : String) (id : Nat) (body : Body) (st : Store) :
    ∃ rows seq, (replaceOutfit now id body st).1 = { st with outfits := rows, outfitSeq := seq } ∧
      (Grown (st.outfits.map (fun r => r.id)) st.outfitSeq (rows.map (fun r => r.id)) seq ∨
        Shrunk (st.outfits.map (fun r => r.id)) st.outfitSeq (rows.map (fun r => r.id)) seq) := by
  rcases replaceOutfit_shape now id body st with h | ⟨params, st1, hup, h⟩
  · exact ⟨st.outfits, st.outfitSeq, h, Or.inl (grown_refl _ _)⟩
  · obtain ⟨f, hf, hst1⟩ := updateOutfit_shape _ _ _ _ _ hup
    refine ⟨st.outfits.map f, st.outfitSeq, by rw [h, hst1], Or.inl ?_⟩
    have : (st.outfits.map f).map (fun r => r.id) = st.outfits.map (fun r => r.id) := by
      rw [List.map_map]
      exact List.map_congr_left (fun r _ => hf r)
    rw [this]
    exact grown_refl _ _

theorem deleteOutfit_effect (id : Nat) (st : Store) :
    ∃ rows seq, (deleteOutfit id st).1 = { st with outfits := rows, outfitSeq := seq } ∧
      (Grown (st.outfits.map (fun r => r.id)) st.outfitSeq (rows.map (fun r => r.id)) seq ∨
        Shrunk (st.outfits.map (fun r => r.id)) st.outfitSeq (rows.map (fun r => r.id)) seq) := by
  rcases deleteOutfit_shape id st with h | h
  · exact ⟨st.outfits, st.outfitSeq, h, Or.inl (grown_refl _ _)⟩
  · refine ⟨st.outfits.filter (fun r => !(r.id == id)), st.outfitSeq, by rw [h]; rfl, Or.inr ?_⟩
    refine ⟨⟨fun i => !(i == id), ?_⟩, rfl⟩
    rw [List.filter_map]
    rfl

theorem batchOutfits_effect (now : String) (body : Body) (st : Store) :
    ∃ rows seq, (batchOutfits now body st).1 = { st with outfits := rows, outfitSeq := seq } ∧
      (Grown (st.outfits.map (fun r => r.id)) st.outfitSeq (rows.map (fun r => r.id)) seq ∨
        Shrunk (st.outfits.map (fun r => r.id)) st.outfitSeq (rows.map (fun r => r.id)) seq) := by
  rcases batchOutfits_shape now body st with h | ⟨recs, hmany⟩
  · exact ⟨st.outfits, st.outfitSeq, h, Or.inl (grown_refl _ _)⟩
  · obtain ⟨rows, seq, hst2, hg⟩ := insertManyOutfits_shape now recs st _ hmany
    exact ⟨st.outfits ++ rows, seq, hst2, Or.inl hg⟩

theorem table_of_outfits (t : Table) (st : Store) (rows : List OutfitRow) (seq : Nat)
    (h : Grown (st.outfits.map (fun r => r.id)) st.outfitSeq (rows.map (fun r => r.id)) seq ∨
        Shrunk (st.outfits.map (fun r => r.id)) st.outfitSeq (rows.map (fun r => r.id)) seq) :
    Grown (tableIds t st) (tableSeq t st)
        (tableIds t { st with outfits := rows, outfitSeq := seq })
        (tableSeq t { st with outfits := rows, outfitSeq := seq }) ∨
      Shrunk (tableIds t st) (tableSeq t st)
        (tableIds t { st with outfits := rows, outfitSeq := seq })
        (tableSeq t { st with outfits := rows, outfitSeq := seq }) := by
  cases t
  · exact Or.inl (grown_refl _ _)
  · exact h
  · exact Or.inl (grown_refl _ _)

theorem insertInspiration_shape (now : String) (params : List SqlVal) (st st1 : Store) (id : Nat)
    (h : insertInspiration now params st = some (st1, id)) :
    ∃ row : InspirationRow, row.id = nextId st.inspirationSeq (st.inspirations.map (fun r => r.id)) ∧
      st1 = { st with inspirations := st.inspirations ++ [row], inspirationSeq := row.id } := by
  unfold insertInspiration at h
  split at h
  · dsimp only at h
    split at h
    · cases h
    · simp only [Option.some.injEq, Prod.mk.injEq] at h
      exact ⟨_, rfl, h.1.symm⟩
  · cases h

theorem createInspiration_shape (now : String) (body : Body) (st : Store) :
    (createInspiration now body st).1 = st ∨
    ∃ params st1 id, insertInspiration now params st = some (st1, id) ∧
      (createInspiration now body st).1 = st1 := by
  unfold createInspiration
  simp only []
  split
  · exact Or.inl rfl
  · split
    · exact Or.inl rfl
    · split
      · exact Or.inl rfl
      · rename_i hins
        right
        refine ⟨_, _, _, hins, ?_⟩
        split <;> first | rfl | (split <;> rfl)

theorem updateInspiration_shape (now : String) (params : List SqlVal) (id : Nat) (st st1 : Store)
    (h : updateInspiration now params id st = some st1) :
    ∃ f : InspirationRow → InspirationRow, (∀ r, (f r).id = r.id) ∧
      st1 = { st with inspirations := st.inspirations.map f } := by
  unfold updateInspiration at h
  split at h
  · split at h
    · cases h
    · simp only [Option.some.injEq] at h
      refine ⟨_, ?_, h.symm⟩
      intro r
      split <;> rfl
  · cases h

theorem replaceInspiration_shape (now : String) (id : Nat) (body : Body) (st : Store) :
    (replaceInspiration now id body st).1 = st ∨
    ∃ params st1, updateInspiration now params id st = some st1 ∧
      (replaceInspiration now id body st).1 = st1 := by
  unfold replaceInspiration
  split
  · exact Or.inl rfl
  · split
    · exact Or.inl rfl
    · split
      · exact Or.inl rfl
      · rename_i hup
        right
        refine ⟨_, _, hup, ?_⟩
        split <;> first | rfl | (split <;> rfl)

theorem insertManyInspirations_shape (now : String) : ∀ (recs : List JVal) (st st2 : Store),
    insertManyInspirations now recs st = some st2 →
    ∃ rows seq, st2 = { st with inspirations := st.inspirations ++ rows, inspirationSeq := seq } ∧
      Grown (st.inspirations.map (fun r => r.id)) st.inspirationSeq
        ((st.inspirations ++ rows).map (fun r => r.id)) seq
  | [], st, st2, h => by
    simp only [insertManyInspirations, Option.some.injEq] at h
    exact ⟨[], st.inspirationSeq, by rw [← h, List.append_nil], by
      rw [List.append_nil]; exact grown_refl _ _⟩
  | item :: rest, st, st2, h => by
    rw [insertManyInspirations] at h
    split at h
    · cases h
    · split at h
      · cases h
      · split at h
        · cases h
        · rename_i hins
          obtain ⟨row, hid, hst1⟩ := insertInspiration_shape _ _ _ _ _ hins
          obtain ⟨rows, seq, hst2, hg⟩ := insertManyInspirations_shape now rest _ st2 h
          subst hst1
          refine ⟨row :: rows, seq, ?_, ?_⟩
          · rw [hst2]
            simp only [List.append_assoc, List.singleton_append]
          · have h1 : Grown (st.inspirations.map (fun r => r.id)) st.inspirationSeq
                ((st.inspirations ++ [row]).map (fun r => r.id)) row.id := by
              rw [List.map_append, List.map_singleton, hid]
              exact grown_one _ _
            have h2 := grown_trans h1 hg
            simpa only [List.append_assoc, List.singleton_append] using h2

theorem batchInspirations_shape (now : String) (body : Body) (st : Store) :
    (batchInspirations now body st).1 = st ∨
    ∃ recs, insertManyInspirations now recs st = some (batchInspirations now body st).1 := by
  unfold batchInspirations
  split
  · split
    · exact Or.inl rfl
    · rename_i hmany
      exact Or.inr ⟨_, hmany⟩
  · exact Or.inl rfl

theorem deleteInspiration_shape (id : Nat) (st : Store) :
    (deleteInspiration id st).1 = st ∨ (deleteInspiration id st).1 = deleteInspirationRow id st := by
  unfold deleteInspiration
  split
  · exact Or.inl rfl
  · exact Or.inr rfl

theorem createInspiration_effect (now : String) (body : Body) (st : Store) :
    ∃ rows seq, (createInspiration now body st).1 = { st with inspirations := rows, inspirationSeq := seq } ∧
      (Grown (st.inspirations.map (fun r => r.id)) st.inspirationSeq (rows.map (fun r => r.id)) seq ∨
        Shrunk (st.inspirations.map (fun r => r.id)) st.inspirationSeq (rows.map (fun r => r.id)) seq) := by
  rcases createInspiration_shape now body st with h | ⟨params, st1, id, hins, h⟩
  · exact ⟨st.inspirations, st.inspirationSeq, h, Or.inl (grown_refl _ _)⟩
  · obtain ⟨row, hid, hst1⟩ := insertInspiration_shape _ _ _ _ _ hins
    refine ⟨st.inspirations ++ [row], row.id, by rw [h, hst1], Or.inl ?_⟩
    rw [List.map_append, List.map_singleton, hid]
    exact grown_one _ _

theorem replaceInspiration_effect (now : String) (id : Nat) (body : Body) (st : Store) :
    ∃ rows seq, (replaceInspiration now id body st).1 = { st with inspirations := rows, inspirationSeq := seq } ∧
      (Grown (st.inspirations.map (fun r => r.id)) st.inspirationSeq (rows.map (fun r => r.id)) seq ∨
        Shrunk (st.inspirations.map (fun r => r.id)) st.inspirationSeq (rows.map (fun r => r.id)) seq) := by
  rcases replaceInspiration_shape now id body st with h | ⟨params, st1, hup, h⟩
  · exact ⟨st.inspirations, st.inspirationSeq, h, Or.inl (grown_refl _ _)⟩
  · obtain ⟨f, hf, hst1⟩ := updateInspiration_shape _ _ _ _ _ hup
    refine ⟨st.inspirations.map f, st.inspirationSeq, by rw [h, hst1], Or.inl ?_⟩
    have : (st.inspirations.map f).map (fun r => r.id) = st.inspirations.map (fun r => r.id) := by
      rw [List.map_map]
      exact List.map_congr_left (fun r _ => hf r)
    rw [this]
    exact grown_refl _ _

theorem deleteInspiration_effect (id : Nat) (st : Store) :
    ∃ rows seq, (deleteInspiration id st).1 = { st with inspirations := rows, inspirationSeq := seq } ∧
      (Grown (st.inspirations.map (fun r => r.id)) st.inspirationSeq (rows.map (fun r => r.id)) seq ∨
        Shrunk (st.inspirations.map (fun r => r.id)) st.inspirationSeq (rows.map (fun r => r.id)) seq) := by
  rcases deleteInspiration_shape id st with h | h
  · exact ⟨st.inspirations, st.inspirationSeq, h, Or.inl (grown_refl _ _)⟩
  · refine ⟨st.inspirations.filter (fun r => !(r.id == id)), st.inspirationSeq, by rw [h]; rfl, Or.inr ?_⟩
    refine ⟨⟨fun i => !(i == id), ?_⟩, rfl⟩
    rw [List.filter_map]
    rfl

theorem batchInspirations_effect (now : String) (body : Body) (st : Store) :
    ∃ rows seq, (batchInspirations now body st).1 = { st with inspirations := rows, inspirationSeq := seq } ∧
      (Grown (st.inspirations.map (fun r => r.id)) st.inspirationSeq (rows.map (fun r => r.id)) seq ∨
        Shrunk (st.inspirations.map (fun r => r.id)) st.inspirationSeq (rows.map (fun r => r.id)) seq) := by
  rcases batchInspirations_shape now body st with h | ⟨recs, hmany⟩
  · exact ⟨st.inspirations, st.inspirationSeq, h, Or.inl (grown_refl _ _)⟩
  · obtain ⟨rows, seq, hst2, hg⟩ := insertManyInspirations_shape now recs st _ hmany
    exact ⟨st.inspirations ++ rows, seq, hst2, Or.inl hg⟩

theorem table_of_inspirations (t : Table) (st : Store) (rows : List InspirationRow) (seq : Nat)
    (h : Grown (st.inspirations.map (fun r => r.id)) st.inspirationSeq (rows.map (fun r => r.id)) seq ∨
        Shrunk (st.inspirations.map (fun r => r.id)) st.inspirationSeq (rows.map (fun r => r.id)) seq) :
    Grown (tableIds t st) (tableSeq t st)
        (tableIds t { st with inspirations := rows, inspirationSeq := seq })
        (tableSeq t { st with inspirations := rows, inspirationSeq := seq }) ∨
      Shrunk (tableIds t st) (tableSeq t st)
        (tableIds t { st with inspirations := rows, inspirationSeq := seq })
        (tableSeq t { st with inspirations := rows, inspirationSeq := seq }) := by
  cases t
  · exact Or.inl (grown_refl _ _)
  · exact Or.inl (grown_refl _ _)
  · exact h

theorem call_table (c : Call) (t : Table) (st : Store) :
    Grown (tableIds t st) (tableSeq t st) (tableIds t (c.run st).1) (tableSeq t (c.run st).1) ∨
      Shrunk (tableIds t st) (tableSeq t st) (tableIds t (c.run st).1)
        (tableSeq t (c.run st).1) := by
  cases c with
  | postItem now body =>
    obtain ⟨rows, seq, h, hg⟩ := createItem_effect now body st
    simp only [Call.run, h]; exact table_of_items t st rows seq hg
  | putItem now id body =>
    obtain ⟨rows, seq, h, hg⟩ := replaceItem_effect now id body st
    simp only [Call.run, h]; exact table_of_items t st rows seq hg
  | dropItem id =>
    obtain ⟨rows, seq, h, hg⟩ := deleteItem_effect id st
    simp only [Call.run, h]; exact table_of_items t st rows seq hg
  | postItems now body =>
    obtain ⟨rows, seq, h, hg⟩ := batchItems_effect now body st
    simp only [Call.run, h]; exact table_of_items t st rows seq hg
  | postOutfit now body =>
    obtain ⟨rows, seq, h, hg⟩ := createOutfit_effect now body st
    simp only [Call.run, h]; exact table_of_outfits t st rows seq hg
  | putOutfit now id body =>
    obtain ⟨rows, seq, h, hg⟩ := replaceOutfit_effect now id body st
    simp only [Call.run, h]; exact table_of_outfits t st rows seq hg
  | dropOutfit id =>
    obtain ⟨rows, seq, h, hg⟩ := deleteOutfit_effect id st
    simp only [Call.run, h]; exact table_of_outfits t st rows seq hg
  | postOutfits now body =>
    obtain ⟨rows, seq, h, hg⟩ := batchOutfits_effect now body st
    simp only [Call.run, h]; exact table_of_outfits t st rows seq hg
  | postInspiration now body =>
    obtain ⟨rows, seq, h, hg⟩ := createInspiration_effect now body st
    simp only [Call.run, h]; exact table_of_inspirations t st rows seq hg
  | putInspiration now id body =>
    obtain ⟨rows, seq, h, hg⟩ := replaceInspiration_effect now id body st
    simp only [Call.run, h]; exact table_of_inspirations t st rows seq hg
  | dropInspiration id =>
    obtain ⟨rows, seq, h, hg⟩ := deleteInspiration_effect id st
    simp only [Call.run, h]; exact table_of_inspirations t st rows seq hg
  | postInspirations now body =>
    obtain ⟨rows, seq, h, hg⟩ := batchInspirations_effect now body st
    simp only [Call.run, h]; exact table_of_inspirations t st rows seq hg

theorem mem_assignedBy (t : Table) (st st1 : Store) (i : Nat) :
    i ∈ assignedBy t st st1 ↔ i ∈ tableIds t st1 ∧ i ∉ tableIds t st := by
  simp [assignedBy, List.mem_filter]

theorem ascending_step (t : Table) (st st1 : Store) (ha : Ascending t st)
    (h : Grown (tableIds t st) (tableSeq t st) (tableIds t st1) (tableSeq t st1) ∨
      Shrunk (tableIds t st) (tableSeq t st) (tableIds t st1) (tableSeq t st1)) :
    Ascending t st1 ∧ tableSeq t st ≤ tableSeq t st1 ∧
    (assignedBy t st st1).Pairwise (fun a b => a < b) ∧
    ∀ i ∈ assignedBy t st st1, tableSeq t st < i ∧ i ≤ tableSeq t st1 := by
  have key : Ascending t st1 ∧ tableSeq t st ≤ tableSeq t st1 ∧
      ∀ i ∈ tableIds t st1, i ∉ tableIds t st → tableSeq t st < i := by
    rcases h with ⟨new, hids, hp, hb, hs⟩ | ⟨⟨p, hids⟩, hs⟩
    · refine ⟨⟨?_, ?_⟩, hs, ?_⟩
      · rw [hids, List.pairwise_append]
        refine ⟨ha.1, hp, ?_⟩
        intro x hx y hy
        have := ha.2 x hx
        have := (hb y hy).1
        omega
      · intro i hi
        rw [hids] at hi
        rcases List.mem_append.mp hi with hi | hi
        · exact le_trans (ha.2 i hi) hs
        · exact (hb i hi).2
      · intro i hi hni
        rw [hids] at hi
        rcases List.mem_append.mp hi with hi | hi
        · exact absurd hi hni
        · exact (hb i hi).1
    · refine ⟨⟨?_, ?_⟩, le_of_eq hs.symm, ?_⟩
      · rw [hids]; exact ha.1.filter p
      · intro i hi
        rw [hids] at hi
        rw [hs]; exact ha.2 i (List.mem_of_mem_filter hi)
      · intro i hi hni
        rw [hids] at hi
        exact absurd (List.mem_of_mem_filter hi) hni
  refine ⟨key.1, key.2.1, ?_, ?_⟩
  · exact key.1.1.filter _
  · intro i hi
    obtain ⟨h1, h2⟩ := (mem_assignedBy t st st1 i).mp hi
    exact ⟨key.2.2 i h1 h2, key.1.2 i h1⟩

theorem assigned_ascending (t : Table) : ∀ (calls : List Call) (st : Store), Ascending t st →
    (assignedAlong t calls st).Pairwise (fun a b => a < b) ∧
    (∀ i ∈ assignedAlong t calls st,
      tableSeq t st < i ∧ i ≤ tableSeq t (runCalls calls st)) ∧
    tableSeq t st ≤ tableSeq t (runCalls calls st) ∧
    Ascending t (runCalls calls st) ∧
    ∀ i ∈ tableIds t (runCalls calls st), i ∈ tableIds t st ∨ i ∈ assignedAlong t calls st
  | [], st, ha => by
    refine ⟨List.Pairwise.nil, ?_, le_refl _, ha, ?_⟩
    · intro i hi; simp [assignedAlong] at hi
    · intro i hi; exact Or.inl hi
  | c :: cs, st, ha => by
    obtain ⟨ha1, hs1, hp1, hb1⟩ := ascending_step t st (c.run st).1 ha (call_table c t st)
    obtain ⟨hp2, hb2, hs2, ha2, hm2⟩ := assigned_ascending t cs (c.run st).1 ha1
    refine ⟨?_, ?_, le_trans hs1 hs2, ha2, ?_⟩
    · show (assignedBy t st (c.run st).1 ++ assignedAlong t cs (c.run st).1).Pairwise _
      rw [List.pairwise_append]
      refine ⟨hp1, hp2, ?_⟩
      intro x hx y hy
      have := (hb1 x hx).2
      have := (hb2 y hy).1
      omega
    · intro i hi
      have hi' : i ∈ assignedBy t st (c.run st).1 ++ assignedAlong t cs (c.run st).1 := hi
      rcases List.mem_append.mp hi' with hi' | hi'
      · exact ⟨(hb1 i hi').1, le_trans (hb1 i hi').2 hs2⟩
      · exact ⟨lt_of_le_of_lt hs1 (hb2 i hi').1, (hb2 i hi').2⟩
    · intro i hi
      rcases hm2 i hi with h | h
      · by_cases hin : i ∈ tableIds t st
        · exact Or.inl hin
        · right
          show i ∈ assignedBy t st (c.run st).1 ++ assignedAlong t cs (c.run st).1
          exact List.mem_append_left _ ((mem_assignedBy t st _ i).mpr ⟨h, hin⟩)
      · right
        show i ∈ assignedBy t st (c.run st).1 ++ assignedAlong t cs (c.run st).1
        exact List.mem_append_right _ h

theorem ascending_empty (t : Table) : Ascending t Store.empty := by
  cases t <;> exact ⟨List.Pairwise.nil, fun i hi => absurd hi (List.not_mem_nil i)⟩

/-! ## Rows written by calls with scalar bodies -/

theorem replaceItem_scalar_required (now : String) (id : Nat) (body : Body) (st : Store)
    (hs : scalarItemFields body = true) :
    (replaceItem now id body st).1 = st ∨
    ∃ seasons, getField "seasons" body = some seasons ∧
      textAffinity (sqlOf (getField "name" body)) ≠ .null ∧
      textAffinity (sqlOf (getField "category" body)) ≠ .null ∧
      textAffinity (sqlOf (getField "color" body)) ≠ .null ∧
      (replaceItem now id body st).1 =
        { st with items := st.items.map (fun r =>
            if r.id == id then replacedItemRow now body seasons r else r) } := by
  by_cases hnull : textAffinity (sqlOf (getField "name" body)) = .null ∨
      textAffinity (sqlOf (getField "category" body)) = .null ∨
      textAffinity (sqlOf (getField "color" body)) = .null
  · left
    cases hex : selectItem id st with
    | none => simp [replaceItem, hex]
    | some r0 =>
      have hs' := hs
      simp only [scalarItemFields, Bool.and_eq_true] at hs'
      obtain ⟨⟨⟨⟨⟨⟨⟨⟨s1, s2⟩, s3⟩, s4⟩, s5⟩, s6⟩, s7⟩, s8⟩, s9⟩ := hs'
      have hstr : isScalar (JSON_stringify (getField "seasons" body)) = true := by
        cases getField "seasons" body <;> rfl
      have hb := bind_scalars 10
        [getField "name" body, getField "category" body, getField "color" body,
          getField "brand" body, getField "price" body,
          JSON_stringify (getField "seasons" body),
          getField "purchase_date" body, getField "image" body,
          getField "notes" body, getField "platform" body]
        (by
          intro a ha
          simp only [List.mem_cons, List.mem_singleton, List.not_mem_nil, or_false] at ha
          rcases ha with rfl | rfl | rfl | rfl | rfl | rfl | rfl | rfl | rfl | rfl
          · exact s1
          · exact s2
          · exact s3
          · exact s4
          · exact s5
          · exact hstr
          · exact s6
          · exact s7
          · exact s8
          · exact s9) rfl
      have hany : st.items.any (fun r => r.id == id) = true := any_of_find _ _ _ hex
      unfold replaceItem
      simp only [hex, hb, List.map]
      rw [updateItem_ten, if_pos ⟨hany, by tauto⟩]
  · simp only [not_or] at hnull
    rcases replaceItem_scalar_store now id body st hs with h | ⟨seasons, hse, h⟩
    · exact Or.inl h
    · exact Or.inr ⟨seasons, hse, hnull.1, hnull.2.1, hnull.2.2, h⟩

theorem rows_create (P : ItemRow → Prop) (now : String) (body : Body) (st : Store)
    (hinv : ∀ r ∈ st.items, P r) (hs : scalarItemFields body = true)
    (hnew : truthy (getField "name" body) = true → P (createdItemRow now body st)) :
    ∀ r ∈ (createItem now body st).1.items, P r := by
  cases hall : (truthy (getField "name" body) && truthy (getField "category" body)
      && truthy (getField "color" body)) with
  | false => rw [createItem_rejected now body st hall]; exact hinv
  | true =>
    simp only [Bool.and_eq_true] at hall
    rw [createItem_scalar now body st hall.1.1 hall.1.2 hall.2 hs]
    intro r hr
    rcases List.mem_append.mp hr with hr | hr
    · exact hinv r hr
    · rw [List.mem_singleton.mp hr]
      exact hnew hall.1.1

theorem rows_replace (P : ItemRow → Prop) (now : String) (id : Nat) (body : Body)
    (st : Store) (hinv : ∀ r ∈ st.items, P r) (hs : scalarItemFields body = true)
    (hnew : ∀ seasons r, getField "seasons" body = some seasons →
      textAffinity (sqlOf (getField "name" body)) ≠ .null →
      P (replacedItemRow now body seasons r)) :
    ∀ r ∈ (replaceItem now id body st).1.items, P r := by
  rcases replaceItem_scalar_required now id body st hs with h | ⟨seasons, hse, hn, -, -, h⟩
  · rw [h]; exact hinv
  · rw [h]
    intro r hr
    simp only [List.mem_map] at hr
    obtain ⟨r0, hr0, rfl⟩ := hr
    split
    · exact hnew seasons r0 hse hn
    · exact hinv r0 hr0

theorem rows_insertMany (P : ItemRow → Prop) (Q : Body → Prop) (now : String)
    (hnew : ∀ rec st, scalarBatchFields rec = true → Q rec →
      textAffinity (sqlOf (getField "name" rec)) ≠ .null → P (batchItemRow now rec st)) :
    ∀ (items : List JVal) (st st1 : Store),
    (∀ x ∈ items, ∃ rec, x = .obj rec ∧ scalarBatchFields rec = true ∧ Q rec) →
    (∀ r ∈ st.items, P r) →
    insertManyItems now items st = some st1 → ∀ r ∈ st1.items, P r
  | [], st, st1, _, hinv, h => by
    simp only [insertManyItems, Option.some.injEq] at h
    rw [← h]; exact hinv
  | x :: rest, st, st1, hx, hinv, h => by
    rw [insertManyItems_cons] at h
    obtain ⟨rec, rfl, hsc, hq⟩ := hx x (List.mem_cons_self _ _)
    rw [insertOneItem_scalar now rec st hsc] at h
    by_cases hnull : textAffinity (sqlOf (getField "name" rec)) = .null ∨
        textAffinity (sqlOf (getField "category" rec)) = .null ∨
        textAffinity (sqlOf (getField "color" rec)) = .null
    · rw [if_pos hnull] at h
      simp at h
    · rw [if_neg hnull] at h
      refine rows_insertMany P Q now hnew rest
        { st with items := st.items ++ [batchItemRow now rec st],
                  itemSeq := (batchItemRow now rec st).id } st1
        (fun y hy => hx y (List.mem_cons_of_mem _ hy)) ?_ h
      intro r hr
      rcases List.mem_append.mp hr with hr | hr
      · exact hinv r hr
      · rw [List.mem_singleton.mp hr]
        exact hnew rec st hsc hq (fun hn => hnull (Or.inl hn))

theorem rows_batch (P : ItemRow → Prop) (Q : Body → Prop) (now : String) (body : Body)
    (st : Store)
    (hnew : ∀ rec st, scalarBatchFields rec = true → Q rec →
      textAffinity (sqlOf (getField "name" rec)) ≠ .null → P (batchItemRow now rec st))
    (hrecs : ∀ items, getField "items" body = some (.arr items) →
      ∀ x ∈ items, ∃ rec, x = .obj rec ∧ scalarBatchFields rec = true ∧ Q rec)
    (hinv : ∀ r ∈ st.items, P r) :
    ∀ r ∈ (batchItems now body st).1.items, P r := by
  unfold batchItems
  split
  · rename_i x xs hitems
    split
    · exact hinv
    · rename_i st1 hmany
      exact rows_insertMany P Q now hnew (x :: xs) st st1 (hrecs _ hitems) hinv hmany
  · exact hinv

theorem nonEmptyText_of_name (x : Option JVal) (hs : isScalar x = true)
    (hb : isBlank x = false) (hn : textAffinity (sqlOf x) ≠ .null) :
    nonEmptyText (textAffinity (sqlOf x)) = true := by
  match x, hs with
  | none, _ => exact absurd rfl hn
  | some .null, _ => exact absurd rfl hn
  | some (.num n), _ =>
    show (String.mk (renderInt n ++ ['.', '0']) != "") = true
    have : String.mk (renderInt n ++ ['.', '0']) ≠ "" := by
      intro h
      have := congrArg String.data h
      simp at this
    simpa using this
  | some (.str s), _ =>
    show (s != "") = true
    have : (s == "") = false := hb
    simp only [bne, this, Bool.not_false]

theorem isBlank_of_truthy (x : Option JVal) (h : truthy x = true) : isBlank x = false := by
  match x, h with
  | some (.bool _), _ => rfl
  | some (.num _), _ => rfl
  | some (.arr _), _ => rfl
  | some (.obj _), _ => rfl
  | some (.str s), h =>
    show (s == "") = false
    have : (s != "") = true := h
    simpa [bne] using this

theorem named_run (c : ItemCall) (st : Store)
    (hinv : ∀ r ∈ st.items, nonEmptyText r.name = true) (hc : namedCall c = true) :
    ∀ r ∈ (c.run st).items, nonEmptyText r.name = true := by
  match c, hc with
  | .create now body, hc =>
    have hs : scalarItemFields body = true := hc
    have hname : isScalar (getField "name" body) = true := by
      simp only [scalarItemFields, Bool.and_eq_true] at hs
      exact hs.1.1.1.1.1.1.1.1
    exact rows_create (fun r => nonEmptyText r.name = true) now body st hinv hs
      (fun ht => nonEmptyText_of_name _ hname (isBlank_of_truthy _ ht)
        (textAffinity_sqlOf_ne_null _ ht hname))
  | .replace now id body, hc =>
    simp only [namedCall, Bool.and_eq_true, Bool.not_eq_true'] at hc
    have hname : isScalar (getField "name" body) = true := by
      have hs := hc.1
      simp only [scalarItemFields, Bool.and_eq_true] at hs
      exact hs.1.1.1.1.1.1.1.1
    exact rows_replace (fun r => nonEmptyText r.name = true) now id body st hinv hc.1
      (fun _ _ _ hn => nonEmptyText_of_name _ hname hc.2 hn)
  | .batch now body, hc =>
    refine rows_batch (fun r => nonEmptyText r.name = true)
      (fun rec => isBlank (getField "name" rec) = false) now body st ?_ ?_ hinv
    · intro rec st hsc hq hn
      have hname : isScalar (getField "name" rec) = true := by
        simp only [scalarBatchFields, Bool.and_eq_true] at hsc
        exact hsc.1.1.1.1.1.1.1.1.1
      exact nonEmptyText_of_name _ hname hq hn
    · intro items hitems x hx
      simp only [namedCall, hitems, List.all_eq_true] at hc
      have hx0 := hc x hx
      match x, hx0 with
      | .obj rec, hx0 =>
        simp only [namedRecord, Bool.and_eq_true, Bool.not_eq_true'] at hx0
        exact ⟨rec, rfl, hx0.1, hx0.2⟩

theorem named_runCalls : ∀ (calls : List ItemCall) (st : Store),
    (∀ r ∈ st.items, nonEmptyText r.name = true) → (∀ c ∈ calls, namedCall c = true) →
    ∀ r ∈ (runItemCalls calls st).items, nonEmptyText r.name = true
  | [], _, hinv, _ => hinv
  | c :: rest, st, hinv, hc => by
    have h1 := named_run c st hinv (hc c (List.mem_cons_self _ _))
    exact named_runCalls rest (c.run st) h1 (fun d hd => hc d (List.mem_cons_of_mem _ hd))

theorem nonNegative_of_price (x : Option JVal) (h : isPrice x = true) :
    nonNegative (numericAffinity (sqlOf x)) = true := by
  match x, h with
  | some (.num n), h => exact h

theorem nonNegative_getD (x : Option JVal) (h : absentOrPrice x = true) :
    nonNegative (numericAffinity (sqlOf (some (x.getD (.num 0))))) = true := by
  match x, h with
  | none, _ => rfl
  | some (.num n), h => exact h

theorem nonNegative_orElse (x : Option JVal) (h : absentOrPrice x = true) :
    nonNegative (numericAffinity (sqlOf (some (orElse x (.num 0))))) = true := by
  unfold orElse
  split
  · exact nonNegative_getD x h
  · rfl

theorem priced_run (c : ItemCall) (st : Store)
    (hinv : ∀ r ∈ st.items, nonNegative r.price = true) (hc : pricedCall c = true) :
    ∀ r ∈ (c.run st).items, nonNegative r.price = true := by
  match c, hc with
  | .create now body, hc =>
    simp only [pricedCall, Bool.and_eq_true] at hc
    exact rows_create (fun r => nonNegative r.price = true) now body st hinv hc.1
      (fun _ => nonNegative_getD _ hc.2)
  | .replace now id body, hc =>
    simp only [pricedCall, Bool.and_eq_true] at hc
    exact rows_replace (fun r => nonNegative r.price = true) now id body st hinv hc.1
      (fun _ _ _ _ => nonNegative_of_price _ hc.2)
  | .batch now body, hc =>
    refine rows_batch (fun r => nonNegative r.price = true)
      (fun rec => absentOrPrice (getField "price" rec) = true) now body st ?_ ?_ hinv
    · intro rec st _ hq _
      exact nonNegative_orElse _ hq
    · intro items hitems x hx
      simp only [pricedCall, hitems, List.all_eq_true] at hc
      have hx0 := hc x hx
      match x, hx0 with
      | .obj rec, hx0 =>
        simp only [pricedRecord, Bool.and_eq_true] at hx0
        exact ⟨rec, rfl, hx0.1, hx0.2⟩

theorem priced_runCalls : ∀ (calls : List ItemCall) (st : Store),
    (∀ r ∈ st.items, nonNegative r.price = true) → (∀ c ∈ calls, pricedCall c = true) →
    ∀ r ∈ (runItemCalls calls st).items, nonNegative r.price = true
  | [], _, hinv, _ => hinv
  | c :: rest, st, hinv, hc => by
    have h1 := priced_run c st hinv (hc c (List.mem_cons_self _ _))
    exact priced_runCalls rest (c.run st) h1 (fun d hd => hc d (List.mem_cons_of_mem _ hd))

/-! ## Decoding after calls with scalar bodies -/

theorem parseTags_bound (x : Option JVal) :
    ∃ v, parseTags (textAffinity (sqlOf (JSON_stringify x))) = some v := by
  cases x with
  | none => exact ⟨.arr [], rfl⟩
  | some w => exact ⟨w, parseTags_stringify w⟩

theorem bind_look (title image description tags : Option JVal)
    (s1 : isScalar title = true) (s2 : isScalar image = true)
    (s3 : isScalar description = true) :
    bind 4 [title, image, description, JSON_stringify tags] =
      some [sqlOf title, sqlOf image, sqlOf description, sqlOf (JSON_stringify tags)] := by
  have hstr : isScalar (JSON_stringify tags) = true := by
    cases tags <;> rfl
  exact bind_scalars 4 [title, image, description, JSON_stringify tags]
    (by
      intro a ha
      simp only [List.mem_cons, List.mem_singleton, List.not_mem_nil, or_false] at ha
      rcases ha with rfl | rfl | rfl | rfl
      · exact s1
      · exact s2
      · exact s3
      · exact hstr) rfl

theorem insertInspiration_tags (now : String) (p1 p2 p3 p4 : SqlVal) (st st1 : Store)
    (id : Nat) (h : insertInspiration now [p1, p2, p3, p4] st = some (st1, id)) :
    ∃ row : InspirationRow, row.tags = textAffinity p4 ∧
      st1 = { st with inspirations := st.inspirations ++ [row], inspirationSeq := row.id } := by
  unfold insertInspiration at h
  dsimp only at h
  split at h
  · cases h
  · simp only [Option.some.injEq, Prod.mk.injEq] at h
    exact ⟨_, rfl, h.1.symm⟩

theorem updateInspiration_tags (now : String) (p1 p2 p3 p4 : SqlVal) (id : Nat)
    (st st1 : Store) (h : updateInspiration now [p1, p2, p3, p4] id st = some st1) :
    ∃ f : InspirationRow → InspirationRow, (∀ r, f r = r ∨ (f r).tags = textAffinity p4) ∧
      st1 = { st with inspirations := st.inspirations.map f } := by
  unfold updateInspiration at h
  dsimp only at h
  split at h
  · cases h
  · simp only [Option.some.injEq] at h
    refine ⟨_, ?_, h.symm⟩
    intro r
    split
    · exact Or.inr rfl
    · exact Or.inl rfl

theorem createInspiration_bound (now : String) (body : Body) (st : Store) :
    (createInspiration now body st).1 = st ∨
    ∃ params st1 id,
      bind 4 [getField "title" body, getField "image" body,
        some ((getField "description" body).getD (.str "")),
        JSON_stringify (some ((getField "tags" body).getD (.arr [])))] = some params ∧
      insertInspiration now params st = some (st1, id) ∧
      (createInspiration now body st).1 = st1 := by
  unfold createInspiration
  simp only []
  split
  · exact Or.inl rfl
  · split
    · exact Or.inl rfl
    · rename_i hb
      split
      · exact Or.inl rfl
      · rename_i hins
        right
        refine ⟨_, _, _, hb, hins, ?_⟩
        split <;> first | rfl | (split <;> rfl)

theorem replaceInspiration_bound (now : String) (id : Nat) (body : Body) (st : Store) :
    (replaceInspiration now id body st).1 = st ∨
    ∃ params st1,
      bind 4 [getField "title" body, getField "image" body,
        getField "description" body, JSON_stringify (getField "tags" body)] = some params ∧
      updateInspiration now params id st = some st1 ∧
      (replaceInspiration now id body st).1 = st1 := by
  unfold replaceInspiration
  split
  · exact Or.inl rfl
  · split
    · exact Or.inl rfl
    · rename_i hb
      split
      · exact Or.inl rfl
      · rename_i hup
        right
        refine ⟨_, _, hb, hup, ?_⟩
        split <;> first | rfl | (split <;> rfl)

theorem looks_create (now : String) (body : Body) (st : Store)
    (hinv : ∀ r ∈ st.inspirations, ∃ v, parseTags r.tags = some v)
    (hs : scalarLookFields body = true) :
    ∀ r ∈ (createInspiration now body st).1.inspirations, ∃ v, parseTags r.tags = some v := by
  simp only [scalarLookFields, Bool.and_eq_true] at hs
  rcases createInspiration_bound now body st with h | ⟨params, st1, id, hb, hins, h⟩
  · rw [h]; exact hinv
  · rw [bind_look _ _ _ _ hs.1.1 hs.1.2
      (isScalar_getD (getField "description" body) (.str "") rfl hs.2)] at hb
    simp only [Option.some.injEq] at hb
    subst hb
    obtain ⟨row, htags, hst1⟩ := insertInspiration_tags _ _ _ _ _ _ _ _ hins
    rw [h, hst1]
    intro r hr
    rcases List.mem_append.mp hr with hr | hr
    · exact hinv r hr
    · rw [List.mem_singleton.mp hr, htags]
      exact parseTags_bound _

theorem looks_replace (now : String) (id : Nat) (body : Body) (st : Store)
    (hinv : ∀ r ∈ st.inspirations, ∃ v, parseTags r.tags = some v)
    (hs : scalarLookFields body = true) :
    ∀ r ∈ (replaceInspiration now id body st).1.inspirations,
      ∃ v, parseTags r.tags = some v := by
  simp only [scalarLookFields, Bool.and_eq_true] at hs
  rcases replaceInspiration_bound now id body st with h | ⟨params, st1, hb, hup, h⟩
  · rw [h]; exact hinv
  · rw [bind_look _ _ _ _ hs.1.1 hs.1.2 hs.2] at hb
    simp only [Option.some.injEq] at hb
    subst hb
    obtain ⟨f, hf, hst1⟩ := updateInspiration_tags _ _ _ _ _ _ _ _ hup
    rw [h, hst1]
    intro r hr
    simp only [List.mem_map] at hr
    obtain ⟨r0, hr0, rfl⟩ := hr
    rcases hf r0 with he | he
    · rw [he]; exact hinv r0 hr0
    · rw [he]; exact parseTags_bound _

theorem looks_insertMany (now : String) : ∀ (recs : List JVal) (st st1 : Store),
    (∀ x ∈ recs, scalarLook x = true) →
    (∀ r ∈ st.inspirations, ∃ v, parseTags r.tags = some v) →
    insertManyInspirations now recs st = some st1 →
    ∀ r ∈ st1.inspirations, ∃ v, parseTags r.tags = some v
  | [], st, st1, _, hinv, h => by
    simp only [insertManyInspirations, Option.some.injEq] at h
    rw [← h]; exact hinv
  | x :: rest, st, st1, hx, hinv, h => by
    have hx0 := hx x (List.mem_cons_self _ _)
    match x, hx0 with
    | .obj rec, hx0 =>
      simp only [scalarLook, scalarLookFields, Bool.and_eq_true] at hx0
      have hargs : inspirationBatchArgs (.obj rec) =
          some [getField "title" rec, getField "image" rec,
            some (orElse (getField "description" rec) (.str "")),
            JSON_stringify (some (orElse (getField "tags" rec) (.arr [])))] := by
        simp [inspirationBatchArgs, propOf]
      have hb := bind_look (getField "title" rec) (getField "image" rec)
        (some (orElse (getField "description" rec) (.str "")))
        (some (orElse (getField "tags" rec) (.arr []))) hx0.1.1 hx0.1.2
        (isScalar_orElse (getField "description" rec) (.str "") rfl hx0.2)
      rw [insertManyInspirations, hargs] at h
      simp only [hb] at h
      split at h
      · cases h
      · rename_i hins
        obtain ⟨row, htags, hst1⟩ := insertInspiration_tags _ _ _ _ _ _ _ _ hins
        refine looks_insertMany now rest _ st1
          (fun y hy => hx y (List.mem_cons_of_mem _ hy)) ?_ h
        rw [hst1]
        intro r hr
        rcases List.mem_append.mp hr with hr | hr
        · exact hinv r hr
        · rw [List.mem_singleton.mp hr, htags]
          exact parseTags_bound _

theorem looks_batch (now : String) (body : Body) (st : Store)
    (hinv : ∀ r ∈ st.inspirations, ∃ v, parseTags r.tags = some v)
    (hc : plainCall (.postInspirations now body) = true) :
    ∀ r ∈ (batchInspirations now body st).1.inspirations,
      ∃ v, parseTags r.tags = some v := by
  unfold batchInspirations
  split
  · rename_i x xs hitems
    simp only [plainCall, hitems, List.all_eq_true] at hc
    split
    · exact hinv
    · rename_i st1 hmany
      exact looks_insertMany now (x :: xs) st st1 hc hinv hmany
  · exact hinv

theorem decodes_created (now : String) (body : Body) (st : Store) :
    ∃ v, JSON_parse (toJs (createdItemRow now body st).seasons) = some v :=
  ⟨_, JSON_parse_stringify _⟩

theorem decodable_run (c : Call) (st : Store) (hd : Decodable st)
    (hc : plainCall c = true) : Decodable (c.run st).1 := by
  cases c with
  | postItem now body =>
    obtain ⟨rows, seq, h, -⟩ := createItem_effect now body st
    refine ⟨rows_create (fun r => ∃ v, JSON_parse (toJs r.seasons) = some v) now body st
      hd.1 hc (fun _ => ⟨_, JSON_parse_stringify _⟩), ?_⟩
    show ∀ r ∈ (createItem now body st).1.inspirations, _
    rw [h]; exact hd.2
  | putItem now id body =>
    obtain ⟨rows, seq, h, -⟩ := replaceItem_effect now id body st
    refine ⟨rows_replace (fun r => ∃ v, JSON_parse (toJs r.seasons) = some v) now id body st
      hd.1 hc (fun seasons _ _ _ => ⟨seasons, JSON_parse_stringify seasons⟩), ?_⟩
    show ∀ r ∈ (replaceItem now id body st).1.inspirations, _
    rw [h]; exact hd.2
  | dropItem id =>
    obtain ⟨rows, seq, h, -⟩ := deleteItem_effect id st
    constructor
    · show ∀ r ∈ (deleteItem id st).1.items, _
      rcases deleteItem_shape id st with h1 | h1
      · rw [h1]; exact hd.1
      · rw [h1]
        intro r hr
        exact hd.1 r (List.mem_of_mem_filter hr)
    · show ∀ r ∈ (deleteItem id st).1.inspirations, _
      rw [h]; exact hd.2
  | postItems now body =>
    obtain ⟨rows, seq, h, -⟩ := batchItems_effect now body st
    refine ⟨rows_batch (fun r => ∃ v, JSON_parse (toJs r.seasons) = some v)
      (fun _ => True) now body st (fun _ _ _ _ _ => ⟨_, JSON_parse_stringify _⟩) ?_ hd.1, ?_⟩
    · intro items hitems x hx
      simp only [plainCall, hitems, List.all_eq_true] at hc
      have hx0 := hc x hx
      match x, hx0 with
      | .obj rec, hx0 => exact ⟨rec, rfl, hx0, trivial⟩
    · show ∀ r ∈ (batchItems now body st).1.inspirations, _
      rw [h]; exact hd.2
  | postOutfit now body =>
    obtain ⟨rows, seq, h, -⟩ := createOutfit_effect now body st
    show Decodable (createOutfit now body st).1
    rw [h]; exact hd
  | putOutfit now id body =>
    obtain ⟨rows, seq, h, -⟩ := replaceOutfit_effect now id body st
    show Decodable (replaceOutfit now id body st).1
    rw [h]; exact hd
  | dropOutfit id =>
    obtain ⟨rows, seq, h, -⟩ := deleteOutfit_effect id st
    show Decodable (deleteOutfit id st).1
    rw [h]; exact hd
  | postOutfits now body =>
    obtain ⟨rows, seq, h, -⟩ := batchOutfits_effect now body st
    show Decodable (batchOutfits now body st).1
    rw [h]; exact hd
  | postInspiration now body =>
    obtain ⟨rows, seq, h, -⟩ := createInspiration_effect now body st
    refine ⟨?_, looks_create now body st hd.2 hc⟩
    show ∀ r ∈ (createInspiration now body st).1.items, _
    rw [h]; exact hd.1
  | putInspiration now id body =>
    obtain ⟨rows, seq, h, -⟩ := replaceInspiration_effect now id body st
    refine ⟨?_, looks_replace now id body st hd.2 hc⟩
    show ∀ r ∈ (replaceInspiration now id body st).1.items, _
    rw [h]; exact hd.1
  | dropInspiration id =>
    obtain ⟨rows, seq, h, -⟩ := deleteInspiration_effect id st
    constructor
    · show ∀ r ∈ (deleteInspiration id st).1.items, _
      rw [h]; exact hd.1
    · show ∀ r ∈ (deleteInspiration id st).1.inspirations, _
      rcases deleteInspiration_shape id st with h1 | h1
      · rw [h1]; exact hd.2
      · rw [h1]
        intro r hr
        exact hd.2 r (List.mem_of_mem_filter hr)
  | postInspirations now body =>
    obtain ⟨rows, seq, h, -⟩ := batchInspirations_effect now body st
    refine ⟨?_, looks_batch now body st hd.2 hc⟩
    show ∀ r ∈ (batchInspirations now body st).1.items, _
    rw [h]; exact hd.1

theorem decodable_runCalls : ∀ (calls : List Call) (st : Store), Decodable st →
    (∀ c ∈ calls, plainCall c = true) → Decodable (runCalls calls st)
  | [], _, hd, _ => hd
  | c :: rest, st, hd, hc =>
    decodable_runCalls rest (c.run st).1
      (decodable_run c st hd (hc c (List.mem_cons_self _ _)))
      (fun d hd => hc d (List.mem_cons_of_mem _ hd))

theorem reads_of_decodable (st : Store) (hd : Decodable st) :
    (∀ q, (listItems q st).status = 200) ∧
    (∀ id, (getItem id st).status = 200 ∨ (getItem id st).status = 404) ∧
    (listInspirations st).status = 200 ∧
    (∀ id, (getInspiration id st).status = 200 ∨ (getInspiration id st).status = 404) := by
  refine ⟨?_, ?_, ?_, ?_⟩
  · intro q
    obtain ⟨recs, h, -⟩ := listItems_decoded q st hd.1
    rw [h]
  · intro id
    unfold getItem
    cases hsel : selectItem id st with
    | none => exact Or.inr rfl
    | some r =>
      obtain ⟨v, hv⟩ := hd.1 r (List.mem_of_find?_eq_some hsel)
      simp only [hv, true_or]
  · obtain ⟨recs, h, -⟩ := listInspirations_decoded st hd.2
    rw [h]
  · intro id
    unfold getInspiration
    cases hsel : selectInspiration id st with
    | none => exact Or.inr rfl
    | some r =>
      obtain ⟨v, hv⟩ := hd.2 r (List.mem_of_find?_eq_some hsel)
      simp only [hv, true_or]

/-! ## Failure responses -/

theorem createOutfit_settled (now : String) (body : Body) (st : Store) :
    (createOutfit now body st).2.success = true ∨ (createOutfit now body st).1 = st := by
  unfold createOutfit
  simp only []
  split
  · exact Or.inr rfl
  · split
    · exact Or.inr rfl
    · split
      · exact Or.inr rfl
      · split <;> exact Or.inl rfl

theorem replaceOutfit_settled (now : String) (id : Nat) (body : Body) (st : Store) :
    (replaceOutfit now id body st).2.success = true ∨ (replaceOutfit now id body st).1 = st := by
  unfold replaceOutfit
  split
  · exact Or.inr rfl
  · split
    · exact Or.inr rfl
    · split
      · exact Or.inr rfl
      · split <;> exact Or.inl rfl

theorem deleteOutfit_settled (id : Nat) (st : Store) :
    (deleteOutfit id st).2.success = true ∨ (deleteOutfit id st).1 = st := by
  unfold deleteOutfit
  split
  · exact Or.inr rfl
  · exact Or.inl rfl

theorem batchOutfits_settled (now : String) (body : Body) (st : Store) :
    (batchOutfits now body st).2.success = true ∨ (batchOutfits now body st).1 = st := by
  unfold batchOutfits
  split
  · split
    · exact Or.inr rfl
    · exact Or.inl rfl
  · exact Or.inr rfl

theorem deleteItem_settled (id : Nat) (st : Store) :
    (deleteItem id st).2.success = true ∨ (deleteItem id st).1 = st := by
  unfold deleteItem
  split
  · exact Or.inr rfl
  · exact Or.inl rfl

theorem batchItems_settled (now : String) (body : Body) (st : Store) :
    (batchItems now body st).2.success = true ∨ (batchItems now body st).1 = st := by
  unfold batchItems
  split
  · split
    · exact Or.inr rfl
    · exact Or.inl rfl
  · exact Or.inr rfl

theorem deleteInspiration_settled (id : Nat) (st : Store) :
    (deleteInspiration id st).2.success = true ∨ (deleteInspiration id st).1 = st := by
  unfold deleteInspiration
  split
  · exact Or.inr rfl
  · exact Or.inl rfl

theorem batchInspirations_settled (now : String) (body : Body) (st : Store) :
    (batchInspirations now body st).2.success = true ∨
      (batchInspirations now body st).1 = st := by
  unfold batchInspirations
  split
  · split
    · exact Or.inr rfl
    · exact Or.inl rfl
  · exact Or.inr rfl

theorem createItem_settled (now : String) (body : Body) (st : Store)
    (hs : scalarItemFields body = true) :
    (createItem now body st).2.success = true ∨ (createItem now body st).1 = st := by
  cases hall : (truthy (getField "name" body) && truthy (getField "category" body)
      && truthy (getField "color" body)) with
  | false => exact Or.inr (createItem_rejected now body st hall)
  | true =>
    simp only [Bool.and_eq_true] at hall
    rw [createItem_scalar now body st hall.1.1 hall.1.2 hall.2 hs]
    exact Or.inl rfl

theorem replaceItem_settled (now : String) (id : Nat) (body : Body) (st : Store)
    (hs : scalarItemFields body = true) :
    (replaceItem now id body st).2.success = true ∨ (replaceItem now id body st).1 = st := by
  rcases replaceItem_scalar_required now id body st hs with h | ⟨seasons, hse, hn, hc, hl, _⟩
  · exact Or.inr h
  · cases hex : selectItem id st with
    | none => right; simp [replaceItem, hex]
    | some r0 =>
      rw [replaceItem_scalar now id body st r0 seasons hex hs hse hn hc hl]
      exact Or.inl rfl

theorem createInspiration_settled (now : String) (body : Body) (st : Store)
    (hs : scalarLookFields body = true) :
    (createInspiration now body st).2.success = true ∨
      (createInspiration now body st).1 = st := by
  simp only [scalarLookFields, Bool.and_eq_true] at hs
  cases ht : truthy (getField "title" body) with
  | false => right; simp [createInspiration, ht]
  | true =>
    cases hi : truthy (getField "image" body) with
    | false => right; simp [createInspiration, hi]
    | true =>
      rw [createInspiration_scalar now body st ht hi hs.1.1 hs.1.2 hs.2]
      exact Or.inl rfl

theorem updateInspiration_four (now : String) (id : Nat) (st : Store) (p1 p2 p3 p4 : SqlVal) :
    updateInspiration now [p1, p2, p3, p4] id st =
      if st.inspirations.any (fun r => r.id == id) ∧
          (textAffinity p1 = .null ∨ textAffinity p2 = .null) then none
      else some { st with inspirations := st.inspirations.map (fun r =>
        if r.id == id then
          { r with
            title := textAffinity p1, image := textAffinity p2,
            description := textAffinity p3, tags := textAffinity p4,
            updated_at := now }
        else r) } := rfl

theorem JSON_parse_bound (x : Option JVal) :
    ∃ v, JSON_parse (toJs (textAffinity (sqlOf (JSON_stringify x)))) = some v := by
  cases x with
  | none => exact ⟨.null, rfl⟩
  | some w => exact ⟨w, JSON_parse_stringify w⟩

theorem replaceInspiration_settled (now : String) (id : Nat) (body : Body) (st : Store)
    (hs : scalarLookFields body = true) :
    (replaceInspiration now id body st).2.success = true ∨
      (replaceInspiration now id body st).1 = st := by
  simp only [scalarLookFields, Bool.and_eq_true] at hs
  have hb := bind_look (getField "title" body) (getField "image" body)
    (getField "description" body) (getField "tags" body) hs.1.1 hs.1.2 hs.2
  cases hex : selectInspiration id st with
  | none => right; simp [replaceInspiration, hex]
  | some r0 =>
    by_cases hnull : st.inspirations.any (fun r => r.id == id) ∧
        (textAffinity (sqlOf (getField "title" body)) = .null ∨
          textAffinity (sqlOf (getField "image" body)) = .null)
    · right
      unfold replaceInspiration
      simp only [hex, hb]
      rw [updateInspiration_four, if_pos hnull]
    · left
      obtain ⟨v, hv⟩ := JSON_parse_bound (getField "tags" body)
      have hsel := find_map_update (fun r : InspirationRow => r.id)
        (fun r => { r with
            title := textAffinity (sqlOf (getField "title" body)),
            image := textAffinity (sqlOf (getField "image" body)),
            description := textAffinity (sqlOf (getField "description" body)),
            tags := textAffinity (sqlOf (JSON_stringify (getField "tags" body))),
            updated_at := now }) id (fun _ => rfl) st.inspirations
      unfold selectInspiration at hex
      rw [hex] at hsel
      unfold replaceInspiration
      simp only [selectInspiration, hex, hb]
      rw [updateInspiration_four, if_neg hnull]
      simp only [hsel, Option.map_some', hv]
      rfl

theorem call_settled (c : Call) (st : Store) (hc : scalarWrite c = true) :
    (c.run st).2.success = true ∨ (c.run st).1 = st := by
  cases c with
  | postItem now body => exact createItem_settled now body st hc
  | putItem now id body => exact replaceItem_settled now id body st hc
  | dropItem id => exact deleteItem_settled id st
  | postItems now body => exact batchItems_settled now body st
  | postOutfit now body => exact createOutfit_settled now body st
  | putOutfit now id body => exact replaceOutfit_settled now id body st
  | dropOutfit id => exact deleteOutfit_settled id st
  | postOutfits now body => exact batchOutfits_settled now body st
  | postInspiration now body => exact createInspiration_settled now body st hc
  | putInspiration now id body => exact replaceInspiration_settled now id body st hc
  | dropInspiration id => exact deleteInspiration_settled id st
  | postInspirations now body => exact batchInspirations_settled now body st

/-! ## Dates -/

theorem calendarDate_shape (cs : List Char) (h : isCalendarDate cs = true) :
    ∃ y1 y2 y3 y4 p m1 m2 q d1 d2, cs = [y1, y2, y3, y4, p, m1, m2, q, d1, d2] := by
  unfold isCalendarDate at h
  split at h
  · exact ⟨_, _, _, _, _, _, _, _, _, _, rfl⟩
  · cases h

theorem calendarDate_length (cs : List Char) (h : isCalendarDate cs = true) :
    cs.length = 10 := by
  obtain ⟨y1, y2, y3, y4, p, m1, m2, q, d1, d2, rfl⟩ := calendarDate_shape cs h
  rfl

theorem thisMonthOn_eq_beginsWith (today : String) (v : SqlVal)
    (htoday : isCalendarDate today.data = true) (hv : dateOrBlank v = true) :
    thisMonthOn today v = beginsWith (today.data.take 7) v := by
  have hlen := calendarDate_length _ htoday
  have htd : strftimeYearMonth (.text today) = some (today.data.take 7) := by
    simp only [strftimeYearMonth, htoday, if_true]
  have hpre : (today.data.take 7).length = 7 := by
    rw [List.length_take, hlen]; rfl
  cases v with
  | null => simp [thisMonthOn, strftimeYearMonth, beginsWith]
  | real n => simp [dateOrBlank] at hv
  | text s =>
    by_cases hs : isCalendarDate s.data = true
    · have hsv : strftimeYearMonth (.text s) = some (s.data.take 7) := by
        simp only [strftimeYearMonth, hs, if_true]
      simp only [thisMonthOn, htd, hsv, beginsWith]
      rw [Bool.eq_iff_iff, beq_iff_eq, List.isPrefixOf_iff_prefix, List.prefix_iff_eq_take,
        hpre]
      exact eq_comm
    · have hs' : isCalendarDate s.data = false := by simpa using hs
      have hempty : s = "" := by
        simp only [dateOrBlank, hs', Bool.or_false, decide_eq_true_eq] at hv
        exact hv
      subst hempty
      have hnil : ("" : String).data = [] := rfl
      have hsv : strftimeYearMonth (.text "") = none := by
        simp only [strftimeYearMonth, hs', Bool.false_eq_true, if_false]
      simp only [thisMonthOn, hsv, beginsWith, hnil]
      cases hc : today.data.take 7 with
      | nil => rw [hc] at hpre; cases hpre
      | cons c cs => rfl

/-! ## A replace and the read that follows -/

theorem find_map_keep {α : Type} (key : α → Nat) (f : α → α) (hf : ∀ r, key (f r) = key r)
    (id : Nat) : ∀ (rows : List α),
    (rows.map f).find? (fun r => key r == id) = (rows.find? (fun r => key r == id)).map f
  | [] => rfl
  | r :: rs => by
    simp only [List.map_cons, List.find?_cons, hf]
    cases key r == id with
    | true => rfl
    | false => exact find_map_keep key f hf id rs

/-- A successful `PUT /api/items/:id` and the `GET /api/items/:id` after it
answer with the same record, for any body. -/
theorem replaceItem_then_get (now : String) (id : Nat) (body : Body) (st : Store)
    (h : (replaceItem now id body st).2.status = 200) :
    (getItem id (replaceItem now id body st).1).status = 200 ∧
    (getItem id (replaceItem now id body st).1).data = (replaceItem now id body st).2.data := by
  revert h
  unfold replaceItem
  simp only []
  split
  · intro h; simp [failure] at h
  · split
    · intro h; simp [failure] at h
    · split
      · intro h; simp [failure] at h
      · split
        · intro h; simp [failure] at h
        · rename_i u hsel
          split
          · intro h; simp [failure] at h
          · rename_i v hp
            intro _
            simp only [getItem, hsel, hp, success]
            exact ⟨trivial, trivial⟩

/-- A successful `PUT /api/outfits/:id` and the `GET /api/outfits/:id` after it
answer with the same record, for any body. -/
theorem replaceOutfit_then_get (now : String) (id : Nat) (body : Body) (st : Store)
    (h : (replaceOutfit now id body st).2.status = 200) :
    (getOutfit id (replaceOutfit now id body st).1).status = 200 ∧
    (getOutfit id (replaceOutfit now id body st).1).data
      = (replaceOutfit now id body st).2.data := by
  revert h
  unfold replaceOutfit
  split
  · intro h; simp [failure] at h
  · rename_i r0 hex
    split
    · intro h; simp [failure] at h
    · split
      · intro h; simp [failure] at h
      · rename_i st1 hup
        obtain ⟨f, hf, hst1⟩ := updateOutfit_shape _ _ _ _ _ hup
        have hsel : selectOutfit id st1 = some (f r0) := by
          rw [hst1]
          unfold selectOutfit at hex ⊢
          rw [find_map_keep (fun r : OutfitRow => r.id) f hf id st.outfits, hex]
          rfl
        intro _
        simp only [getOutfit, hsel, success]
        exact ⟨trivial, trivial⟩

/-- A successful `PUT /api/inspirations/:id` and the `GET` after it answer with
the same record when the stored `tags` of the row is truthy, for any body. -/
theorem replaceInspiration_then_get (now : String) (id : Nat) (body : Body) (st : Store)
    (h : (replaceInspiration now id body st).2.status = 200)
    (htags : ∀ u, selectInspiration id (replaceInspiration now id body st).1 = some u →
      truthy (some (toJs u.tags)) = true) :
    (getInspiration id (replaceInspiration now id body st).1).status = 200 ∧
    (getInspiration id (replaceInspiration now id body st).1).data
      = (replaceInspiration now id body st).2.data := by
  revert h htags
  unfold replaceInspiration
  split
  · intro h; simp [failure] at h
  · split
    · intro h; simp [failure] at h
    · split
      · intro h; simp [failure] at h
      · split
        · intro h; simp [failure] at h
        · rename_i u hsel
          split
          · intro h; simp [failure] at h
          · rename_i v hp
            intro _ htags
            have ht := htags u hsel
            simp only [getInspiration, hsel, parseTags, ht, if_true, hp, success]
            exact ⟨trivial, trivial⟩

/-! ## The trend of the outfit statistics -/

theorem perm_insertBy {α : Type} (before : α → α → Bool) (x : α) :
    ∀ (l : List α), (insertBy before x l).Perm (x :: l)
  | [] => List.Perm.refl _
  | y :: ys => by
    unfold insertBy
    split
    · exact ((perm_insertBy before x ys).cons y).trans (List.Perm.swap x y ys)
    · exact List.Perm.refl _

theorem perm_orderBy {α : Type} (before : α → α → Bool) :
    ∀ (rows : List α), (orderBy before rows).Perm rows
  | [] => List.Perm.refl _
  | r :: rs => by
    have h : orderBy before (r :: rs) = insertBy before r (orderBy before rs) := rfl
    rw [h]
    exact (perm_insertBy before r _).trans ((perm_orderBy before rs).cons r)

theorem groupCountOutfits_keys (key : OutfitRow → SqlVal) (rows : List OutfitRow) :
    (groupCountOutfits key rows).map Prod.fst = (rows.map key).dedup := by
  simp only [groupCountOutfits, List.map_map]
  have : (Prod.fst ∘ fun v => (v, (rows.filter (fun r => decide (key r = v))).length))
      = (id : SqlVal → SqlVal) := rfl
  rw [this, List.map_id]

/-- The trend of `GET /api/outfit-statistics`: every entry has a date not below
`weekAgo` in the order of stored values and the number of records with that
date, which is at least 1; every date not below `weekAgo` that a record has is
there, once; the entries ascend by date. -/
theorem trend_spec (thisMonth : SqlVal → Bool) (weekAgo : String) (st : Store)
    (s : OutfitStatistics)
    (hs : outfitStatisticsOf (getOutfitStatistics thisMonth weekAgo st) = some s) :
    (∀ d n, (d, n) ∈ s.trend →
      sqlLt d (.text weekAgo) = false ∧ 1 ≤ n ∧
      n = (st.outfits.filter (fun r => decide (r.date = d))).length) ∧
    (s.trend.map Prod.fst).Nodup ∧
    (∀ r ∈ st.outfits, sqlLt r.date (.text weekAgo) = false →
      r.date ∈ s.trend.map Prod.fst) ∧
    s.trend.Pairwise (fun a b => sqlLt a.1 b.1 = true) := by
  have hs' : s.trend = orderBy (fun (a b : SqlVal × Nat) => sqlLt a.1 b.1)
      (groupCountOutfits (fun r => r.date)
        (st.outfits.filter (fun r => !sqlLt r.date (.text weekAgo)))) := by
    simp only [outfitStatisticsOf, getOutfitStatistics, Option.some.injEq] at hs
    rw [← hs]
  have hperm := perm_orderBy (fun (a b : SqlVal × Nat) => sqlLt a.1 b.1)
    (groupCountOutfits (fun r => r.date)
      (st.outfits.filter (fun r => !sqlLt r.date (.text weekAgo))))
  rw [← hs'] at hperm
  have hkeys := groupCountOutfits_keys (fun r => r.date)
    (st.outfits.filter (fun r => !sqlLt r.date (.text weekAgo)))
  have hnodup : (s.trend.map Prod.fst).Nodup := by
    rw [(hperm.map Prod.fst).nodup_iff, hkeys]
    exact List.nodup_dedup _
  refine ⟨?_, hnodup, ?_, ?_⟩
  · intro d n hmem
    have hmem' := hperm.mem_iff.mp hmem
    simp only [groupCountOutfits, List.mem_map, Prod.mk.injEq] at hmem'
    obtain ⟨w, hw, hwd, hn⟩ := hmem'
    subst hwd
    rw [List.mem_dedup, List.mem_map] at hw
    obtain ⟨r, hr, hrd⟩ := hw
    have hr' := List.mem_filter.mp hr
    have hge : sqlLt w (.text weekAgo) = false := by
      have := hr'.2
      rw [← hrd]
      simpa using this
    have hfilter : (st.outfits.filter (fun r => !sqlLt r.date (.text weekAgo))).filter
        (fun r => decide (r.date = w)) = st.outfits.filter (fun r => decide (r.date = w)) := by
      rw [List.filter_filter]
      apply List.filter_congr
      intro x _
      by_cases hx : x.date = w
      · simp [hx, hge]
      · simp [hx]
    rw [hfilter] at hn
    refine ⟨hge, ?_, hn.symm⟩
    rw [← hn]
    exact List.length_pos_of_mem (List.mem_filter.mpr ⟨hr'.1, by simpa using hrd⟩)
  · intro r hr hge
    rw [(hperm.map Prod.fst).mem_iff, hkeys, List.mem_dedup, List.mem_map]
    exact ⟨r, List.mem_filter.mpr ⟨hr, by simpa using hge⟩, rfl⟩
  · have hsorted := pairwise_orderBy (fun (a b : SqlVal × Nat) => sqlLt a.1 b.1)
      (fun a b h => sqlLt_asymm _ _ h)
      (fun a b c h => by
        have h' : sqlLt a.1 c.1 = true := h
        show sqlLt a.1 b.1 = true ∨ sqlLt b.1 c.1 = true
        cases hab : sqlLt a.1 b.1 with
        | true => exact Or.inl rfl
        | false =>
          right
          cases hba : sqlLt b.1 a.1 with
          | true => exact sqlLt_trans _ _ _ hba h'
          | false => rw [← sqlLt_total _ _ hab hba]; exact h')
      (groupCountOutfits (fun r => r.date)
        (st.outfits.filter (fun r => !sqlLt r.date (.text weekAgo))))
    rw [← hs'] at hsorted
    have hne : s.trend.Pairwise (fun a b => a.1 ≠ b.1) := by
      have := hnodup
      rw [List.Nodup, List.pairwise_map] at this
      exact this
    refine (hsorted.and hne).imp ?_
    intro a b ⟨h1, h2⟩
    cases hab : sqlLt a.1 b.1 with
    | true => rfl
    | false => exact absurd (sqlLt_total _ _ hab h1) h2

/-! ## Properties of the specification -/

/-- C1: when `POST /api/items` accepts a body (status 201), the response carries
a record, and an immediate `GET /api/items/:id` with the identifier of that
record answers 200 with a record equal to it in every field. -/
theorem create_then_get_item (now : String) (body : Body) (st : Store)
    (h : (createItem now body st).2.status = 201) :
    ∃ r, (createItem now body st).2.data = .item r ∧
      getItem r.id (createItem now body st).1 =
        { status := 200, success := true, message := none, data := .item r, count := none } := by
  obtain ⟨params, newItem, v, -, -, hsel, hp, hresp⟩ := createItem_accepted now body st h
  refine ⟨newItem.toRecord v, by rw [hresp]; rfl, ?_⟩
  show getItem newItem.id _ = _
  simp only [getItem, hsel, hp]

/-- The statement of C1 at a concrete input. -/
theorem create_then_get_item_witness :
    ∃ r, (createItem "2024-05-01 10:00:00" blueJacket Store.empty).2.data = .item r ∧
      getItem r.id (createItem "2024-05-01 10:00:00" blueJacket Store.empty).1 =
        { status := 200, success := true, message := none, data := .item r, count := none } :=
  create_then_get_item "2024-05-01 10:00:00" blueJacket Store.empty (by rfl)

/-- C2, as stated, fails: a body with non-empty strings as `name`, `category`
and `color` and without `brand`, `price`, `seasons` and `platform`, but with
the boolean `true` as `image`, is answered with status 500 (the binder rejects
a boolean), not 201. -/
theorem create_defaults_counterexample :
    isNonEmptyString (getField "name" blueJacketFlagged) = true ∧
    isNonEmptyString (getField "category" blueJacketFlagged) = true ∧
    isNonEmptyString (getField "color" blueJacketFlagged) = true ∧
    getField "brand" blueJacketFlagged = none ∧
    getField "price" blueJacketFlagged = none ∧
    getField "seasons" blueJacketFlagged = none ∧
    getField "platform" blueJacketFlagged = none ∧
    (createItem "2024-05-01 10:00:00" blueJacketFlagged Store.empty).2.status = 500 ∧
    (createItem "2024-05-01 10:00:00" blueJacketFlagged Store.empty).1 = Store.empty :=
  ⟨rfl, rfl, rfl, rfl, rfl, rfl, rfl, rfl, rfl⟩

/-- C2, amended: for every body of `POST /api/items` whose `name`, `category`
and `color` are non-empty strings, which omits `brand`, `price`, `seasons` and
`platform`, and whose `purchase_date`, `image` and `notes` are each absent,
`null`, a number or a string, the response has status 201 and the returned
record has brand '未知品牌', price 0, seasons ['all-season'] and platform
'未记录', and the supplied name, category and color. -/
theorem create_fills_defaults (now : String) (body : Body) (st : Store)
    (name category color : String)
    (hn : getField "name" body = some (.str name)) (hn0 : name ≠ "")
    (hc : getField "category" body = some (.str category)) (hc0 : category ≠ "")
    (hl : getField "color" body = some (.str color)) (hl0 : color ≠ "")
    (hbrand : getField "brand" body = none) (hprice : getField "price" body = none)
    (hseasons : getField "seasons" body = none) (hplatform : getField "platform" body = none)
    (hdate : isScalar (getField "purchase_date" body) = true)
    (himage : isScalar (getField "image" body) = true)
    (hnotes : isScalar (getField "notes" body) = true) :
    ∃ r, (createItem now body st).2 = success 201 "添加成功" (.item r) ∧
      (createItem now body st).2.status = 201 ∧
      r.brand = .text "未知品牌" ∧ r.price = .real 0 ∧
      r.seasons = .arr [.str "all-season"] ∧ r.platform = .text "未记录" ∧
      r.name = .text name ∧ r.category = .text category ∧ r.color = .text color := by
  have h := createItem_scalar now body st
    (by simp [hn, truthy, hn0]) (by simp [hc, truthy, hc0]) (by simp [hl, truthy, hl0])
    (by
      simp only [scalarItemFields, hn, hc, hl, hbrand, hprice, hplatform, hdate, himage,
        hnotes]
      rfl)
  rw [h]
  refine ⟨_, rfl, rfl, ?_, ?_, ?_, ?_, ?_, ?_, ?_⟩ <;>
    simp [ItemRow.toRecord, createdItemRow, hn, hc, hl, hbrand, hprice, hseasons, hplatform,
      sqlOf, textAffinity, numericAffinity]

/-- The statement of C2 at a concrete input. -/
theorem create_fills_defaults_witness :
    ∃ r, (createItem "2024-05-01 10:00:00" blueJacket Store.empty).2
        = success 201 "添加成功" (.item r) ∧
      (createItem "2024-05-01 10:00:00" blueJacket Store.empty).2.status = 201 ∧
      r.brand = .text "未知品牌" ∧ r.price = .real 0 ∧
      r.seasons = .arr [.str "all-season"] ∧ r.platform = .text "未记录" ∧
      r.name = .text "Blue Jacket" ∧ r.category = .text "outerwear" ∧ r.color = .text "blue" :=
  create_fills_defaults "2024-05-01 10:00:00" blueJacket Store.empty
    "Blue Jacket" "outerwear" "blue" rfl (by decide) rfl (by decide) rfl (by decide)
    rfl rfl rfl rfl rfl rfl rfl

/-- C3: for each of the three Create handlers, if a required field (items:
name, category, color; outfits: date, season, style, scene; inspirations:
title, image) is absent from the body, the response has status 400 with
success false and the store is unchanged, so no row is added to any table. -/
theorem create_missing_required (now : String) (body : Body) (st : Store) :
    ((getField "name" body = none ∨ getField "category" body = none ∨
        getField "color" body = none) →
      (createItem now body st).1 = st ∧ (createItem now body st).2.status = 400 ∧
        (createItem now body st).2.success = false) ∧
    ((getField "date" body = none ∨ getField "season" body = none ∨
        getField "style" body = none ∨ getField "scene" body = none) →
      (createOutfit now body st).1 = st ∧ (createOutfit now body st).2.status = 400 ∧
        (createOutfit now body st).2.success = false) ∧
    ((getField "title" body = none ∨ getField "image" body = none) →
      (createInspiration now body st).1 = st ∧
        (createInspiration now body st).2.status = 400 ∧
        (createInspiration now body st).2.success = false) := by
  refine ⟨?_, ?_, ?_⟩
  · intro h
    have : (!truthy (getField "name" body) || !truthy (getField "category" body)
        || !truthy (getField "color" body)) = true := by
      rcases h with h | h | h <;> simp [h, truthy]
    simp [createItem, this, failure]
  · intro h
    have : (!truthy (getField "date" body) || !truthy (getField "season" body)
        || !truthy (getField "style" body) || !truthy (getField "scene" body)) = true := by
      rcases h with h | h | h | h <;> simp [h, truthy]
    simp [createOutfit, this, failure]
  · intro h
    have : (!truthy (getField "title" body) || !truthy (getField "image" body)) = true := by
      rcases h with h | h <;> simp [h, truthy]
    simp [createInspiration, this, failure]

/-- The statement of C3 at a concrete input. -/
theorem create_missing_required_witness :
    ((createItem "2024-05-01 10:00:00" [("name", .str "Blue Jacket")] Store.empty).1
        = Store.empty ∧
      (createItem "2024-05-01 10:00:00" [("name", .str "Blue Jacket")] Store.empty).2.status
        = 400 ∧
      (createItem "2024-05-01 10:00:00" [("name", .str "Blue Jacket")] Store.empty).2.success
        = false) ∧
    ((createOutfit "2024-05-01 10:00:00" [("name", .str "Blue Jacket")] Store.empty).1
        = Store.empty ∧
      (createOutfit "2024-05-01 10:00:00" [("name", .str "Blue Jacket")] Store.empty).2.status
        = 400 ∧
      (createOutfit "2024-05-01 10:00:00" [("name", .str "Blue Jacket")] Store.empty).2.success
        = false) ∧
    ((createInspiration "2024-05-01 10:00:00" [("name", .str "Blue Jacket")] Store.empty).1
        = Store.empty ∧
      (createInspiration "2024-05-01 10:00:00" [("name", .str "Blue Jacket")]
        Store.empty).2.status = 400 ∧
      (createInspiration "2024-05-01 10:00:00" [("name", .str "Blue Jacket")]
        Store.empty).2.success = false) :=
  ⟨(create_missing_required "2024-05-01 10:00:00" [("name", .str "Blue Jacket")]
      Store.empty).1 (Or.inr (Or.inl rfl)),
    (create_missing_required "2024-05-01 10:00:00" [("name", .str "Blue Jacket")]
      Store.empty).2.1 (Or.inl rfl),
    (create_missing_required "2024-05-01 10:00:00" [("name", .str "Blue Jacket")]
      Store.empty).2.2 (Or.inl rfl)⟩

/-- C6: for each of the three resources and every store, a Replace (PUT) or a
Delete on an identifier that matches no stored row of the resource's table
returns status 404 with success false and leaves the whole store as it was;
in particular Replace creates no row. -/
theorem replace_delete_absent (now : String) (id : Nat) (body : Body) (st : Store) :
    ((∀ r ∈ st.items, r.id ≠ id) →
      (replaceItem now id body st).1 = st ∧ (replaceItem now id body st).2.status = 404 ∧
      (replaceItem now id body st).2.success = false ∧
      (deleteItem id st).1 = st ∧ (deleteItem id st).2.status = 404 ∧
      (deleteItem id st).2.success = false) ∧
    ((∀ r ∈ st.outfits, r.id ≠ id) →
      (replaceOutfit now id body st).1 = st ∧ (replaceOutfit now id body st).2.status = 404 ∧
      (replaceOutfit now id body st).2.success = false ∧
      (deleteOutfit id st).1 = st ∧ (deleteOutfit id st).2.status = 404 ∧
      (deleteOutfit id st).2.success = false) ∧
    ((∀ r ∈ st.inspirations, r.id ≠ id) →
      (replaceInspiration now id body st).1 = st ∧
      (replaceInspiration now id body st).2.status = 404 ∧
      (replaceInspiration now id body st).2.success = false ∧
      (deleteInspiration id st).1 = st ∧ (deleteInspiration id st).2.status = 404 ∧
      (deleteInspiration id st).2.success = false) := by
  refine ⟨?_, ?_, ?_⟩
  · intro h
    have hs : selectItem id st = none := find_none_of_absent (fun r : ItemRow => r.id) _ _ h
    simp [replaceItem, deleteItem, hs, failure]
  · intro h
    have hs : selectOutfit id st = none :=
      find_none_of_absent (fun r : OutfitRow => r.id) _ _ h
    simp [replaceOutfit, deleteOutfit, hs, failure]
  · intro h
    have hs : selectInspiration id st = none :=
      find_none_of_absent (fun r : InspirationRow => r.id) _ _ h
    simp [replaceInspiration, deleteInspiration, hs, failure]

/-- The statement of C6 at a concrete input. -/
theorem replace_delete_absent_witness :
    ((replaceItem "2024-05-02 09:00:00" 7 blueJacket oneJacket).1 = oneJacket ∧
      (replaceItem "2024-05-02 09:00:00" 7 blueJacket oneJacket).2.status = 404 ∧
      (replaceItem "2024-05-02 09:00:00" 7 blueJacket oneJacket).2.success = false ∧
      (deleteItem 7 oneJacket).1 = oneJacket ∧ (deleteItem 7 oneJacket).2.status = 404 ∧
      (deleteItem 7 oneJacket).2.success = false) ∧
    ((replaceOutfit "2024-05-02 09:00:00" 7 blueJacket oneJacket).1 = oneJacket ∧
      (replaceOutfit "2024-05-02 09:00:00" 7 blueJacket oneJacket).2.status = 404 ∧
      (replaceOutfit "2024-05-02 09:00:00" 7 blueJacket oneJacket).2.success = false ∧
      (deleteOutfit 7 oneJacket).1 = oneJacket ∧ (deleteOutfit 7 oneJacket).2.status = 404 ∧
      (deleteOutfit 7 oneJacket).2.success = false) ∧
    ((replaceInspiration "2024-05-02 09:00:00" 7 blueJacket oneJacket).1 = oneJacket ∧
      (replaceInspiration "2024-05-02 09:00:00" 7 blueJacket oneJacket).2.status = 404 ∧
      (replaceInspiration "2024-05-02 09:00:00" 7 blueJacket oneJacket).2.success = false ∧
      (deleteInspiration 7 oneJacket).1 = oneJacket ∧
      (deleteInspiration 7 oneJacket).2.status = 404 ∧
      (deleteInspiration 7 oneJacket).2.success = false) :=
  ⟨(replace_delete_absent "2024-05-02 09:00:00" 7 blueJacket oneJacket).1 (by decide),
    (replace_delete_absent "2024-05-02 09:00:00" 7 blueJacket oneJacket).2.1 (by decide),
    (replace_delete_absent "2024-05-02 09:00:00" 7 blueJacket oneJacket).2.2 (by decide)⟩

/-- C10, as stated, fails: `POST /api/items` accepts the example body with an
empty string as `brand` and stores the empty string, while the batch importer
stores '未知品牌' for the same record (its defaults replace every falsy value,
those of single Create only an absent one). -/
theorem batch_defaults_counterexample :
    (createItem "2024-05-01 10:00:00" blankBrand Store.empty).2.status = 201 ∧
    (createItem "2024-05-01 10:00:00" blankBrand Store.empty).1.items.map (fun r => r.brand)
      = [.text ""] ∧
    (batchItems "2024-05-01 10:00:00" [("items", .arr [.obj blankBrand])]
      Store.empty).2.status = 200 ∧
    (batchItems "2024-05-01 10:00:00" [("items", .arr [.obj blankBrand])]
      Store.empty).1.items.map (fun r => r.brand) = [.text "未知品牌"] :=
  ⟨rfl, rfl, rfl, rfl⟩

/-- C10, amended: for every item record that `POST /api/items` accepts in which
each of brand, price, seasons, notes and platform is absent or truthy (not
`null`, `0`, `false` or the empty string) and which has no truthy `purchaseDate`
property, importing that one record through `POST /api/items/batch` succeeds
and leaves the store exactly as `POST /api/items` leaves it: the stored row has
the same brand, price, seasons, notes and platform (and every other column). -/
theorem batch_same_as_create (now : String) (rec : Body) (st : Store)
    (hacc : (createItem now rec st).2.status = 201)
    (hbrand : absentOrTruthy (getField "brand" rec) = true)
    (hprice : absentOrTruthy (getField "price" rec) = true)
    (hseasons : absentOrTruthy (getField "seasons" rec) = true)
    (hnotes : absentOrTruthy (getField "notes" rec) = true)
    (hplatform : absentOrTruthy (getField "platform" rec) = true)
    (hdate : truthy (getField "purchaseDate" rec) = false) :
    (batchItems now [("items", .arr [.obj rec])] st).2.status = 200 ∧
    (batchItems now [("items", .arr [.obj rec])] st).1 = (createItem now rec st).1 := by
  obtain ⟨params, newItem, v, hb, hi, -, -, -⟩ := createItem_accepted now rec st hacc
  have hargs := itemBatchArgs_obj rec
  rw [orElse_eq_getD _ _ hbrand, orElse_eq_getD _ _ hprice, orElse_eq_getD _ _ hseasons,
    orElse_eq_getD _ _ hnotes, orElse_eq_getD _ _ hplatform, hdate] at hargs
  simp only [Bool.false_eq_true, if_false] at hargs
  have hmany : insertManyItems now [.obj rec] st = some (createItem now rec st).1 := by
    simp only [insertManyItems, hargs, hb, hi]
  simp [batchItems, getField, hmany, success]

/-- The statement of C10 at a concrete input. -/
theorem batch_same_as_create_witness :
    (batchItems "2024-05-01 10:00:00" [("items", .arr [.obj blueJacket])]
      Store.empty).2.status = 200 ∧
    (batchItems "2024-05-01 10:00:00" [("items", .arr [.obj blueJacket])] Store.empty).1
      = (createItem "2024-05-01 10:00:00" blueJacket Store.empty).1 :=
  batch_same_as_create "2024-05-01 10:00:00" blueJacket Store.empty
    (by rfl) rfl rfl rfl rfl rfl rfl

/-- C7, as stated, fails: on the store holding the example item with
identifier 1, `PUT /api/items/1` with the empty body does not succeed; the
NOT NULL columns reject the omitted fields, the response is 500 and the row
keeps its values instead of taking `null`. -/
theorem replace_stores_body_counterexample :
    (selectItem 1 oneJacket).isSome = true ∧
    (replaceItem "2024-05-02 09:00:00" 1 [] oneJacket).2.status = 500 ∧
    (replaceItem "2024-05-02 09:00:00" 1 [] oneJacket).1 = oneJacket ∧
    (selectItem 1 (replaceItem "2024-05-02 09:00:00" 1 [] oneJacket).1).map (fun r => r.name)
      = some (.text "Blue Jacket") :=
  ⟨rfl, rfl, rfl, rfl⟩

/-- C7, amended: for every existing item identifier and every Replace body
whose name, category and color are strings, whose seasons is present, whose
brand, purchase_date, image, notes and platform are each a string, `null` or
omitted and whose price is a number, `null` or omitted, `PUT /api/items/:id`
succeeds with status 200 and afterwards each updatable field of the stored row
equals the value supplied in the body (seasons as its JSON text, which decodes
to the supplied value), a field omitted from the body being stored as NULL. -/
theorem replace_stores_body (now : String) (id : Nat) (body : Body) (st : Store)
    (r0 : ItemRow) (name category color : String) (seasons : JVal)
    (hex : selectItem id st = some r0)
    (hn : getField "name" body = some (.str name))
    (hc : getField "category" body = some (.str category))
    (hl : getField "color" body = some (.str color))
    (hseasons : getField "seasons" body = some seasons)
    (hbrand : textOrNull (getField "brand" body) = true)
    (hprice : numberOrNull (getField "price" body) = true)
    (hdate : textOrNull (getField "purchase_date" body) = true)
    (himage : textOrNull (getField "image" body) = true)
    (hnotes : textOrNull (getField "notes" body) = true)
    (hplatform : textOrNull (getField "platform" body) = true) :
    (replaceItem now id body st).2.status = 200 ∧
    ∃ row, selectItem id (replaceItem now id body st).1 = some row ∧
      row.name = .text name ∧ row.category = .text category ∧ row.color = .text color ∧
      row.brand = sqlOf (getField "brand" body) ∧
      row.price = sqlOf (getField "price" body) ∧
      row.seasons = .text (String.mk (stringify seasons)) ∧
      JSON_parse (toJs row.seasons) = some seasons ∧
      row.purchase_date = sqlOf (getField "purchase_date" body) ∧
      row.image = sqlOf (getField "image" body) ∧
      row.notes = sqlOf (getField "notes" body) ∧
      row.platform = sqlOf (getField "platform" body) ∧
      sqlOf none = .null := by
  have hs : scalarItemFields body = true := by
    simp only [scalarItemFields, hn, hc, hl, isScalar_of_textOrNull _ hbrand,
      isScalar_of_numberOrNull _ hprice, isScalar_of_textOrNull _ hdate,
      isScalar_of_textOrNull _ himage, isScalar_of_textOrNull _ hnotes,
      isScalar_of_textOrNull _ hplatform]
    rfl
  have h := replaceItem_scalar now id body st r0 seasons hex hs hseasons
    (by simp [hn, sqlOf, textAffinity]) (by simp [hc, sqlOf, textAffinity])
    (by simp [hl, sqlOf, textAffinity])
  have hsel : selectItem id { st with items := st.items.map (fun r =>
        if r.id == id then replacedItemRow now body seasons r else r) }
      = some (replacedItemRow now body seasons r0) := by
    unfold selectItem at hex ⊢
    have := find_map_update (fun r : ItemRow => r.id) (replacedItemRow now body seasons) id
      (fun _ => rfl) st.items
    simp only at this ⊢
    rw [this, hex]; rfl
  rw [h]
  refine ⟨rfl, replacedItemRow now body seasons r0, hsel, ?_, ?_, ?_, ?_, ?_, rfl, ?_, ?_, ?_,
    ?_, ?_, rfl⟩
  · simp [replacedItemRow, hn, sqlOf, textAffinity]
  · simp [replacedItemRow, hc, sqlOf, textAffinity]
  · simp [replacedItemRow, hl, sqlOf, textAffinity]
  · exact textAffinity_textOrNull _ hbrand
  · exact numericAffinity_numberOrNull _ hprice
  · exact JSON_parse_stringify seasons
  · exact textAffinity_textOrNull _ hdate
  · exact textAffinity_textOrNull _ himage
  · exact textAffinity_textOrNull _ hnotes
  · exact textAffinity_textOrNull _ hplatform

/-- The statement of C7 at a concrete input. -/
theorem replace_stores_body_witness :
    (replaceItem "2024-05-02 09:00:00" 1 redCoat oneJacket).2.status = 200 ∧
    ∃ row, selectItem 1 (replaceItem "2024-05-02 09:00:00" 1 redCoat oneJacket).1 = some row ∧
      row.name = .text "Red Coat" ∧ row.category = .text "outerwear" ∧
      row.color = .text "red" ∧
      row.brand = sqlOf (getField "brand" redCoat) ∧
      row.price = sqlOf (getField "price" redCoat) ∧
      row.seasons = .text (String.mk (stringify (.arr [.str "winter"]))) ∧
      JSON_parse (toJs row.seasons) = some (.arr [.str "winter"]) ∧
      row.purchase_date = sqlOf (getField "purchase_date" redCoat) ∧
      row.image = sqlOf (getField "image" redCoat) ∧
      row.notes = sqlOf (getField "notes" redCoat) ∧
      row.platform = sqlOf (getField "platform" redCoat) ∧
      sqlOf none = .null :=
  replace_stores_body "2024-05-02 09:00:00" 1 redCoat oneJacket
    (createdItemRow "2024-05-01 10:00:00" blueJacket Store.empty)
    "Red Coat" "outerwear" "red" (.arr [.str "winter"])
    rfl rfl rfl rfl rfl rfl rfl rfl rfl rfl rfl

/-- C8, as stated, fails: the one-element batch whose record has no `category`
but carries the array ["coat", "outerwear", "red"] as `name` and empty arrays as
`color` and `image` is committed. The binder spreads an array argument over
consecutive parameters, so the ten parameters are filled and no NOT NULL
column is left empty: the table holds one row afterwards. -/
theorem batch_atomic_counterexample :
    propOf "category" spreadRecord = some none ∧
    (batchItems "2024-05-01 10:00:00" [("items", .arr [spreadRecord])]
      Store.empty).2.status = 200 ∧
    (batchItems "2024-05-01 10:00:00" [("items", .arr [spreadRecord])]
      Store.empty).1.items.length = 1 ∧
    (batchItems "2024-05-01 10:00:00" [("items", .arr [spreadRecord])]
      Store.empty).1.items.map (fun r => r.category) = [.text "outerwear"] :=
  ⟨rfl, rfl, rfl, rfl⟩

/-- C8, amended: for every non-empty array passed to `POST /api/items/batch`
in which at least one record lacks a required column (name, category or color)
and has no array or object as name, category or color, no row of the batch is
committed: the response is 500 and the store after the call equals the store
before it, whatever the position of that record in the array. -/
theorem batch_atomic (now : String) (body : Body) (st : Store) (items : List JVal)
    (bad : JVal) (hitems : getField "items" body = some (.arr items))
    (hmem : bad ∈ items) (hbad : lacksRequired bad = true) :
    (batchItems now body st).1 = st ∧ (batchItems now body st).2.status = 500 ∧
      (batchItems now body st).2.success = false := by
  have hfail := insertManyItems_fails now bad (insertOneItem_lacksRequired now bad hbad)
    items st hmem
  match items, hmem, hitems, hfail with
  | x :: xs, _, hitems, hfail =>
    simp [batchItems, hitems, hfail, failure]

/-- The statement of C8 at a concrete input. -/
theorem batch_atomic_witness :
    (batchItems "2024-05-01 10:00:00"
      [("items", .arr [.obj blueJacket, .obj [("name", .str "Scarf")]])] oneJacket).1
        = oneJacket ∧
    (batchItems "2024-05-01 10:00:00"
      [("items", .arr [.obj blueJacket, .obj [("name", .str "Scarf")]])] oneJacket).2.status
        = 500 ∧
    (batchItems "2024-05-01 10:00:00"
      [("items", .arr [.obj blueJacket, .obj [("name", .str "Scarf")]])] oneJacket).2.success
        = false :=
  batch_atomic "2024-05-01 10:00:00"
    [("items", .arr [.obj blueJacket, .obj [("name", .str "Scarf")]])] oneJacket
    [.obj blueJacket, .obj [("name", .str "Scarf")]] (.obj [("name", .str "Scarf")])
    rfl (by simp) rfl

/-- C9, as stated, fails: the one-element batch whose record has name, category
and color present (the example body) and the boolean `true` as `image` is
answered 500 and the row count stays as it was. -/
theorem batch_count_counterexample :
    (propOf "name" flaggedRecord = some (some (.str "Blue Jacket")) ∧
      propOf "category" flaggedRecord = some (some (.str "outerwear")) ∧
      propOf "color" flaggedRecord = some (some (.str "blue"))) ∧
    (batchItems "2024-05-01 10:00:00" [("items", .arr [flaggedRecord])]
      Store.empty).2.status = 500 ∧
    (batchItems "2024-05-01 10:00:00" [("items", .arr [flaggedRecord])]
      Store.empty).1.items.length = 0 :=
  ⟨⟨rfl, rfl, rfl⟩, rfl, rfl⟩

/-- C9, amended: for every non-empty array of N item records, each an object
whose name, category and color are strings and whose brand, price,
purchaseDate, purchase_date, image, notes and platform are each absent, `null`,
a number or a string, `POST /api/items/batch` returns success (status 200), the
item table afterwards is the table before followed by exactly N new rows (so
its row count grew by exactly N and every previously stored row is unchanged),
and the other two tables are unchanged. -/
theorem batch_count (now : String) (body : Body) (st : Store) (items : List JVal)
    (hitems : getField "items" body = some (.arr items)) (hne : items ≠ [])
    (hplain : ∀ x ∈ items, plainItemRecord x = true) :
    (batchItems now body st).2.status = 200 ∧ (batchItems now body st).2.success = true ∧
    (∃ rows, rows.length = items.length ∧
      (batchItems now body st).1.items = st.items ++ rows) ∧
    (batchItems now body st).1.items.length = st.items.length + items.length ∧
    (batchItems now body st).1.outfits = st.outfits ∧
    (batchItems now body st).1.inspirations = st.inspirations := by
  obtain ⟨rows, seq, hlen, hmany⟩ := insertManyItems_plain now items st hplain
  match items, hne, hitems, hmany, hlen with
  | x :: xs, _, hitems, hmany, hlen =>
    have hres : batchItems now body st =
        ({ st with items := st.items ++ rows, itemSeq := seq },
          success 200 ("成功导入 " ++ toString (x :: xs).length ++ " 条数据") .none) := by
      simp only [batchItems, hitems, hmany]
    rw [hres]
    exact ⟨rfl, rfl, ⟨rows, hlen, rfl⟩, by simp [hlen], rfl, rfl⟩

/-- The statement of C9 at a concrete input. -/
theorem batch_count_witness :
    (batchItems "2024-05-03 08:00:00" [("items", .arr [.obj blueJacket, .obj redCoat])]
      oneJacket).2.status = 200 ∧
    (batchItems "2024-05-03 08:00:00" [("items", .arr [.obj blueJacket, .obj redCoat])]
      oneJacket).2.success = true ∧
    (∃ rows, rows.length = [JVal.obj blueJacket, JVal.obj redCoat].length ∧
      (batchItems "2024-05-03 08:00:00" [("items", .arr [.obj blueJacket, .obj redCoat])]
        oneJacket).1.items = oneJacket.items ++ rows) ∧
    (batchItems "2024-05-03 08:00:00" [("items", .arr [.obj blueJacket, .obj redCoat])]
      oneJacket).1.items.length
        = oneJacket.items.length + [JVal.obj blueJacket, JVal.obj redCoat].length ∧
    (batchItems "2024-05-03 08:00:00" [("items", .arr [.obj blueJacket, .obj redCoat])]
      oneJacket).1.outfits = oneJacket.outfits ∧
    (batchItems "2024-05-03 08:00:00" [("items", .arr [.obj blueJacket, .obj redCoat])]
      oneJacket).1.inspirations = oneJacket.inspirations :=
  batch_count "2024-05-03 08:00:00" [("items", .arr [.obj blueJacket, .obj redCoat])]
    oneJacket [.obj blueJacket, .obj redCoat] rfl (by simp)
    (by
      intro x hx
      simp only [List.mem_cons, List.mem_singleton, List.not_mem_nil, or_false] at hx
      rcases hx with rfl | rfl <;> rfl)

/-- C5, as stated, fails: `POST /api/items` with `shiftedBody`, whose `seasons`
is the list `['spring']`, is answered 201 with seasons `['x']`, and Get-by-id
returns `['x']` as well; and after `POST /api/items` with seasons `['spring']`
on the store that holds an undecodable row (answered 201), the List is answered
500. -/
theorem seasons_tags_roundtrip_counterexample :
    getField "seasons" shiftedBody = some (.arr (["spring"].map .str)) ∧
    (createItem "2024-05-01 10:00:00" shiftedBody Store.empty).2.status = 201 ∧
    (itemOf (createItem "2024-05-01 10:00:00" shiftedBody Store.empty).2).map
      (fun r => r.seasons) = some (.arr [.str "x"]) ∧
    (itemOf (getItem 1 (createItem "2024-05-01 10:00:00" shiftedBody Store.empty).1)).map
      (fun r => r.seasons) = some (.arr [.str "x"]) ∧
    (createItem "2024-05-02 10:00:00" springJacket garbledStore).2.status = 201 ∧
    (listItems noFilter
      (createItem "2024-05-02 10:00:00" springJacket garbledStore).1).status = 500 := by
  refine ⟨rfl, by decide, rfl, rfl, by decide, by decide!⟩

/-- C5, amended: for every list of strings L, creating an item with seasons = L (with
truthy scalar name, category and color and scalar other fields) is answered 201
with seasons equal to L, Get-by-id of the new identifier returns seasons equal
to L, and, the stored rows being decodable, the unfiltered List returns the
record of that identifier, with seasons equal to L: the same strings in the
same order. The same holds for an inspiration created with tags = L. -/
theorem seasons_tags_roundtrip (L : List String) (now : String) (body : Body) (st : Store) :
    (truthy (getField "name" body) = true → truthy (getField "category" body) = true →
      truthy (getField "color" body) = true → scalarItemFields body = true →
      getField "seasons" body = some (.arr (L.map .str)) →
      ∃ r, (createItem now body st).2.status = 201 ∧
        (createItem now body st).2.data = .item r ∧ r.seasons = .arr (L.map .str) ∧
        (∃ g, getItem r.id (createItem now body st).1 =
            { status := 200, success := true, message := none, data := .item g,
              count := none } ∧ g.seasons = .arr (L.map .str)) ∧
        ((∀ x ∈ st.items, ∃ v, JSON_parse (toJs x.seasons) = some v) →
          ∃ gs, listItems noFilter (createItem now body st).1 =
              { status := 200, success := true, message := none, data := .items gs,
                count := some gs.length } ∧
            (∃ g ∈ gs, g.id = r.id) ∧ ∀ g ∈ gs, g.id = r.id → g.seasons = .arr (L.map .str))) ∧
    (truthy (getField "title" body) = true → truthy (getField "image" body) = true →
      isScalar (getField "title" body) = true → isScalar (getField "image" body) = true →
      isScalar (getField "description" body) = true →
      getField "tags" body = some (.arr (L.map .str)) →
      ∃ r, (createInspiration now body st).2.status = 201 ∧
        (createInspiration now body st).2.data = .inspiration r ∧
        r.tags = .arr (L.map .str) ∧
        (∃ g, getInspiration r.id (createInspiration now body st).1 =
            { status := 200, success := true, message := none, data := .inspiration g,
              count := none } ∧ g.tags = .arr (L.map .str)) ∧
        ((∀ x ∈ st.inspirations, ∃ v, parseTags x.tags = some v) →
          ∃ gs, listInspirations (createInspiration now body st).1 =
              { status := 200, success := true, message := none, data := .inspirations gs,
                count := some gs.length } ∧
            (∃ g ∈ gs, g.id = r.id) ∧ ∀ g ∈ gs, g.id = r.id → g.tags = .arr (L.map .str))) := by
  constructor
  · intro hn hc hl hs hseasons
    have hres := createItem_scalar now body st hn hc hl hs
    have hrow : (createdItemRow now body st).seasons
        = .text (String.mk (stringify (.arr (L.map .str)))) := by
      simp [createdItemRow, hseasons]
    have hdec : JSON_parse (toJs (createdItemRow now body st).seasons)
        = some (.arr (L.map .str)) := by
      rw [hrow]; exact JSON_parse_stringify _
    have hsel := selectItem_append_fresh st (createdItemRow now body st)
      (createdItemRow now body st).id rfl
    rw [hres, hseasons]
    refine ⟨_, rfl, rfl, rfl,
      ⟨(createdItemRow now body st).toRecord (.arr (L.map .str)), ?_, rfl⟩, ?_⟩
    · show getItem (createdItemRow now body st).id _ = _
      simp only [getItem, hsel, hdec, Option.getD_some]
    · intro hst
      obtain ⟨gs, hlist, hall⟩ := listItems_decoded noFilter
        { st with items := st.items ++ [createdItemRow now body st],
                  itemSeq := (createdItemRow now body st).id }
        (by
          intro x hx
          rcases List.mem_append.mp hx with hx | hx
          · exact hst x hx
          · rw [List.mem_singleton.mp hx]; exact ⟨_, hdec⟩)
      refine ⟨gs, hlist, ?_, ?_⟩
      · have hmem : createdItemRow now body st ∈
            orderBy (fun a b => decide (b.created_at < a.created_at))
              ((st.items ++ [createdItemRow now body st]).filter (itemMatches noFilter)) := by
          rw [mem_orderBy, List.mem_filter]
          exact ⟨by simp, rfl⟩
        obtain ⟨g, hg, v, -, hgv⟩ := forall₂_mem_left hall _ hmem
        exact ⟨g, hg, by rw [hgv]; rfl⟩
      · intro g hg hid
        obtain ⟨x, hx, v, hv, hgv⟩ := forall₂_mem_right hall g hg
        rw [mem_orderBy] at hx
        have hx := List.mem_of_mem_filter hx
        have hxid : x.id = (createdItemRow now body st).id := by
          rw [hgv] at hid; exact hid
        rcases List.mem_append.mp hx with hx | hx
        · have := lt_nextId st.itemSeq (st.items.map (fun r => r.id)) x.id
            (List.mem_map_of_mem _ hx)
          have h2 : (createdItemRow now body st).id
              = nextId st.itemSeq (st.items.map (fun r => r.id)) := rfl
          omega
        · rw [List.mem_singleton.mp hx, hdec] at hv
          rw [hgv, ← Option.some.inj hv]; rfl
  · intro ht hi s1 s2 s3 htags
    have hres := createInspiration_scalar now body st ht hi s1 s2 s3
    have hrow : (createdInspirationRow now body st).tags
        = .text (String.mk (stringify (.arr (L.map .str)))) := by
      simp [createdInspirationRow, htags]
    have hdec : parseTags (createdInspirationRow now body st).tags
        = some (.arr (L.map .str)) := by
      rw [hrow]; exact parseTags_stringify _
    have hsel := selectInspiration_append_fresh st (createdInspirationRow now body st)
      (createdInspirationRow now body st).id rfl
    rw [hres, htags]
    refine ⟨_, rfl, rfl, rfl,
      ⟨(createdInspirationRow now body st).toRecord (.arr (L.map .str)), ?_, rfl⟩, ?_⟩
    · show getInspiration (createdInspirationRow now body st).id _ = _
      simp only [getInspiration, hsel, hdec, Option.getD_some]
    · intro hst
      obtain ⟨gs, hlist, hall⟩ := listInspirations_decoded
        { st with inspirations := st.inspirations ++ [createdInspirationRow now body st],
                  inspirationSeq := (createdInspirationRow now body st).id }
        (by
          intro x hx
          rcases List.mem_append.mp hx with hx | hx
          · exact hst x hx
          · rw [List.mem_singleton.mp hx]; exact ⟨_, hdec⟩)
      refine ⟨gs, hlist, ?_, ?_⟩
      · have hmem : createdInspirationRow now body st ∈
            orderBy (fun a b => decide (b.created_at < a.created_at))
              (st.inspirations ++ [createdInspirationRow now body st]) := by
          rw [mem_orderBy]
          simp
        obtain ⟨g, hg, v, -, hgv⟩ := forall₂_mem_left hall _ hmem
        exact ⟨g, hg, by rw [hgv]; rfl⟩
      · intro g hg hid
        obtain ⟨x, hx, v, hv, hgv⟩ := forall₂_mem_right hall g hg
        rw [mem_orderBy] at hx
        have hxid : x.id = (createdInspirationRow now body st).id := by
          rw [hgv] at hid; exact hid
        rcases List.mem_append.mp hx with hx | hx
        · have := lt_nextId st.inspirationSeq (st.inspirations.map (fun r => r.id)) x.id
            (List.mem_map_of_mem _ hx)
          have h2 : (createdInspirationRow now body st).id
              = nextId st.inspirationSeq (st.inspirations.map (fun r => r.id)) := rfl
          omega
        · rw [List.mem_singleton.mp hx, hdec] at hv
          rw [hgv, ← Option.some.inj hv]; rfl

/-- The statement of C5 at a concrete input. -/
theorem seasons_tags_roundtrip_witness :
    (∃ r, (createItem "2024-05-04 12:00:00" springCoat oneJacket).2.status = 201 ∧
        (createItem "2024-05-04 12:00:00" springCoat oneJacket).2.data = .item r ∧
        r.seasons = .arr (["spring", "autumn"].map .str) ∧
        (∃ g, getItem r.id (createItem "2024-05-04 12:00:00" springCoat oneJacket).1 =
            { status := 200, success := true, message := none, data := .item g,
              count := none } ∧ g.seasons = .arr (["spring", "autumn"].map .str)) ∧
        (∃ gs, listItems noFilter (createItem "2024-05-04 12:00:00" springCoat oneJacket).1 =
              { status := 200, success := true, message := none, data := .items gs,
                count := some gs.length } ∧
            (∃ g ∈ gs, g.id = r.id) ∧
            ∀ g ∈ gs, g.id = r.id → g.seasons = .arr (["spring", "autumn"].map .str))) ∧
    (∃ r, (createInspiration "2024-05-04 12:00:00" streetLook oneJacket).2.status = 201 ∧
        (createInspiration "2024-05-04 12:00:00" streetLook oneJacket).2.data
          = .inspiration r ∧
        r.tags = .arr (["casual", "denim"].map .str) ∧
        (∃ g, getInspiration r.id
            (createInspiration "2024-05-04 12:00:00" streetLook oneJacket).1 =
            { status := 200, success := true, message := none, data := .inspiration g,
              count := none } ∧ g.tags = .arr (["casual", "denim"].map .str)) ∧
        (∃ gs, listInspirations
              (createInspiration "2024-05-04 12:00:00" streetLook oneJacket).1 =
              { status := 200, success := true, message := none, data := .inspirations gs,
                count := some gs.length } ∧
            (∃ g ∈ gs, g.id = r.id) ∧
            ∀ g ∈ gs, g.id = r.id → g.tags = .arr (["casual", "denim"].map .str))) := by
  obtain ⟨r, h1, h2, h3, h4, h5⟩ :=
    (seasons_tags_roundtrip ["spring", "autumn"] "2024-05-04 12:00:00" springCoat
      oneJacket).1 rfl rfl rfl rfl rfl
  obtain ⟨t, k1, k2, k3, k4, k5⟩ :=
    (seasons_tags_roundtrip ["casual", "denim"] "2024-05-04 12:00:00" streetLook
      oneJacket).2 rfl rfl rfl rfl rfl rfl
  have hdec : ∀ x ∈ oneJacket.items, ∃ v, JSON_parse (toJs x.seasons) = some v := by
    intro x hx
    have hx1 : x ∈ [createdItemRow "2024-05-01 10:00:00" blueJacket Store.empty] := hx
    rw [List.mem_singleton.mp hx1]
    exact ⟨_, rfl⟩
  have hdec2 : ∀ x ∈ oneJacket.inspirations, ∃ v, parseTags x.tags = some v := by
    intro x hx
    cases hx
  exact ⟨⟨r, h1, h2, h3, h4, h5 hdec⟩, ⟨t, k1, k2, k3, k4, k5 hdec2⟩⟩

/-- C4, as stated, fails: from the empty store, `POST /api/items` with the
example body and `seasons: []` is answered 201 and stores a row whose seasons
text decodes to the empty list. -/
theorem seasons_nonempty_counterexample :
    (createItem "2024-05-01 10:00:00" noSeasons Store.empty).2.status = 201 ∧
    (runItemCalls [.create "2024-05-01 10:00:00" noSeasons] Store.empty).items.map
      (fun r => JSON_parse (toJs r.seasons)) = [some (.arr [])] :=
  ⟨rfl, rfl⟩

/-- C4, amended: in every store reachable from the empty store by a sequence of
item Create, Replace and Batch-Create calls in which every body (for a batch,
every record) has scalar column values and a `seasons` value that is either
omitted or a non-empty array of strings, the seasons field of every stored item
decodes to a non-empty list of season tags. -/
theorem seasons_nonempty (calls : List ItemCall)
    (h : ∀ c ∈ calls, taggedCall c = true) :
    ∀ r ∈ (runItemCalls calls Store.empty).items,
      ∃ v, JSON_parse (toJs r.seasons) = some v ∧ isTagList v = true :=
  tagged_runCalls calls Store.empty (fun r hr => by cases hr) h

/-- The statement of C4 at a concrete input. -/
theorem seasons_nonempty_witness :
    ∃ v, JSON_parse (toJs trenchRow.seasons) = some v ∧ isTagList v = true :=
  seasons_nonempty threeCalls
    (by
      intro c hc
      simp only [threeCalls, List.mem_cons, List.mem_singleton, List.not_mem_nil,
        or_false] at hc
      rcases hc with rfl | rfl | rfl <;> rfl)
    trenchRow (by decide)

/-- C11, as stated, fails: a batch record whose only purchase-date spelling is
`purchaseDate` with the empty string as value (what the legacy client stores
for a blank date) is imported with NULL as `purchase_date`, not with the
record's `purchaseDate` value. -/
theorem batch_purchase_date_counterexample :
    getField "purchaseDate" undatedJacket = some (.str "") ∧
    getField "purchase_date" undatedJacket = none ∧
    (batchItems "2024-05-01 10:00:00" [("items", .arr [.obj undatedJacket])]
      Store.empty).2.status = 200 ∧
    (batchItems "2024-05-01 10:00:00" [("items", .arr [.obj undatedJacket])]
      Store.empty).1.items.map (fun r => r.purchase_date) = [.null] :=
  ⟨rfl, rfl, rfl, rfl⟩

/-- C11, amended: for every record of an item batch whose records are objects
with strings as name, category and color and scalars in the other columns, the
stored purchase_date equals the record's `purchaseDate` value when only that
spelling is present and its value is a non-empty string, and equals the
record's `purchase_date` value when only that spelling is present and its value
is a string: both spellings populate the same stored column. The rows are
stored in the order of the records. -/
theorem batch_purchase_date (now : String) (body : Body) (st : Store) (items : List JVal)
    (hitems : getField "items" body = some (.arr items)) (hne : items ≠ [])
    (hplain : ∀ x ∈ items, plainItemRecord x = true) :
    ∃ rows, (batchItems now body st).1.items = st.items ++ rows ∧
      List.Forall₂ (fun (x : JVal) (row : ItemRow) => ∀ rec, x = .obj rec →
        (∀ d, getField "purchaseDate" rec = some (.str d) → d ≠ "" →
          getField "purchase_date" rec = none → row.purchase_date = .text d) ∧
        (∀ d, getField "purchaseDate" rec = none →
          getField "purchase_date" rec = some (.str d) → row.purchase_date = .text d))
        items rows := by
  obtain ⟨rows, seq, hmany, hall⟩ := insertManyItems_rows now items st hplain
  match items, hne, hitems, hmany, hall with
  | x :: xs, _, hitems, hmany, hall =>
    have hres : (batchItems now body st).1 =
        { st with items := st.items ++ rows, itemSeq := seq } := by
      simp only [batchItems, hitems, hmany]
    rw [hres]
    refine ⟨rows, rfl, ?_⟩
    refine List.Forall₂.imp ?_ hall
    intro y row hy rec hrec
    obtain ⟨rec1, s, hy1, hrow⟩ := hy
    rw [hy1] at hrec
    have hrec1 : rec1 = rec := by injection hrec
    subst hrec1
    constructor
    · intro d h1 hd h2
      have ht : truthy (some (JVal.str d)) = true := by simp [truthy, hd]
      rw [hrow]
      simp [batchItemRow, h1, ht, sqlOf, textAffinity]
    · intro d h1 h2
      rw [hrow]
      simp [batchItemRow, h1, h2, truthy, sqlOf, textAffinity]

/-- The statement of C11 at a concrete input. -/
theorem batch_purchase_date_witness :
    ∃ rows, (batchItems "2024-05-01 10:00:00"
        [("items", .arr [.obj legacyJacket, .obj datedJacket])] oneJacket).1.items
          = oneJacket.items ++ rows ∧
      List.Forall₂ (fun (x : JVal) (row : ItemRow) => ∀ rec, x = .obj rec →
        (∀ d, getField "purchaseDate" rec = some (.str d) → d ≠ "" →
          getField "purchase_date" rec = none → row.purchase_date = .text d) ∧
        (∀ d, getField "purchaseDate" rec = none →
          getField "purchase_date" rec = some (.str d) → row.purchase_date = .text d))
        [.obj legacyJacket, .obj datedJacket] rows :=
  batch_purchase_date "2024-05-01 10:00:00"
    [("items", .arr [.obj legacyJacket, .obj datedJacket])] oneJacket
    [.obj legacyJacket, .obj datedJacket] rfl (by simp)
    (by
      intro x hx
      simp only [List.mem_cons, List.mem_singleton, List.not_mem_nil, or_false] at hx
      rcases hx with rfl | rfl <;> rfl)

/-- C12, as stated, fails: in the store that the Create call with `garbledBody`
leaves behind, an item with category `outerwear` is stored, yet
`GET /api/items?category=outerwear` is answered 500 and returns no item: the
stored `seasons` text of that row does not decode. -/
theorem filter_category_counterexample :
    garbledStore.items.map (fun r => r.category) = [.text "outerwear"] ∧
    (listItems { category := some "outerwear", color := none, season := none, search := none }
      garbledStore).status = 500 ∧
    returnedItems (listItems
      { category := some "outerwear", color := none, season := none, search := none }
      garbledStore) = [] :=
  ⟨rfl, rfl, rfl⟩

/-- C12, amended: for every store in which every stored `seasons` text decodes
and every non-empty string X, `GET /api/items?category=X` answers 200 and
returns exactly the stored items whose category equals X: a record is returned
if and only if it is the record of a stored row with category X, and the number
of returned records is the number of such rows. -/
theorem filter_category (st : Store) (X : String) (hX : X ≠ "") (h : allDecode st = true) :
    (listItems { category := some X, color := none, season := none, search := none }
      st).status = 200 ∧
    (∀ g, g ∈ returnedItems (listItems
        { category := some X, color := none, season := none, search := none } st) ↔
      ∃ r ∈ st.items, r.category = .text X ∧ decodeRow r = some g) ∧
    (returnedItems (listItems
        { category := some X, color := none, season := none, search := none } st)).length
      = (st.items.filter (fun r => decide (r.category = .text X))).length := by
  obtain ⟨h1, -, -, h4, h5⟩ := listItems_members
    { category := some X, color := none, season := none, search := none } st h
  have hm : ∀ r : ItemRow, itemMatches
      { category := some X, color := none, season := none, search := none } r
        = decide (r.category = .text X) := by
    intro r
    simp [itemMatches, given, hX]
  refine ⟨h1, ?_, ?_⟩
  · intro g
    rw [h5]
    constructor
    · rintro ⟨r, hr, hmr, hd⟩
      rw [hm] at hmr
      exact ⟨r, hr, by simpa using hmr, hd⟩
    · rintro ⟨r, hr, hc, hd⟩
      exact ⟨r, hr, by rw [hm]; simpa using hc, hd⟩
  · rw [h4]
    congr 1
    exact List.filter_congr (fun r _ => hm r)

/-- The statement of C12 at a concrete input. -/
theorem filter_category_witness :
    (listItems { category := some "outerwear", color := none, season := none, search := none }
      oneJacket).status = 200 ∧
    (∀ g, g ∈ returnedItems (listItems
        { category := some "outerwear", color := none, season := none, search := none }
        oneJacket) ↔
      ∃ r ∈ oneJacket.items, r.category = .text "outerwear" ∧ decodeRow r = some g) ∧
    (returnedItems (listItems
        { category := some "outerwear", color := none, season := none, search := none }
        oneJacket)).length
      = (oneJacket.items.filter (fun r => decide (r.category = .text "outerwear"))).length :=
  filter_category oneJacket "outerwear" (by decide) (by rfl)

/-- C13 at a failing input: with one stored outfit of scene `party`,
`GET /api/outfits?scene=work` is answered 200 with that record, whose scene is
not `work`; the handler reads `season`, `style` and `search` only. -/
theorem list_outfits_scene_ignored :
    (createOutfit "2024-05-01 10:00:00" partyOutfit Store.empty).2.status = 201 ∧
    (listOutfits { season := none, style := none, scene := some "work", search := none }
      partyStore).status = 200 ∧
    (returnedOutfits (listOutfits
      { season := none, style := none, scene := some "work", search := none }
      partyStore)).map (fun r => r.scene) = [.text "party"] :=
  ⟨rfl, rfl, rfl⟩

/-- C14, as stated, fails: with one stored item whose seasons text is
`["summer"]`, `GET /api/items?season=SUMMER` returns that item, although its
seasons text does not contain `SUMMER` as a contiguous substring: `LIKE`
compares ASCII letters without regard to case. -/
theorem filter_season_counterexample :
    summerStore.items.map (fun r => r.seasons) = [.text "[\"summer\"]"] ∧
    ¬ List.IsInfix "SUMMER".data "[\"summer\"]".data ∧
    (listItems { category := none, color := none, season := some "SUMMER", search := none }
      summerStore).status = 200 ∧
    (returnedItems (listItems
      { category := none, color := none, season := some "SUMMER", search := none }
      summerStore)).map (fun g => g.seasons) = [.arr [.str "summer"]] :=
  ⟨rfl, by decide, rfl, rfl⟩

/-- C14, amended: for every store in which every stored `seasons` text decodes
and every non-empty season parameter s without the wildcards `%` and `_` and
without U+0000, `GET /api/items?season=s` answers 200 and returns exactly the
items whose stored encoded seasons text, read up to its first U+0000, contains s
as a contiguous substring up to the case of ASCII letters. -/
theorem filter_season (st : Store) (s : String) (hs : s ≠ "")
    (hw : literalTerm s.data = true) (h : allDecode st = true) :
    (listItems { category := none, color := none, season := some s, search := none }
      st).status = 200 ∧
    ∀ g, g ∈ returnedItems (listItems
        { category := none, color := none, season := some s, search := none } st) ↔
      ∃ r ∈ st.items, (∃ t, sqlText r.seasons = some t ∧ containsFold s.data t) ∧
        decodeRow r = some g := by
  obtain ⟨h1, -, -, -, h5⟩ := listItems_members
    { category := none, color := none, season := some s, search := none } st h
  have hm : ∀ r : ItemRow, itemMatches
      { category := none, color := none, season := some s, search := none } r
        = likeContains s r.seasons := by
    intro r
    simp [itemMatches, given, hs]
  refine ⟨h1, ?_⟩
  intro g
  rw [h5]
  constructor
  · rintro ⟨r, hr, hmr, hd⟩
    rw [hm] at hmr
    exact ⟨r, hr, (likeContains_iff s r.seasons hw).mp hmr, hd⟩
  · rintro ⟨r, hr, hc, hd⟩
    exact ⟨r, hr, by rw [hm]; exact (likeContains_iff s r.seasons hw).mpr hc, hd⟩

/-- The statement of C14 at a concrete input. -/
theorem filter_season_witness :
    (listItems { category := none, color := none, season := some "summer", search := none }
      summerStore).status = 200 ∧
    ∀ g, g ∈ returnedItems (listItems
        { category := none, color := none, season := some "summer", search := none }
        summerStore) ↔
      ∃ r ∈ summerStore.items,
        (∃ t, sqlText r.seasons = some t ∧ containsFold "summer".data t) ∧
        decodeRow r = some g :=
  filter_season summerStore "summer" (by decide) (by decide) (by rfl)

/-- C15, as stated, fails: with the example item stored (name `Blue Jacket`,
brand `未知品牌`, empty notes), `GET /api/items?search=B_ue` returns the item,
although `B_ue` occurs in none of the three fields, even ignoring letter case:
`_` is a wildcard of `LIKE`. -/
theorem search_counterexample :
    oneJacket.items.map (fun r => (r.name, r.brand, r.notes))
      = [(.text "Blue Jacket", .text "未知品牌", .text "")] ∧
    ¬ List.IsInfix ("B_ue".data.map lowerAscii) ("Blue Jacket".data.map lowerAscii) ∧
    ¬ List.IsInfix ("B_ue".data.map lowerAscii) ("未知品牌".data.map lowerAscii) ∧
    ¬ List.IsInfix ("B_ue".data.map lowerAscii) ("".data.map lowerAscii) ∧
    (listItems { category := none, color := none, season := none, search := some "B_ue" }
      oneJacket).status = 200 ∧
    (returnedItems (listItems
      { category := none, color := none, season := none, search := some "B_ue" }
      oneJacket)).map (fun g => g.name) = [.text "Blue Jacket"] :=
  ⟨rfl, by decide, by decide, by decide, rfl, rfl⟩

/-- C15, amended: for every non-empty search term t without the wildcards `%`
and `_` and without U+0000, `GET /api/items?search=t` returns, in a store whose
`seasons` texts decode, exactly the items for which t occurs, ignoring the case
of ASCII letters, as a substring of at least one of name, brand or notes, each
read up to its first U+0000; and `GET /api/outfits?search=t` returns exactly the
outfit records for which t so occurs in items or notes. -/
theorem search_filter (st : Store) (t : String) (ht : t ≠ "")
    (hw : literalTerm t.data = true) :
    (allDecode st = true →
      (listItems { category := none, color := none, season := none, search := some t }
        st).status = 200 ∧
      ∀ g, g ∈ returnedItems (listItems
          { category := none, color := none, season := none, search := some t } st) ↔
        ∃ r ∈ st.items,
          (∃ x, (sqlText r.name = some x ∨ sqlText r.brand = some x ∨
            sqlText r.notes = some x) ∧ containsFold t.data x) ∧
          decodeRow r = some g) ∧
    ((listOutfits { season := none, style := none, scene := none, search := some t }
        st).status = 200 ∧
      ∀ r, r ∈ returnedOutfits (listOutfits
          { season := none, style := none, scene := none, search := some t } st) ↔
        r ∈ st.outfits ∧
          ∃ x, (sqlText r.items = some x ∨ sqlText r.notes = some x) ∧
            containsFold t.data x) := by
  constructor
  · intro h
    obtain ⟨h1, -, -, -, h5⟩ := listItems_members
      { category := none, color := none, season := none, search := some t } st h
    have hm : ∀ r : ItemRow, itemMatches
        { category := none, color := none, season := none, search := some t } r = true ↔
          ∃ x, (sqlText r.name = some x ∨ sqlText r.brand = some x ∨
            sqlText r.notes = some x) ∧ containsFold t.data x := by
      intro r
      simp only [itemMatches, given, bne_iff_ne, ne_eq, ht, not_false_eq_true, decide_True,
        Bool.false_eq_true, if_false, if_true, Bool.true_and, Option.getD_some,
        Bool.or_eq_true, likeContains_iff t _ hw]
      constructor
      · rintro ((⟨x, hx, hc⟩ | ⟨x, hx, hc⟩) | ⟨x, hx, hc⟩)
        · exact ⟨x, Or.inl hx, hc⟩
        · exact ⟨x, Or.inr (Or.inl hx), hc⟩
        · exact ⟨x, Or.inr (Or.inr hx), hc⟩
      · rintro ⟨x, hx | hx | hx, hc⟩
        · exact Or.inl (Or.inl ⟨x, hx, hc⟩)
        · exact Or.inl (Or.inr ⟨x, hx, hc⟩)
        · exact Or.inr ⟨x, hx, hc⟩
    refine ⟨h1, ?_⟩
    intro g
    rw [h5]
    constructor
    · rintro ⟨r, hr, hmr, hd⟩
      exact ⟨r, hr, (hm r).mp hmr, hd⟩
    · rintro ⟨r, hr, hc, hd⟩
      exact ⟨r, hr, (hm r).mpr hc, hd⟩
  · refine ⟨rfl, ?_⟩
    intro r
    show r ∈ orderBy outfitBefore (st.outfits.filter (outfitMatches
      { season := none, style := none, scene := none, search := some t })) ↔ _
    rw [mem_orderBy, List.mem_filter]
    have hm : outfitMatches
        { season := none, style := none, scene := none, search := some t } r = true ↔
          ∃ x, (sqlText r.items = some x ∨ sqlText r.notes = some x) ∧
            containsFold t.data x := by
      simp only [outfitMatches, given, bne_iff_ne, ne_eq, ht, not_false_eq_true, decide_True,
        Bool.false_eq_true, if_false, if_true, Bool.true_and, Option.getD_some,
        Bool.or_eq_true, likeContains_iff t _ hw]
      constructor
      · rintro (⟨x, hx, hc⟩ | ⟨x, hx, hc⟩)
        · exact ⟨x, Or.inl hx, hc⟩
        · exact ⟨x, Or.inr hx, hc⟩
      · rintro ⟨x, hx | hx, hc⟩
        · exact Or.inl ⟨x, hx, hc⟩
        · exact Or.inr ⟨x, hx, hc⟩
    rw [hm]

/-- The statement of C15 at a concrete input. -/
theorem search_filter_witness :
    ((listItems { category := none, color := none, season := none, search := some "jacket" }
        oneJacket).status = 200 ∧
      ∀ g, g ∈ returnedItems (listItems
          { category := none, color := none, season := none, search := some "jacket" }
          oneJacket) ↔
        ∃ r ∈ oneJacket.items,
          (∃ x, (sqlText r.name = some x ∨ sqlText r.brand = some x ∨
            sqlText r.notes = some x) ∧ containsFold "jacket".data x) ∧
          decodeRow r = some g) ∧
    ((listOutfits { season := none, style := none, scene := none, search := some "jacket" }
        oneJacket).status = 200 ∧
      ∀ r, r ∈ returnedOutfits (listOutfits
          { season := none, style := none, scene := none, search := some "jacket" }
          oneJacket) ↔
        r ∈ oneJacket.outfits ∧
          ∃ x, (sqlText r.items = some x ∨ sqlText r.notes = some x) ∧
            containsFold "jacket".data x) :=
  ⟨(search_filter oneJacket "jacket" (by decide) (by decide)).1 (by rfl),
    (search_filter oneJacket "jacket" (by decide) (by decide)).2⟩

/-- C16, as stated, fails: in the store that the Create call with `garbledBody`
leaves behind one item is stored, yet `GET /api/items` without any parameter is
answered 500 and returns no item, not the set of all stored items. -/
theorem filter_conjunction_counterexample :
    garbledStore.items.length = 1 ∧
    (listItems noFilter garbledStore).status = 500 ∧
    returnedItems (listItems noFilter garbledStore) = [] :=
  ⟨rfl, rfl, rfl⟩

/-- C16, amended: for every store in which every stored `seasons` text decodes
(identifiers being pairwise distinct, as the primary key makes them) and every
combination of the parameters category, color, season and search, an item is
returned by `GET /api/items` if and only if it is returned when each present
parameter is supplied alone; with no parameter present the items returned are
all stored items. -/
theorem filter_conjunction (q : ItemQuery) (st : Store) (h : allDecode st = true)
    (hid : (st.items.map (fun r => r.id)).Nodup) :
    (∀ g, g ∈ returnedItems (listItems q st) ↔
      g ∈ returnedItems (listItems noFilter st) ∧
      (given q.category = true → g ∈ returnedItems (listItems (onlyCategory q) st)) ∧
      (given q.color = true → g ∈ returnedItems (listItems (onlyColor q) st)) ∧
      (given q.season = true → g ∈ returnedItems (listItems (onlySeason q) st)) ∧
      (given q.search = true → g ∈ returnedItems (listItems (onlySearch q) st))) ∧
    (∀ g, g ∈ returnedItems (listItems noFilter st) ↔
      ∃ r ∈ st.items, decodeRow r = some g) := by
  have hall := (listItems_members noFilter st h).2.2.2.2
  have hq := (listItems_members q st h).2.2.2.2
  have h1 := (listItems_members (onlyCategory q) st h).2.2.2.2
  have h2 := (listItems_members (onlyColor q) st h).2.2.2.2
  have h3 := (listItems_members (onlySeason q) st h).2.2.2.2
  have h4 := (listItems_members (onlySearch q) st h).2.2.2.2
  have same : ∀ (r1 r2 : ItemRow) (g : ItemRecord), r1 ∈ st.items → r2 ∈ st.items →
      decodeRow r1 = some g → decodeRow r2 = some g → r1 = r2 := by
    intro r1 r2 g m1 m2 d1 d2
    apply List.inj_on_of_nodup_map hid m1 m2
    show r1.id = r2.id
    rw [← decodeRow_id r1 g d1, ← decodeRow_id r2 g d2]
  constructor
  · intro g
    rw [hq, hall, h1, h2, h3, h4]
    constructor
    · rintro ⟨r, hr, hm, hd⟩
      rw [itemMatches_split] at hm
      simp only [Bool.and_eq_true] at hm
      exact ⟨⟨r, hr, rfl, hd⟩, fun _ => ⟨r, hr, hm.1.1.1, hd⟩,
        fun _ => ⟨r, hr, hm.1.1.2, hd⟩, fun _ => ⟨r, hr, hm.1.2, hd⟩,
        fun _ => ⟨r, hr, hm.2, hd⟩⟩
    · rintro ⟨⟨r, hr, -, hd⟩, c1, c2, c3, c4⟩
      refine ⟨r, hr, ?_, hd⟩
      obtain ⟨a1, a2, a3, a4⟩ := itemMatches_absent q r
      rw [itemMatches_split]
      simp only [Bool.and_eq_true]
      refine ⟨⟨⟨?_, ?_⟩, ?_⟩, ?_⟩
      · cases hg : given q.category with
        | false => exact a1 hg
        | true =>
          obtain ⟨r1, hr1, hm1, hd1⟩ := c1 hg
          rw [same r r1 g hr hr1 hd hd1]; exact hm1
      · cases hg : given q.color with
        | false => exact a2 hg
        | true =>
          obtain ⟨r1, hr1, hm1, hd1⟩ := c2 hg
          rw [same r r1 g hr hr1 hd hd1]; exact hm1
      · cases hg : given q.season with
        | false => exact a3 hg
        | true =>
          obtain ⟨r1, hr1, hm1, hd1⟩ := c3 hg
          rw [same r r1 g hr hr1 hd hd1]; exact hm1
      · cases hg : given q.search with
        | false => exact a4 hg
        | true =>
          obtain ⟨r1, hr1, hm1, hd1⟩ := c4 hg
          rw [same r r1 g hr hr1 hd hd1]; exact hm1
  · intro g
    rw [hall]
    constructor
    · rintro ⟨r, hr, -, hd⟩; exact ⟨r, hr, hd⟩
    · rintro ⟨r, hr, hd⟩; exact ⟨r, hr, rfl, hd⟩

/-- The statement of C16 at a concrete input. -/
theorem filter_conjunction_witness :
    (∀ g, g ∈ returnedItems (listItems blueOuterwear oneJacket) ↔
      g ∈ returnedItems (listItems noFilter oneJacket) ∧
      (given blueOuterwear.category = true →
        g ∈ returnedItems (listItems (onlyCategory blueOuterwear) oneJacket)) ∧
      (given blueOuterwear.color = true →
        g ∈ returnedItems (listItems (onlyColor blueOuterwear) oneJacket)) ∧
      (given blueOuterwear.season = true →
        g ∈ returnedItems (listItems (onlySeason blueOuterwear) oneJacket)) ∧
      (given blueOuterwear.search = true →
        g ∈ returnedItems (listItems (onlySearch blueOuterwear) oneJacket))) ∧
    (∀ g, g ∈ returnedItems (listItems noFilter oneJacket) ↔
      ∃ r ∈ oneJacket.items, decodeRow r = some g) :=
  filter_conjunction blueOuterwear oneJacket (by rfl) (by decide)

/-- C17: for every store and every filter, the list returned by
`GET /api/items` is ordered by created_at descending (no record is followed by
one with a later created_at), so is the list returned by
`GET /api/inspirations`, and the list returned by `GET /api/outfits` is ordered
by date descending, records of equal date being ordered by created_at
descending. -/
theorem list_ordering (qi : ItemQuery) (qo : OutfitQuery) (st : Store) :
    (returnedItems (listItems qi st)).Pairwise
      (fun a b => ¬ a.created_at < b.created_at) ∧
    (returnedInspirations (listInspirations st)).Pairwise
      (fun a b => ¬ a.created_at < b.created_at) ∧
    (returnedOutfits (listOutfits qo st)).Pairwise
      (fun a b => sqlLt a.date b.date = false ∧
        (a.date = b.date → ¬ a.created_at < b.created_at)) := by
  refine ⟨?_, ?_, ?_⟩
  · have hs := pairwise_orderBy
      (fun (a b : ItemRow) => decide (b.created_at < a.created_at))
      (fun a b h => createdDesc_asymm a.created_at b.created_at h)
      (fun a b c h => createdDesc_negTrans a.created_at b.created_at c.created_at h)
      (st.items.filter (itemMatches qi))
    cases hp : parseItems (orderBy (fun a b => decide (b.created_at < a.created_at))
        (st.items.filter (itemMatches qi))) with
    | none =>
      have : returnedItems (listItems qi st) = [] := by
        simp only [listItems, hp]; rfl
      rw [this]; exact List.Pairwise.nil
    | some gs =>
      have : returnedItems (listItems qi st) = gs := by
        simp only [listItems, hp]; rfl
      rw [this]
      refine pairwise_forall₂ ?_ (parseItems_some _ _ hp) hs
      intro a b c d hab hcd hR
      rw [hab, hcd]
      simpa using hR
  · have hs := pairwise_orderBy
      (fun (a b : InspirationRow) => decide (b.created_at < a.created_at))
      (fun a b h => createdDesc_asymm a.created_at b.created_at h)
      (fun a b c h => createdDesc_negTrans a.created_at b.created_at c.created_at h)
      st.inspirations
    cases hp : parseInspirations
        (orderBy (fun a b => decide (b.created_at < a.created_at)) st.inspirations) with
    | none =>
      have : returnedInspirations (listInspirations st) = [] := by
        simp only [listInspirations, hp]; rfl
      rw [this]; exact List.Pairwise.nil
    | some gs =>
      have : returnedInspirations (listInspirations st) = gs := by
        simp only [listInspirations, hp]; rfl
      rw [this]
      refine pairwise_forall₂ ?_ (parseInspirations_some _ _ hp) hs
      intro a b c d hab hcd hR
      rw [hab, hcd]
      simpa using hR
  · have hs := pairwise_orderBy outfitBefore outfitBefore_asymm outfitBefore_negTrans
      (st.outfits.filter (outfitMatches qo))
    show (orderBy outfitBefore (st.outfits.filter (outfitMatches qo))).Pairwise _
    refine List.Pairwise.imp ?_ hs
    intro a b h
    simp only [outfitBefore, Bool.or_eq_false_iff, Bool.and_eq_false_iff,
      decide_eq_false_iff_not] at h
    refine ⟨h.1, fun he => ?_⟩
    rcases h.2 with h2 | h2
    · exact absurd he.symm h2
    · exact h2

/-- C19: for every store, `categoryDistribution` (respectively
`colorDistribution`) of `GET /api/statistics` has exactly one entry for each
distinct category (color) value present among the stored items and none for an
absent value, each entry's count equals the number of stored items with that
value, and the counts sum to `total`. -/
theorem distribution_spec (thisMonth : SqlVal → Bool) (st : Store) :
    ∃ s, statisticsOf (getStatistics thisMonth st) = some s ∧
      ((s.categoryDistribution.map Prod.fst).Nodup ∧
        (∀ v, v ∈ s.categoryDistribution.map Prod.fst ↔ ∃ r ∈ st.items, r.category = v) ∧
        (∀ v n, (v, n) ∈ s.categoryDistribution →
          n = (st.items.filter (fun r => decide (r.category = v))).length) ∧
        (s.categoryDistribution.map Prod.snd).sum = s.total) ∧
      ((s.colorDistribution.map Prod.fst).Nodup ∧
        (∀ v, v ∈ s.colorDistribution.map Prod.fst ↔ ∃ r ∈ st.items, r.color = v) ∧
        (∀ v n, (v, n) ∈ s.colorDistribution →
          n = (st.items.filter (fun r => decide (r.color = v))).length) ∧
        (s.colorDistribution.map Prod.snd).sum = s.total) :=
  ⟨_, rfl, groupCount_spec (fun r => r.category) st.items,
    groupCount_spec (fun r => r.color) st.items⟩

/-- C20: for every store holding at least one item, `mostExpensive` of
`GET /api/statistics` carries the name and price of a stored item whose price
is not below the price of any stored item (in the order of stored values, which
on numbers is the numeric order); and after exactly two Creates on the empty
store with different numeric prices it is the one with the higher price, the
total being 2. -/
theorem most_expensive (thisMonth : SqlVal → Bool) :
    (∀ st : Store, st.items ≠ [] →
      ∃ s r, statisticsOf (getStatistics thisMonth st) = some s ∧ r ∈ st.items ∧
        s.mostExpensive = some (r.name, r.price) ∧
        (∀ x ∈ st.items, sqlLt r.price x.price = false) ∧
        (∀ x ∈ st.items, ∀ a b, r.price = .real a → x.price = .real b → b ≤ a)) ∧
    (∀ (now1 now2 : String) (body1 body2 : Body) (n1 n2 : String) (p1 p2 : Int),
      getField "name" body1 = some (.str n1) → n1 ≠ "" →
      getField "name" body2 = some (.str n2) → n2 ≠ "" →
      truthy (getField "category" body1) = true → truthy (getField "color" body1) = true →
      truthy (getField "category" body2) = true → truthy (getField "color" body2) = true →
      scalarItemFields body1 = true → scalarItemFields body2 = true →
      getField "price" body1 = some (.num p1) → getField "price" body2 = some (.num p2) →
      p1 ≠ p2 →
      ∃ s, statisticsOf (getStatistics thisMonth
          (createItem now2 body2 (createItem now1 body1 Store.empty).1).1) = some s ∧
        s.total = 2 ∧
        s.mostExpensive =
          some (if p2 < p1 then (.text n1, .real p1) else (.text n2, .real p2))) := by
  constructor
  · intro st hne
    obtain ⟨r, hr, hm, hall⟩ := mostExpensive_spec st.items hne
    refine ⟨_, r, rfl, hr, hm, hall, ?_⟩
    intro x hx a b ha hb
    have := hall x hx
    rw [ha, hb] at this
    simpa [sqlLt] using this
  · intro now1 now2 body1 body2 n1 n2 p1 p2 hn1 hn1' hn2 hn2' hc1 hl1 hc2 hl2 hs1 hs2
      hp1 hp2 hne
    have t1 : truthy (getField "name" body1) = true := by simp [hn1, truthy, hn1']
    have t2 : truthy (getField "name" body2) = true := by simp [hn2, truthy, hn2']
    rw [createItem_scalar now1 body1 Store.empty t1 hc1 hl1 hs1]
    rw [createItem_scalar now2 body2 _ t2 hc2 hl2 hs2]
    refine ⟨_, rfl, rfl, ?_⟩
    have e1 : (createdItemRow now1 body1 Store.empty).price = .real p1 := by
      simp [createdItemRow, hp1, sqlOf, numericAffinity]
    have e1n : (createdItemRow now1 body1 Store.empty).name = .text n1 := by
      simp [createdItemRow, hn1, sqlOf, textAffinity]
    generalize hst : ({ Store.empty with
        items := Store.empty.items ++ [createdItemRow now1 body1 Store.empty],
        itemSeq := (createdItemRow now1 body1 Store.empty).id } : Store) = st1
    have e2 : (createdItemRow now2 body2 st1).price = .real p2 := by
      simp [createdItemRow, hp2, sqlOf, numericAffinity]
    have e2n : (createdItemRow now2 body2 st1).name = .text n2 := by
      simp [createdItemRow, hn2, sqlOf, textAffinity]
    have hitems : st1.items = [createdItemRow now1 body1 Store.empty] := by
      rw [← hst]; rfl
    show mostExpensive (st1.items ++ [createdItemRow now2 body2 st1]) = _
    rw [hitems]
    simp only [mostExpensive, List.singleton_append, orderBy, List.foldr, insertBy, e1, e2,
      sqlLt]
    by_cases h : p2 < p1
    · have h' : ¬ p1 < p2 := by omega
      simp [h, h', e1, e1n]
    · have h' : p1 < p2 := by omega
      simp [h, h', e2, e2n]

/-- The statement of C20 at a concrete input. -/
theorem most_expensive_witness :
    (∃ s r, statisticsOf (getStatistics (fun _ => false) oneJacket) = some s ∧
        r ∈ oneJacket.items ∧
        s.mostExpensive = some (r.name, r.price) ∧
        (∀ x ∈ oneJacket.items, sqlLt r.price x.price = false) ∧
        (∀ x ∈ oneJacket.items, ∀ a b, r.price = .real a → x.price = .real b → b ≤ a)) ∧
    (∃ s, statisticsOf (getStatistics (fun _ => false)
          (createItem "2024-05-02 09:00:00" dearCoat
            (createItem "2024-05-01 10:00:00" cheapShirt Store.empty).1).1) = some s ∧
        s.total = 2 ∧
        s.mostExpensive =
          some (if (300 : Int) < 80 then (.text "Shirt", .real 80)
            else (.text "Coat", .real 300))) :=
  ⟨(most_expensive (fun _ => false)).1 oneJacket (by decide),
    (most_expensive (fun _ => false)).2 "2024-05-01 10:00:00" "2024-05-02 09:00:00"
      cheapShirt dearCoat "Shirt" "Coat" 80 300 rfl (by decide) rfl (by decide)
      rfl rfl rfl rfl rfl rfl rfl rfl (by decide)⟩

/-- C18, as stated, fails: after the single Create call with `garbledBody` on
the empty store, which is answered 500 and so is not a successful create, the
total reported by `GET /api/statistics` is 1, not 0, and the unfiltered
`GET /api/items` is answered 500 and reports no count. -/
theorem statistics_total_counterexample :
    (createItem "2024-05-01 10:00:00" garbledBody Store.empty).2.status = 500 ∧
    (runOps [.create "2024-05-01 10:00:00" garbledBody] Store.empty).2 = 0 ∧
    reportedTotal (fun _ => false)
      (runOps [.create "2024-05-01 10:00:00" garbledBody] Store.empty).1 = some 1 ∧
    (listItems noFilter
      (runOps [.create "2024-05-01 10:00:00" garbledBody] Store.empty).1).status = 500 ∧
    (listItems noFilter
      (runOps [.create "2024-05-01 10:00:00" garbledBody] Store.empty).1).count = none :=
  ⟨rfl, rfl, rfl, rfl, rfl⟩

/-- C18, amended: after any sequence of item Create, Batch-Create and Delete
calls starting from the empty store in which every body (for a batch, every
record) has scalar column values, the total reported by `GET /api/statistics`
equals the number of item rows currently stored, equals the successful single
creates plus the rows of the successful batches minus the successful deletes,
and is the count reported by an unfiltered `GET /api/items`. -/
theorem statistics_total (thisMonth : SqlVal → Bool) (ops : List ItemOp)
    (h : ∀ op ∈ ops, scalarOp op = true) :
    reportedTotal thisMonth (runOps ops Store.empty).1
      = some (runOps ops Store.empty).1.items.length ∧
    (((runOps ops Store.empty).1.items.length : Nat) : Int) = (runOps ops Store.empty).2 ∧
    (listItems noFilter (runOps ops Store.empty).1).status = 200 ∧
    (listItems noFilter (runOps ops Store.empty).1).count
      = some (runOps ops Store.empty).1.items.length := by
  have hw0 : WellFormed Store.empty :=
    ⟨fun r hr => absurd hr (List.not_mem_nil r), List.nodup_nil⟩
  obtain ⟨hw, hlen⟩ := runOps_count ops Store.empty hw0 h
  have hdec : allDecode (runOps ops Store.empty).1 = true := by
    simp only [allDecode, List.all_eq_true]
    intro r hr
    exact Option.isSome_iff_exists.mpr (hw.1 r hr)
  obtain ⟨h1, -, h3, h4, -⟩ := listItems_members noFilter (runOps ops Store.empty).1 hdec
  refine ⟨rfl, ?_, h1, ?_⟩
  · rw [hlen]
    simp [Store.empty]
  · rw [h3, h4]
    congr 2
    exact List.filter_eq_self.mpr (fun r _ => itemMatches_noFilter r)

/-- The statement of C18 at a concrete input. -/
theorem statistics_total_witness :
    reportedTotal (fun _ => false) (runOps fiveOps Store.empty).1
      = some (runOps fiveOps Store.empty).1.items.length ∧
    (((runOps fiveOps Store.empty).1.items.length : Nat) : Int)
      = (runOps fiveOps Store.empty).2 ∧
    (listItems noFilter (runOps fiveOps Store.empty).1).status = 200 ∧
    (listItems noFilter (runOps fiveOps Store.empty).1).count
      = some (runOps fiveOps Store.empty).1.items.length :=
  statistics_total (fun _ => false) fiveOps
    (by
      intro op hop
      simp only [fiveOps, List.mem_cons, List.mem_singleton, List.not_mem_nil,
        or_false] at hop
      rcases hop with rfl | rfl | rfl | rfl | rfl <;> rfl)
/-- C25, as stated, fails: the requests `?category=` and `?category=top` supply
the same parameter and build different texts, and so do `?season=` and
`?season=summer` on the outfits list: a parameter that is present with the empty
string as value adds no condition. -/
theorem query_text_counterexample :
    (categoryQuery "").category.isSome = (categoryQuery "top").category.isSome ∧
    (categoryQuery "").color.isSome = (categoryQuery "top").color.isSome ∧
    (categoryQuery "").season.isSome = (categoryQuery "top").season.isSome ∧
    (categoryQuery "").search.isSome = (categoryQuery "top").search.isSome ∧
    itemsQueryText (categoryQuery "")
      = "SELECT * FROM wardrobe_items WHERE 1=1 ORDER BY created_at DESC" ∧
    itemsQueryText (categoryQuery "top")
      = "SELECT * FROM wardrobe_items WHERE 1=1 AND category = ? ORDER BY created_at DESC" ∧
    itemsQueryText (categoryQuery "") ≠ itemsQueryText (categoryQuery "top") ∧
    (seasonQuery "").season.isSome = (seasonQuery "summer").season.isSome ∧
    (seasonQuery "").style.isSome = (seasonQuery "summer").style.isSome ∧
    (seasonQuery "").search.isSome = (seasonQuery "summer").search.isSome ∧
    outfitsQueryText (seasonQuery "") ≠ outfitsQueryText (seasonQuery "summer") := by
  refine ⟨rfl, rfl, rfl, rfl, by decide, by decide, by decide, rfl, rfl, rfl, by decide⟩

/-- C25, amended: the query text of `GET /api/items` and of `GET /api/outfits` is
the same for two requests in which the same parameters are non-empty strings,
whatever their values; the value of a non-empty parameter is an entry of the
list of bound parameters (for `season` and `search` between two `%`). -/
theorem query_text_by_presence (q q' : ItemQuery) (o o' : OutfitQuery) :
    ((given q.category = given q'.category ∧ given q.color = given q'.color ∧
        given q.season = given q'.season ∧ given q.search = given q'.search) →
      itemsQueryText q = itemsQueryText q') ∧
    ((given o.season = given o'.season ∧ given o.style = given o'.style ∧
        given o.search = given o'.search) →
      outfitsQueryText o = outfitsQueryText o') ∧
    (given q.category = true → q.category.getD "" ∈ itemsQueryParams q) ∧
    (given q.color = true → q.color.getD "" ∈ itemsQueryParams q) ∧
    (given q.season = true → "%" ++ q.season.getD "" ++ "%" ∈ itemsQueryParams q) ∧
    (given q.search = true → "%" ++ q.search.getD "" ++ "%" ∈ itemsQueryParams q) ∧
    (given o.season = true → o.season.getD "" ∈ outfitsQueryParams o) ∧
    (given o.style = true → o.style.getD "" ∈ outfitsQueryParams o) ∧
    (given o.search = true → "%" ++ o.search.getD "" ++ "%" ∈ outfitsQueryParams o) := by
  refine ⟨?_, ?_, ?_, ?_, ?_, ?_, ?_, ?_, ?_⟩
  · rintro ⟨h1, h2, h3, h4⟩
    simp only [itemsQueryText, h1, h2, h3, h4]
  · rintro ⟨h1, h2, h3⟩
    simp only [outfitsQueryText, h1, h2, h3]
  · intro h; simp [itemsQueryParams, h]
  · intro h; simp [itemsQueryParams, h]
  · intro h; simp [itemsQueryParams, h]
  · intro h; simp [itemsQueryParams, h]
  · intro h; simp [outfitsQueryParams, h]
  · intro h; simp [outfitsQueryParams, h]
  · intro h; simp [outfitsQueryParams, h]

/-- Witness of C25: a request for tops named `shirt` and a request whose values
are fragments of SQL build the same text. -/
theorem query_text_by_presence_witness :
    itemsQueryText (topsNamed "top" "shirt")
      = itemsQueryText (topsNamed "x OR 1=1" "%; DROP TABLE wardrobe_items; --") ∧
    outfitsQueryText (outfitsNamed "summer" "dress")
      = outfitsQueryText (outfitsNamed "x OR 1=1" "%; DROP TABLE outfit_records; --") :=
  ⟨(query_text_by_presence (topsNamed "top" "shirt")
      (topsNamed "x OR 1=1" "%; DROP TABLE wardrobe_items; --")
      (outfitsNamed "summer" "dress")
      (outfitsNamed "x OR 1=1" "%; DROP TABLE outfit_records; --")).1
      ⟨by decide, by decide, by decide, by decide⟩,
    (query_text_by_presence (topsNamed "top" "shirt")
      (topsNamed "x OR 1=1" "%; DROP TABLE wardrobe_items; --")
      (outfitsNamed "summer" "dress")
      (outfitsNamed "x OR 1=1" "%; DROP TABLE outfit_records; --")).2.1
      ⟨by decide, by decide, by decide⟩⟩

/-- C28: in a store whose item identifiers are pairwise distinct (the primary
key), `DELETE /api/items/:id` of a stored item answers 200 with success; the
item rows afterwards are the rows before without the row of that identifier, in
the same order and unchanged, the outfit and inspiration tables and the
identifier counters are as before, and there is exactly one item row less. -/
theorem delete_existing_item (id : Nat) (st : Store) (row : ItemRow)
    (hkey : (st.items.map (fun r => r.id)).Nodup)
    (hrow : row ∈ st.items) (hid : row.id = id) :
    (deleteItem id st).2.status = 200 ∧ (deleteItem id st).2.success = true ∧
    (∀ r ∈ (deleteItem id st).1.items, r.id ≠ id) ∧
    (∀ r, r.id ≠ id → (r ∈ (deleteItem id st).1.items ↔ r ∈ st.items)) ∧
    (deleteItem id st).1.items = st.items.filter (fun r => decide (r.id ≠ id)) ∧
    (deleteItem id st).1.outfits = st.outfits ∧
    (deleteItem id st).1.inspirations = st.inspirations ∧
    (deleteItem id st).1.itemSeq = st.itemSeq ∧
    (deleteItem id st).1.items.length + 1 = st.items.length := by
  have hany : ∃ r0, selectItem id st = some r0 := by
    cases hsel : selectItem id st with
    | some r0 => exact ⟨r0, rfl⟩
    | none =>
      exfalso
      have := List.find?_eq_none.mp hsel row hrow
      simp [hid] at this
  obtain ⟨r0, hsel⟩ := hany
  have hres : deleteItem id st = (deleteItemRow id st, success 200 "删除成功" .none) := by
    simp [deleteItem, hsel]
  rw [hres]
  refine ⟨rfl, rfl, ?_, ?_, ?_, rfl, rfl, rfl, ?_⟩
  · intro r hr
    have := (List.mem_filter.mp hr).2
    simpa using this
  · intro r hne
    show r ∈ st.items.filter (fun r => !(r.id == id)) ↔ r ∈ st.items
    simp [List.mem_filter, hne]
  · show st.items.filter (fun r => !(r.id == id)) = _
    congr 1
    funext r
    by_cases h : r.id = id <;> simp [h]
  · exact filter_length_of_nodup id st.items r0 hkey hsel

/-- Witness of C28: the delete of the one item of the example store. -/
theorem delete_existing_item_witness :
    (deleteItem 1 oneJacket).2.status = 200 ∧ (deleteItem 1 oneJacket).1.items = [] ∧
    (deleteItem 1 oneJacket).1.items.length + 1 = oneJacket.items.length :=
  have h := delete_existing_item 1 oneJacket (createdItemRow "2024-05-01 10:00:00" blueJacket
    Store.empty) (by decide) (by decide) (by decide)
  ⟨h.1, by decide, h.2.2.2.2.2.2.2.2⟩

/-- C22, at the failing input: on 2024-05-10, when `date('now', '-7 days')` is
`2024-05-03`, the trend of a store whose one outfit is dated 2099-01-01 has an
entry for that date, a day after the request and outside its last seven days. -/
theorem trend_future_date :
    futureStore.outfits.map (fun r => r.date) = [.text "2099-01-01"] ∧
    (outfitStatisticsOf (getOutfitStatistics (thisMonthOn "2024-05-10") "2024-05-03"
      futureStore)).map (fun s => s.trend) = some [(.text "2099-01-01", 1)] ∧
    sqlLt (.text "2024-05-10") (.text "2099-01-01") = true := by
  refine ⟨by decide, by decide!, by decide!⟩

/-- C23, as stated, fails: `POST /api/items` with `garbledBody` on the empty
store answers 500 without success, and the store afterwards holds a row that
was not there before. -/
theorem failure_unchanged_counterexample :
    (createItem "2024-05-01 10:00:00" garbledBody Store.empty).2.status = 500 ∧
    (createItem "2024-05-01 10:00:00" garbledBody Store.empty).2.success = false ∧
    Store.empty.items = [] ∧
    (createItem "2024-05-01 10:00:00" garbledBody Store.empty).1.items.map
      (fun r => (r.id, r.name, r.seasons)) = [(1, .text "coat", .text "oops")] ∧
    (createItem "2024-05-01 10:00:00" garbledBody Store.empty).1 ≠ Store.empty := by
  refine ⟨by decide, by decide, rfl, by decide, by decide⟩

/-- C23, amended: for each of the twelve write endpoints (Create, Replace,
Delete and Batch-Create of items, outfits and inspirations), every store and
every request whose body has scalar column values where it is the body of a
Create or Replace of an item or an inspiration: when the response is a failure,
the store after the call is the store before it. The read endpoints do not
write. -/
theorem failure_unchanged (c : Call) (st : Store) (hc : scalarWrite c = true)
    (hf : (c.run st).2.success = false) : (c.run st).1 = st := by
  rcases call_settled c st hc with h | h
  · rw [h] at hf; cases hf
  · exact h

/-- The statement of C23 at a concrete input: a Create without `category` and
`color` on the example store is answered 400 and leaves the store as it was. -/
theorem failure_unchanged_witness :
    (Call.run (.postItem "2024-05-02 09:00:00" [("name", .str "Scarf")]) oneJacket).2.status
      = 400 ∧
    (Call.run (.postItem "2024-05-02 09:00:00" [("name", .str "Scarf")]) oneJacket).1
      = oneJacket :=
  ⟨by decide, failure_unchanged (.postItem "2024-05-02 09:00:00" [("name", .str "Scarf")])
    oneJacket (by decide) (by decide)⟩

/-- C29, at the failing input: `PUT /api/inspirations/1` with a body without
`tags` answers 200 with a record whose `tags` is `null`, and the
`GET /api/inspirations/1` that follows answers with `tags` the empty array. -/
theorem replace_then_get_tags :
    (replaceInspiration "2024-05-02 09:00:00" 1 untaggedLook oneLook).2.status = 200 ∧
    (inspirationOf (replaceInspiration "2024-05-02 09:00:00" 1 untaggedLook oneLook).2).map
      (fun r => r.tags) = some .null ∧
    (getInspiration 1
      (replaceInspiration "2024-05-02 09:00:00" 1 untaggedLook oneLook).1).status = 200 ∧
    (inspirationOf (getInspiration 1
      (replaceInspiration "2024-05-02 09:00:00" 1 untaggedLook oneLook).1)).map
      (fun r => r.tags) = some (.arr []) ∧
    (replaceInspiration "2024-05-02 09:00:00" 1 untaggedLook oneLook).1.inspirations.map
      (fun r => r.tags) = [.null] := by
  refine ⟨by decide, rfl, by decide, rfl, by decide⟩

/-- C24: over any sequence of write calls from the empty store (Create,
Batch-Create and Delete, and Replace as well, with arbitrary bodies), and for
each of the three tables: the identifiers assigned, in the order of their
assignment, increase strictly, so none is assigned twice, also after the row
that held it was deleted; the identifiers of the stored rows increase in rowid
order, are pairwise distinct and are among the assigned ones; and every
identifier a further call assigns is greater than all assigned before. -/
theorem identifiers_increase (t : Table) (calls : List Call) :
    (assignedAlong t calls Store.empty).Pairwise (fun a b => a < b) ∧
    (assignedAlong t calls Store.empty).Nodup ∧
    (tableIds t (runCalls calls Store.empty)).Pairwise (fun a b => a < b) ∧
    (tableIds t (runCalls calls Store.empty)).Nodup ∧
    (∀ i ∈ tableIds t (runCalls calls Store.empty), i ∈ assignedAlong t calls Store.empty) ∧
    ∀ (c : Call),
      ∀ i ∈ assignedBy t (runCalls calls Store.empty) (c.run (runCalls calls Store.empty)).1,
        ∀ j ∈ assignedAlong t calls Store.empty, j < i := by
  obtain ⟨hp, hb, _, ha, hm⟩ := assigned_ascending t calls Store.empty (ascending_empty t)
  have hlt : ∀ (l : List Nat), l.Pairwise (fun a b => a < b) → l.Nodup := by
    intro l hl
    exact hl.imp (fun h => Nat.ne_of_lt h)
  refine ⟨hp, hlt _ hp, ha.1, hlt _ ha.1, ?_, ?_⟩
  · intro i hi
    rcases hm i hi with h | h
    · cases t <;> simp [tableIds, Store.empty] at h
    · exact h
  · intro c i hi j hj
    have h1 := (ascending_step t _ _ ha (call_table c t _)).2.2.2 i hi
    have h2 := (hb j hj).2
    omega

/-- C21, as stated, fails: on 2024-05-17, in the store after a Create with the
purchase date `2024-05`, the text of one item begins with `2024-05` and
`monthAdded` is 0. -/
theorem month_added_counterexample :
    (createItem "2024-05-01 10:00:00" monthOnlyJacket Store.empty).1.items.map
      (fun r => r.purchase_date) = [.text "2024-05"] ∧
    ((createItem "2024-05-01 10:00:00" monthOnlyJacket Store.empty).1.items.filter
      (fun r => beginsWith ("2024-05-17".data.take 7) r.purchase_date)).length = 1 ∧
    monthAddedOf (getStatistics (thisMonthOn "2024-05-17")
      (createItem "2024-05-01 10:00:00" monthOnlyJacket Store.empty).1) = some 0 := by
  refine ⟨by decide, by decide, by decide⟩

/-- C21, amended: on every day `today` and in every store whose purchase dates
are each NULL, the empty string or a calendar date `YYYY-MM-DD`, `monthAdded` of
`GET /api/statistics` is the number of stored items whose `purchase_date` begins
with the year and month of `today`. -/
theorem month_added (today : String) (st : Store)
    (htoday : isCalendarDate today.data = true)
    (hdates : ∀ r ∈ st.items, dateOrBlank r.purchase_date = true) :
    monthAddedOf (getStatistics (thisMonthOn today) st) =
      some (st.items.filter
        (fun r => beginsWith (today.data.take 7) r.purchase_date)).length := by
  show some (st.items.filter (fun r => thisMonthOn today r.purchase_date)).length = _
  congr 2
  apply List.filter_congr
  intro r hr
  exact thisMonthOn_eq_beginsWith today r.purchase_date htoday (hdates r hr)

/-- Witness of C21: on 2024-05-17, of three items bought on 2024-05-03, on
2024-04-20 and at no recorded date, one counts. -/
theorem month_added_witness :
    monthAddedOf (getStatistics (thisMonthOn "2024-05-17") threeJackets) = some 1 ∧
    monthAddedOf (getStatistics (thisMonthOn "2024-05-17") threeJackets) =
      some (threeJackets.items.filter
        (fun r => beginsWith ("2024-05-17".data.take 7) r.purchase_date)).length :=
  ⟨by decide, month_added "2024-05-17" threeJackets (by decide) (by decide)⟩

/-- C26, as stated, fails: after a Create with the example body, the Replace of
item 1 with a body whose `name` is the empty string is answered 200 and leaves
the empty string as the name of the stored item. -/
theorem names_nonempty_counterexample :
    (replaceItem "2024-05-02 09:00:00" 1 namelessCoat oneJacket).2.status = 200 ∧
    (runItemCalls [.create "2024-05-01 10:00:00" blueJacket,
      .replace "2024-05-02 09:00:00" 1 namelessCoat] Store.empty).items.map
      (fun r => r.name) = [.text ""] := by
  refine ⟨by decide, by decide⟩

/-- C26, amended: in every store reachable from the empty store by a sequence of
item Create, Replace and Batch-Create calls in which every body (for a batch,
every record) has scalar column values and no Replace body and no batch record
has the empty string as `name`, the name of every stored item is a non-empty
text. -/
theorem names_nonempty (calls : List ItemCall)
    (h : ∀ c ∈ calls, namedCall c = true) :
    ∀ r ∈ (runItemCalls calls Store.empty).items, nonEmptyText r.name = true :=
  named_runCalls calls Store.empty (fun r hr => absurd hr (List.not_mem_nil r)) h

/-- The statement of C26 at a concrete input: the row the replace of the three
example calls leaves. -/
theorem names_nonempty_witness : nonEmptyText redCoatRow.name = true :=
  names_nonempty threeCalls
    (by
      intro c hc
      simp only [threeCalls, List.mem_cons, List.mem_singleton, List.not_mem_nil,
        or_false] at hc
      rcases hc with rfl | rfl | rfl <;> rfl)
    redCoatRow (by decide)

/-- C27, as stated, fails: from the empty store, `POST /api/items` with the
example body and the price -5 is answered 201 and stores the price -5. -/
theorem prices_nonnegative_counterexample :
    (createItem "2024-05-01 10:00:00" refundJacket Store.empty).2.status = 201 ∧
    (runItemCalls [.create "2024-05-01 10:00:00" refundJacket] Store.empty).items.map
      (fun r => r.price) = [.real (-5)] := by
  refine ⟨by decide, by decide⟩

/-- C27, amended: in every store reachable from the empty store by a sequence of
item Create, Replace and Batch-Create calls in which every body (for a batch,
every record) has scalar column values and a `price` that is a number not below
zero or, on Create and in a batch record, omitted, the price of every stored
item is a number not below zero. -/
theorem prices_nonnegative (calls : List ItemCall)
    (h : ∀ c ∈ calls, pricedCall c = true) :
    ∀ r ∈ (runItemCalls calls Store.empty).items, nonNegative r.price = true :=
  priced_runCalls calls Store.empty (fun r hr => absurd hr (List.not_mem_nil r)) h

/-- The statement of C27 at a concrete input: the row the batch of the three
example calls stores. -/
theorem prices_nonnegative_witness : nonNegative trenchRow.price = true :=
  prices_nonnegative threeCalls
    (by
      intro c hc
      simp only [threeCalls, List.mem_cons, List.mem_singleton, List.not_mem_nil,
        or_false] at hc
      rcases hc with rfl | rfl | rfl <;> rfl)
    trenchRow (by decide)

/-- C30, as stated, fails: `POST /api/items/batch` with the one record
`garbledBody` on the empty store answers 200 with success and stores a row whose
`seasons` text does not decode; `GET /api/items` and `GET /api/items/1` answer
500 afterwards. -/
theorem decoding_succeeds_counterexample :
    (batchItems "2024-05-01 10:00:00" [("items", .arr [.obj garbledBody])]
      Store.empty).2.status = 200 ∧
    (batchItems "2024-05-01 10:00:00" [("items", .arr [.obj garbledBody])]
      Store.empty).2.success = true ∧
    (batchItems "2024-05-01 10:00:00" [("items", .arr [.obj garbledBody])]
      Store.empty).1.items.map (fun r => (r.id, r.seasons)) = [(1, .text "oops")] ∧
    JSON_parse (toJs (.text "oops")) = none ∧
    (listItems noFilter (batchItems "2024-05-01 10:00:00" [("items", .arr [.obj garbledBody])]
      Store.empty).1).status = 500 ∧
    (getItem 1 (batchItems "2024-05-01 10:00:00" [("items", .arr [.obj garbledBody])]
      Store.empty).1).status = 500 := by
  refine ⟨by decide, by decide, by decide, rfl, by decide, by decide⟩

/-- C30, amended: in every store reachable from the empty store by a sequence of
write calls on the three resources in which every body of an item or inspiration
call (for a batch: every record) has scalar column values, the stored `seasons`
of every item and the stored `tags` of every inspiration decode, and the List
and Get handlers of items and inspirations answer 200, or 404 for an unknown
identifier, never 500. -/
theorem decoding_succeeds (calls : List Call) (h : ∀ c ∈ calls, plainCall c = true) :
    (∀ r ∈ (runCalls calls Store.empty).items, ∃ v, JSON_parse (toJs r.seasons) = some v) ∧
    (∀ r ∈ (runCalls calls Store.empty).inspirations, ∃ v, parseTags r.tags = some v) ∧
    (∀ q, (listItems q (runCalls calls Store.empty)).status = 200) ∧
    (∀ id, (getItem id (runCalls calls Store.empty)).status = 200 ∨
      (getItem id (runCalls calls Store.empty)).status = 404) ∧
    (listInspirations (runCalls calls Store.empty)).status = 200 ∧
    (∀ id, (getInspiration id (runCalls calls Store.empty)).status = 200 ∨
      (getInspiration id (runCalls calls Store.empty)).status = 404) := by
  have hd : Decodable (runCalls calls Store.empty) :=
    decodable_runCalls calls Store.empty
      ⟨fun r hr => absurd hr (List.not_mem_nil r), fun r hr => absurd hr (List.not_mem_nil r)⟩ h
  exact ⟨hd.1, hd.2, reads_of_decodable _ hd⟩

/-- The statement of C30 at a concrete input: after the seven example calls the
two List handlers answer 200. -/
theorem decoding_succeeds_witness :
    (listItems noFilter (runCalls sevenCalls Store.empty)).status = 200 ∧
    (listInspirations (runCalls sevenCalls Store.empty)).status = 200 ∧
    (runCalls sevenCalls Store.empty).items.length = 1 ∧
    (runCalls sevenCalls Store.empty).inspirations.map (fun r => r.tags) = [.null] :=
  have h := decoding_succeeds sevenCalls
    (by
      intro c hc
      simp only [sevenCalls, List.mem_cons, List.mem_singleton, List.not_mem_nil,
        or_false] at hc
      rcases hc with rfl | rfl | rfl | rfl | rfl | rfl | rfl <;> rfl)
  ⟨h.2.2.1 noFilter, h.2.2.2.2.1, by decide, by decide⟩

end Wardrobe
